import Mathlib

/-!
Shallow embedding of the ReactOS setup-library partition list engine
(`partlist.c` / `partlist.h`), restricted to the data model and the
operations exercised by the specification claims: region-list management,
partition creation/deletion, layout rebuilding, creation checks, the
supported-system-partition predicate, and the volume mount/dismount state
transitions.

Machine integers (`ULONGLONG`, `ULONG`, `UCHAR`) are modelled as `Nat`;
the one subtraction that can genuinely underflow on reachable inputs
(`InitializePartitionEntry`'s shrink of the current region) is modelled
with an explicit two's-complement 64-bit subtraction `usub64`.
Device and registry I/O is modelled by explicit oracle parameters
(e.g. the inferred filesystem and the queried label in `MountVolume`);
heap allocation is assumed to succeed except where the source reallocates
a NULL pointer (which fails on Windows).
-/

namespace PartListSpec

/-! ## Geometry arithmetic (partlist.c) -/

/-- `AlignDown(Value, Alignment) = (Value / Alignment) * Alignment` with
integer division, exactly as in the source. -/
def AlignDown (Value Alignment : Nat) : Nat :=
  Value / Alignment * Alignment

/-- Two to the 64th power: the modulus of `ULONGLONG` arithmetic. -/
def U64MOD : Nat := 18446744073709551616

/-- Two's-complement 64-bit subtraction for in-range operands: this is the
value computed by a C `ULONGLONG` subtraction `a - b` when `a, b < 2^64`.
Used exactly where the source can underflow. -/
def usub64 (a b : Nat) : Nat :=
  if b ≤ a then a - b else a + U64MOD - b

/-- Wrapping 64-bit addition: the value computed by a C `ULONGLONG`
addition (or `+=`) for in-range operands. Used where the source adds
sector counts that may have wrapped. -/
def uadd64 (a b : Nat) : Nat :=
  (a + b) % U64MOD

/-! ## MBR partition type constants

The numeric values are the standard NT DDK `ntdddisk.h` values; that header
is not part of this repository's sources. Modelled from the spec, which
names `PARTITION_EXTENDED (0x05)`, `PARTITION_XINT13_EXTENDED (0x0F)`,
`PARTITION_IFS`, and the FAT family `0x01, 0x04, 0x06, 0x0E, 0x0B, 0x0C`. -/

def PARTITION_ENTRY_UNUSED : Nat := 0x00
def PARTITION_FAT_12 : Nat := 0x01
def PARTITION_FAT_16 : Nat := 0x04
def PARTITION_EXTENDED : Nat := 0x05
def PARTITION_HUGE : Nat := 0x06
def PARTITION_IFS : Nat := 0x07
def PARTITION_FAT32 : Nat := 0x0B
def PARTITION_FAT32_XINT13 : Nat := 0x0C
def PARTITION_XINT13 : Nat := 0x0E
def PARTITION_XINT13_EXTENDED : Nat := 0x0F

/-- DDK macro `IsContainerPartition`: type `0x05` or `0x0F`
(spec: "MBR primary entry of type 0x05 or 0x0F"). -/
def IsContainerPartition (PartitionType : Nat) : Bool :=
  PartitionType == PARTITION_EXTENDED || PartitionType == PARTITION_XINT13_EXTENDED

/-- DDK macro `IsRecognizedPartition`: the MBR partition types NT recognizes.
Modelled from the spec ("a recognized type (including IsRecognizedPartition
bitmap)"); the header itself is not in the sources. -/
def IsRecognizedPartition (PartitionType : Nat) : Bool :=
  PartitionType == PARTITION_FAT_12 ||
  PartitionType == PARTITION_FAT_16 ||
  PartitionType == PARTITION_HUGE ||
  PartitionType == PARTITION_IFS ||
  PartitionType == PARTITION_FAT32 ||
  PartitionType == PARTITION_FAT32_XINT13 ||
  PartitionType == PARTITION_XINT13

/-! ## Data model (partlist.h) -/

/-- `FORMATSTATE` enumeration (partlist.h). `Unformatted` is the zero value,
so zero-initialized volumes are `Unformatted`. -/
inductive FORMATSTATE where
  | Unformatted
  | UnformattedOrDamaged
  | UnknownFormat
  | Formatted
deriving DecidableEq, Repr

/-- `PARTITION_STYLE`: disk partitioning style (`MBR`, `GPT`, or `RAW` for an
uninitialized disk). -/
inductive PARTITION_STYLE where
  | MBR
  | GPT
  | RAW
deriving DecidableEq, Repr

/-- `VOLINFO` (partlist.h): the filesystem view of a partitioned region.
`DriveLetter` is the `WCHAR` code (0 = none); `VolumeLabel` is the stored
label text, whose C declaration is `WCHAR VolumeLabel[20]` (19 characters
plus the NUL terminator). -/
structure VOLINFO where
  DeviceName : String
  DriveLetter : Nat
  VolumeLabel : List Char
  FileSystem : String
  FormatState : FORMATSTATE
  New : Bool
  NeedsCheck : Bool
deriving DecidableEq, Repr

/-- The capacity, in `WCHAR`s, of the `VolumeLabel` array in `VOLINFO`:
`WCHAR VolumeLabel[20]`. -/
def VOLUME_LABEL_CAPACITY : Nat := 20

/-- A zero-initialized `VOLINFO` (`RtlZeroMemory` over the structure). -/
def blankVolume : VOLINFO :=
  { DeviceName := ""
    DriveLetter := 0
    VolumeLabel := []
    FileSystem := ""
    FormatState := FORMATSTATE.Unformatted
    New := false
    NeedsCheck := false }

/-- `PARTENTRY` (partlist.h): one contiguous disk region. The intrusive
`ListEntry` links and the `DiskEntry` back-pointer are replaced by the
region's position in its owning disk's region list. -/
structure PARTENTRY where
  StartSector : Nat
  SectorCount : Nat
  BootIndicator : Bool
  PartitionType : Nat
  OnDiskPartitionNumber : Nat
  PartitionNumber : Nat
  PartitionIndex : Nat
  LogicalPartition : Bool
  IsPartitioned : Bool
  New : Bool
  AutoCreate : Bool
  Volume : VOLINFO
deriving DecidableEq, Repr

/-- `PARTITION_INFORMATION`: one kernel layout-buffer slot. -/
structure PARTITION_INFORMATION where
  StartingOffset : Nat
  PartitionLength : Nat
  HiddenSectors : Nat
  PartitionNumber : Nat
  PartitionType : Nat
  BootIndicator : Bool
  RecognizedPartition : Bool
  RewritePartition : Bool
deriving DecidableEq, Repr

/-- A zero layout-buffer slot. -/
def emptyPartitionInfo : PARTITION_INFORMATION :=
  { StartingOffset := 0
    PartitionLength := 0
    HiddenSectors := 0
    PartitionNumber := 0
    PartitionType := 0
    BootIndicator := false
    RecognizedPartition := false
    RewritePartition := false }

/-- `DRIVE_LAYOUT_INFORMATION`: the kernel-facing layout buffer.
`PartitionCount` is kept as a separate field, as in the source, because the
scanner can set it independently of the allocated entry array. -/
structure DRIVE_LAYOUT_INFORMATION where
  PartitionCount : Nat
  Signature : Nat
  PartitionEntry : List PARTITION_INFORMATION
deriving DecidableEq, Repr

/-- `DISKENTRY` (partlist.h), restricted to the fields read or written by the
modelled operations. The disk-identification fields (SCSI address, BIOS
parameters, driver name) are not used by any modelled operation and are
omitted. `ExtendedPartition`, a `PPARTENTRY` in the source, becomes a
reference `(LogicalPartition flag, index)` into the corresponding region
list; index adjustments on insertion/removal mirror C pointer stability. -/
structure DISKENTRY where
  Cylinders : Nat
  TracksPerCylinder : Nat
  SectorsPerTrack : Nat
  BytesPerSector : Nat
  SectorCount : Nat
  SectorAlignment : Nat
  CylinderAlignment : Nat
  Dirty : Bool
  NewDisk : Bool
  DiskStyle : PARTITION_STYLE
  LayoutBuffer : Option DRIVE_LAYOUT_INFORMATION
  PrimaryPartList : List PARTENTRY
  LogicalPartList : List PARTENTRY
  ExtendedPartition : Option (Bool × Nat)
deriving DecidableEq, Repr

/-- A reference to a region: owning disk index, list flag
(`true` = logical list), and index within that list. -/
structure REGIONREF where
  disk : Nat
  logical : Bool
  index : Nat
deriving DecidableEq, Repr

/-- `PARTLIST` (partlist.h): the disks, and the optional system partition
reference (a `PPARTENTRY` in the source, a `REGIONREF` here). The BIOS disk
list is not used by the modelled operations and is omitted. -/
structure PARTLIST where
  SystemPartition : Option REGIONREF
  Disks : List DISKENTRY
deriving DecidableEq, Repr

/-- Select a disk's primary or logical region list. -/
def regionList (DiskEntry : DISKENTRY) (logical : Bool) : List PARTENTRY :=
  if logical then DiskEntry.LogicalPartList else DiskEntry.PrimaryPartList

/-- Replace a disk's primary or logical region list. -/
def setRegionList (DiskEntry : DISKENTRY) (logical : Bool)
    (l : List PARTENTRY) : DISKENTRY :=
  if logical then { DiskEntry with LogicalPartList := l }
  else { DiskEntry with PrimaryPartList := l }

/-- Look up the region at `index` in the selected list. -/
def getRegion (DiskEntry : DISKENTRY) (logical : Bool) (index : Nat) :
    Option PARTENTRY :=
  (regionList DiskEntry logical).get? index

/-- Look up a disk-local region reference `(logical, index)`. -/
def getRegionRef (DiskEntry : DISKENTRY) (r : Bool × Nat) : Option PARTENTRY :=
  getRegion DiskEntry r.1 r.2

/-- Inclusive end sector of a region, as the source computes it:
`StartSector + SectorCount - 1` in `ULONGLONG` arithmetic. -/
def endSector (p : PARTENTRY) : Nat :=
  usub64 (p.StartSector + p.SectorCount) 1

/-! ## Queries (partlist.c) -/

/-- `IsSuperFloppy` (partlist.c): the layout reports exactly one partition
whose starting offset and hidden-sector count are both zero. The signature,
default-settings and length comparisons in the source only emit warnings and
do not affect the result. -/
def IsSuperFloppy (DiskEntry : DISKENTRY) : Bool :=
  match DiskEntry.LayoutBuffer with
  | none => false
  | some lb =>
    if lb.PartitionCount ≠ 1 then false
    else
      let PartitionInfo := lb.PartitionEntry.headD emptyPartitionInfo
      if ¬(PartitionInfo.StartingOffset = 0 ∧ PartitionInfo.HiddenSectors = 0)
      then false
      else true

/-- `GetPartitionCount` (partlist.c): number of regions in a list whose
`IsPartitioned` flag is set. -/
def GetPartitionCount (PartListHead : List PARTENTRY) : Nat :=
  PartListHead.countP (fun p => p.IsPartitioned)

/-- `GetPrimaryPartitionCount` macro. -/
def GetPrimaryPartitionCount (DiskEntry : DISKENTRY) : Nat :=
  GetPartitionCount DiskEntry.PrimaryPartList

/-- `GetLogicalPartitionCount` macro: zero for non-MBR disks. -/
def GetLogicalPartitionCount (DiskEntry : DISKENTRY) : Nat :=
  if DiskEntry.DiskStyle = PARTITION_STYLE.MBR
  then GetPartitionCount DiskEntry.LogicalPartList else 0

/-! ## Region-list insertion (partlist.c) -/

/-- The sentinel test of `InsertDiskRegion`'s walk: unused empty regions
(`PartitionType == PARTITION_ENTRY_UNUSED && StartSector == 0`, or
`SectorCount == 0`) are ignored during comparisons. -/
def isSentinelRegion (p : PARTENTRY) : Bool :=
  (p.PartitionType == PARTITION_ENTRY_UNUSED && p.StartSector == 0) ||
  p.SectorCount == 0

/-- The walk of `InsertDiskRegion`: find the first non-sentinel region not
ending before `PartEntry`, fail when it overlaps `PartEntry` inclusively
(`max(starts) <= min(ends)`), and otherwise insert `PartEntry` before it
(`InsertTailList(Entry, ...)`); reaching the list head appends at the end. -/
def insertRegionSorted (PartEntry : PARTENTRY) :
    List PARTENTRY → Option (List PARTENTRY)
  | [] => some [PartEntry]
  | q :: rest =>
    if isSentinelRegion q then
      (insertRegionSorted PartEntry rest).map (q :: ·)
    else if endSector q < PartEntry.StartSector then
      (insertRegionSorted PartEntry rest).map (q :: ·)
    else if max PartEntry.StartSector q.StartSector ≤
            min (endSector PartEntry) (endSector q) then
      none
    else
      some (PartEntry :: q :: rest)

/-- `InsertDiskRegion` (partlist.c): insert a region into the primary or
logical list at its sorted position, refusing overlapping insertions. -/
def InsertDiskRegion (DiskEntry : DISKENTRY) (PartEntry : PARTENTRY)
    (LogicalPartition : Bool) : Option DISKENTRY :=
  (insertRegionSorted PartEntry (regionList DiskEntry LogicalPartition)).map
    (setRegionList DiskEntry LogicalPartition)

/-! ## Blank regions and partition-entry initialization (partlist.c) -/

/-- `CreateInsertBlankRegion` (partlist.c): the allocated, zero-initialized
blank region. The insertion itself (`InsertTailList` at the caller-chosen
position) is performed at each call site in this embedding. -/
def CreateInsertBlankRegion (StartSector SectorCount : Nat)
    (LogicalSpace : Bool) : PARTENTRY :=
  { StartSector := StartSector
    SectorCount := SectorCount
    BootIndicator := false
    PartitionType := PARTITION_ENTRY_UNUSED
    OnDiskPartitionNumber := 0
    PartitionNumber := 0
    PartitionIndex := 0
    LogicalPartition := LogicalSpace
    IsPartitioned := false
    New := false
    AutoCreate := false
    Volume := blankVolume }

/-- Modelled from the spec: `FileSystemToMBRPartitionType` lives in
`fsutil.c`, which is not among the sources; the spec says the helper
"infers a suitable MBR type from the 'RAW' filesystem (yields FAT-family
types by size)". Only its use for the `L"RAW"` filesystem is needed here. -/
def FileSystemToMBRPartitionType (StartSector SectorCount : Nat) : Nat :=
  if SectorCount < 8192 then PARTITION_FAT_12
  else if StartSector < 1450560 then
    if SectorCount < 65536 then PARTITION_FAT_16
    else PARTITION_HUGE
  else
    PARTITION_XINT13

/-- The stamping step at the end of `InitializePartitionEntry`: convert the
region to a new partition entry (`New`, `IsPartitioned`, partition type from
the RAW-filesystem helper, zeroed volume with `Volume.New`, boot indicator
cleared). -/
def stampNewPartition (p : PARTENTRY) : PARTENTRY :=
  { p with
    New := true
    IsPartitioned := true
    PartitionType := FileSystemToMBRPartitionType p.StartSector p.SectorCount
    Volume := { blankVolume with New := true }
    BootIndicator := false }

/-- `InitializePartitionEntry` (partlist.c): initialize the free region at
`(logical, i)` with `SectorCount` sectors. Fails when `SectorCount` exceeds
the region's sector count. Reuses the whole region when `SectorCount` is
zero or the aligned end reaches the region's natural end (the comparison and
the shrink are `ULONGLONG` subtractions, hence `usub64`); otherwise inserts
the remaining space as a blank region right after the current one
(`InsertTailList(PartEntry->ListEntry.Flink, ...)`) and shrinks the current
region. -/
def InitializePartitionEntry (DiskEntry : DISKENTRY) (logical : Bool)
    (i : Nat) (SectorCount : Nat) : Option DISKENTRY :=
  match getRegion DiskEntry logical i with
  | none => none
  | some PartEntry =>
    if SectorCount > PartEntry.SectorCount then none
    else
      let l := regionList DiskEntry logical
      if SectorCount = 0 ∨
         usub64 (AlignDown (PartEntry.StartSector + SectorCount)
                   DiskEntry.SectorAlignment)
                PartEntry.StartSector = PartEntry.SectorCount then
        -- Reuse the whole current entry
        some (setRegionList DiskEntry logical
                (l.take i ++ stampNewPartition PartEntry :: l.drop (i + 1)))
      else
        let StartSector :=
          AlignDown (PartEntry.StartSector + SectorCount)
            DiskEntry.SectorAlignment
        let SectorCount2 :=
          PartEntry.StartSector + PartEntry.SectorCount - StartSector
        let NewPartEntry :=
          CreateInsertBlankRegion StartSector SectorCount2
            PartEntry.LogicalPartition
        let PartEntry2 :=
          { PartEntry with
            SectorCount := usub64 StartSector PartEntry.StartSector }
        -- A region was inserted after position i in this list: a stored
        -- extended-partition reference past that position keeps designating
        -- the same region (pointer stability in the source).
        let ext :=
          DiskEntry.ExtendedPartition.map (fun r =>
            if r.1 = logical ∧ i + 1 ≤ r.2 then (r.1, r.2 + 1) else r)
        some { setRegionList DiskEntry logical
                 (l.take i ++ stampNewPartition PartEntry2 ::
                   NewPartEntry :: l.drop (i + 1)) with
               ExtendedPartition := ext }

/-! ## Creation checks (partlist.c) -/

/-- `ERROR_NUMBER`: the editor's error taxonomy (the enumeration lives in a
header outside these sources; constructor names follow the spec's §7 error
taxonomy and the source's usages). -/
inductive ERROR_NUMBER where
  | NOT_AN_ERROR
  | ERROR_WARN_PARTITION
  | ERROR_NEW_PARTITION
  | ERROR_PARTITION_TABLE_FULL
  | ERROR_ONLY_ONE_EXTENDED
deriving DecidableEq, Repr

/-- `PartitionCreationChecks` (partlist.c). -/
def PartitionCreationChecks (DiskEntry : DISKENTRY) (PartEntry : PARTENTRY) :
    ERROR_NUMBER :=
  if DiskEntry.DiskStyle = PARTITION_STYLE.GPT then
    ERROR_NUMBER.ERROR_WARN_PARTITION
  else if PartEntry.IsPartitioned then
    ERROR_NUMBER.ERROR_NEW_PARTITION
  else if ¬PartEntry.LogicalPartition then
    if IsSuperFloppy DiskEntry then
      ERROR_NUMBER.ERROR_PARTITION_TABLE_FULL
    else if 4 ≤ GetPrimaryPartitionCount DiskEntry then
      ERROR_NUMBER.ERROR_PARTITION_TABLE_FULL
    else
      ERROR_NUMBER.NOT_AN_ERROR
  else
    if IsSuperFloppy DiskEntry then
      ERROR_NUMBER.ERROR_PARTITION_TABLE_FULL
    else
      ERROR_NUMBER.NOT_AN_ERROR

/-- `ExtendedPartitionCreationChecks` (partlist.c). -/
def ExtendedPartitionCreationChecks (DiskEntry : DISKENTRY)
    (PartEntry : PARTENTRY) : ERROR_NUMBER :=
  if DiskEntry.DiskStyle = PARTITION_STYLE.GPT then
    ERROR_NUMBER.ERROR_WARN_PARTITION
  else if PartEntry.IsPartitioned then
    ERROR_NUMBER.ERROR_NEW_PARTITION
  else if IsSuperFloppy DiskEntry then
    ERROR_NUMBER.ERROR_PARTITION_TABLE_FULL
  else if 4 ≤ GetPrimaryPartitionCount DiskEntry then
    ERROR_NUMBER.ERROR_PARTITION_TABLE_FULL
  else if DiskEntry.ExtendedPartition ≠ none then
    ERROR_NUMBER.ERROR_ONLY_ONE_EXTENDED
  else
    ERROR_NUMBER.NOT_AN_ERROR

/-- The size conversion shared by `CreatePartition` and
`CreateExtendedPartition` (partlist.c, identical blocks): `SizeBytes` zero
or equal to the region's byte size selects the whole region; otherwise the
byte count is divided by the bytes-per-sector and clamped to the region's
sector count, failing when the result is zero. -/
def sizeToSectorCount (SizeBytes BytesPerSector RegionSectorCount : Nat) :
    Option Nat :=
  if SizeBytes = 0 ∨ SizeBytes = RegionSectorCount * BytesPerSector then
    some RegionSectorCount
  else
    let SectorCount := SizeBytes / BytesPerSector
    let SectorCount := min SectorCount RegionSectorCount
    if SectorCount = 0 then none else some SectorCount

/-! ## Layout-buffer rebuilding (partlist.c) -/

/-- Two to the 32nd power: the modulus for `ULONG`/`LowPart` truncations. -/
def U32MOD : Nat := 4294967296

/-- `GetPartEntryOffsetInBytes` macro (partlist.h). -/
def GetPartEntryOffsetInBytes (DiskEntry : DISKENTRY) (PartEntry : PARTENTRY) :
    Nat :=
  PartEntry.StartSector * DiskEntry.BytesPerSector

/-- `GetPartEntrySizeInBytes` macro (partlist.h). -/
def GetPartEntrySizeInBytes (DiskEntry : DISKENTRY) (PartEntry : PARTENTRY) :
    Nat :=
  PartEntry.SectorCount * DiskEntry.BytesPerSector

/-- `IsEmptyLayoutEntry` (partlist.c). -/
def IsEmptyLayoutEntry (PartitionInfo : PARTITION_INFORMATION) : Bool :=
  PartitionInfo.StartingOffset == 0 && PartitionInfo.PartitionLength == 0

/-- `IsSamePrimaryLayoutEntry` (partlist.c): same starting offset and length. -/
def IsSamePrimaryLayoutEntry (DiskEntry : DISKENTRY)
    (PartitionInfo : PARTITION_INFORMATION) (PartEntry : PARTENTRY) : Bool :=
  PartitionInfo.StartingOffset == GetPartEntryOffsetInBytes DiskEntry PartEntry &&
  PartitionInfo.PartitionLength == GetPartEntrySizeInBytes DiskEntry PartEntry

/-- The entry-array resize of `ReAllocateLayoutBuffer`: grow with zeroed
slots (marked for rewrite) or truncate. -/
def resizeLayoutBuffer (lb : DRIVE_LAYOUT_INFORMATION)
    (NewPartitionCount : Nat) : DRIVE_LAYOUT_INFORMATION :=
  let grown :=
    (lb.PartitionEntry ++
      List.replicate (NewPartitionCount - lb.PartitionEntry.length)
        emptyPartitionInfo).take NewPartitionCount
  { lb with
    PartitionCount := NewPartitionCount
    PartitionEntry :=
      grown.mapIdx (fun i e =>
        if lb.PartitionCount ≤ i then { e with RewritePartition := true }
        else e) }

/-- `ReAllocateLayoutBuffer` (partlist.c): resize the layout buffer to
`4 + 4 * logical partition count` entries. Reallocating a missing (NULL)
buffer fails, as `RtlReAllocateHeap` does on a NULL pointer; other
allocations are assumed to succeed. -/
def ReAllocateLayoutBuffer (DiskEntry : DISKENTRY) : Option DISKENTRY :=
  let NewPartitionCount := 4 + GetLogicalPartitionCount DiskEntry * 4
  let CurrentPartitionCount :=
    (DiskEntry.LayoutBuffer.map (·.PartitionCount)).getD 0
  if CurrentPartitionCount = NewPartitionCount then some DiskEntry
  else
    match DiskEntry.LayoutBuffer with
    | none => none
    | some lb =>
      some { DiskEntry with
             LayoutBuffer := some (resizeLayoutBuffer lb NewPartitionCount) }

/-- The per-region bookkeeping of `UpdateDiskLayout`'s primary pass: reset
the partition number of new partitions, record the layout index, and assign
the running on-disk partition number (containers get 0). -/
def bookkeepPrimary (p : PARTENTRY) (Index PartitionNumber : Nat) : PARTENTRY :=
  { (if p.New then { p with PartitionNumber := 0 } else p) with
    PartitionIndex := Index
    OnDiskPartitionNumber :=
      if ¬IsContainerPartition p.PartitionType then PartitionNumber else 0 }

/-- The per-region bookkeeping of `UpdateDiskLayout`'s logical pass. -/
def bookkeepLogical (p : PARTENTRY) (Index PartitionNumber : Nat) : PARTENTRY :=
  { (if p.New then { p with PartitionNumber := 0 } else p) with
    PartitionIndex := Index
    OnDiskPartitionNumber := PartitionNumber }

/-- The primary-table pass of `UpdateDiskLayout`: walk the primary regions;
for each partitioned one, record its layout index, reset its partition
number if new, assign the running on-disk number (containers get 0), and
update the layout slot unless it already matches. Returns the updated
regions, entries, final index and next partition number. -/
def updatePrimaryPass (DiskEntry : DISKENTRY) :
    List PARTENTRY → Nat → Nat → List PARTITION_INFORMATION →
    List PARTENTRY × List PARTITION_INFORMATION × Nat × Nat
  | [], Index, PartitionNumber, entries => ([], entries, Index, PartitionNumber)
  | p :: rest, Index, PartitionNumber, entries =>
    if p.IsPartitioned then
      let p2 := bookkeepPrimary p Index PartitionNumber
      let info := entries.getD Index emptyPartitionInfo
      let entries2 :=
        if IsSamePrimaryLayoutEntry DiskEntry info p2 then entries
        else
          entries.set Index
            { StartingOffset := GetPartEntryOffsetInBytes DiskEntry p2
              PartitionLength := GetPartEntrySizeInBytes DiskEntry p2
              HiddenSectors := p2.StartSector % U32MOD
              PartitionNumber := p2.PartitionNumber
              PartitionType := p2.PartitionType
              BootIndicator := p2.BootIndicator
              RecognizedPartition := IsRecognizedPartition p2.PartitionType
              RewritePartition := true }
      let NextNumber :=
        if ¬IsContainerPartition p2.PartitionType then PartitionNumber + 1
        else PartitionNumber
      let next := updatePrimaryPass DiskEntry rest (Index + 1) NextNumber entries2
      (p2 :: next.1, next.2.1, next.2.2.1, next.2.2.2)
    else
      let next := updatePrimaryPass DiskEntry rest Index PartitionNumber entries
      (p :: next.1, next.2.1, next.2.2.1, next.2.2.2)

/-- The logical-table pass of `UpdateDiskLayout`: walk the logical regions
with layout stride 4 starting at index 4; each partitioned one fills its
slot unconditionally, and fills the pending link slot (saved as
`Index + 1` of the previous logical) with the container descriptor of the
current logical (type chosen by the 1,450,560-sector boundary). -/
def updateLogicalPass (DiskEntry : DISKENTRY) (ExtStartSector : Nat) :
    List PARTENTRY → Nat → Nat → Option Nat → List PARTITION_INFORMATION →
    List PARTENTRY × List PARTITION_INFORMATION
  | [], _, _, _, entries => ([], entries)
  | p :: rest, Index, PartitionNumber, LinkIndex, entries =>
    if p.IsPartitioned then
      let p2 := bookkeepLogical p Index PartitionNumber
      let entries2 :=
        entries.set Index
          { StartingOffset := GetPartEntryOffsetInBytes DiskEntry p2
            PartitionLength := GetPartEntrySizeInBytes DiskEntry p2
            HiddenSectors := DiskEntry.SectorAlignment
            PartitionNumber := p2.PartitionNumber
            PartitionType := p2.PartitionType
            BootIndicator := false
            RecognizedPartition := IsRecognizedPartition p2.PartitionType
            RewritePartition := true }
      let entries3 :=
        match LinkIndex with
        | none => entries2
        | some li =>
          entries2.set li
            { StartingOffset :=
                usub64 p2.StartSector DiskEntry.SectorAlignment *
                  DiskEntry.BytesPerSector
              PartitionLength :=
                (p2.StartSector + DiskEntry.SectorAlignment) *
                  DiskEntry.BytesPerSector
              HiddenSectors :=
                usub64 (usub64 p2.StartSector DiskEntry.SectorAlignment)
                  ExtStartSector % U32MOD
              PartitionNumber := 0
              PartitionType :=
                if p2.StartSector < 1450560 then PARTITION_EXTENDED
                else PARTITION_XINT13_EXTENDED
              BootIndicator := false
              RecognizedPartition := false
              RewritePartition := true }
      let next :=
        updateLogicalPass DiskEntry ExtStartSector rest (Index + 4)
          (PartitionNumber + 1) (some (Index + 1)) entries3
      (p2 :: next.1, next.2)
    else
      let next :=
        updateLogicalPass DiskEntry ExtStartSector rest Index PartitionNumber
          LinkIndex entries
      (p :: next.1, next.2)

/-- A wiped layout slot: all fields zero, marked for rewrite. -/
def wipedLayoutEntry : PARTITION_INFORMATION :=
  { emptyPartitionInfo with RewritePartition := true }

/-- The wipe loops of `UpdateDiskLayout`: reset each non-empty slot at the
given indices to zero with `RewritePartition` set. -/
def wipeLayoutEntries (indices : List Nat)
    (entries : List PARTITION_INFORMATION) : List PARTITION_INFORMATION :=
  indices.foldl
    (fun es i =>
      if IsEmptyLayoutEntry (es.getD i emptyPartitionInfo) then es
      else es.set i wipedLayoutEntry)
    entries

/-- `UpdateDiskLayout` (partlist.c): rebuild the layout buffer from the
region model. Returns immediately on GPT disks and when the layout buffer
cannot be reallocated; otherwise updates the primary then the logical
tables, wipes the unused primary slots `[primary count, 4)` and the unused
logical slots (`Index % 4 >= 2`), and finally (re)sets the partition style
to MBR and marks the disk dirty. -/
def UpdateDiskLayout (DiskEntry : DISKENTRY) : DISKENTRY :=
  if DiskEntry.DiskStyle = PARTITION_STYLE.GPT then DiskEntry
  else
    match ReAllocateLayoutBuffer DiskEntry with
    | none => DiskEntry
    | some d =>
      match d.LayoutBuffer with
      | none => d
      | some lb =>
        let prim :=
          updatePrimaryPass d d.PrimaryPartList 0 1 lb.PartitionEntry
        let ExtStartSector :=
          ((d.ExtendedPartition.bind (getRegionRef d)).map
            (·.StartSector)).getD 0
        let log :=
          updateLogicalPass d ExtStartSector d.LogicalPartList 4 prim.2.2.2
            none prim.2.1
        let entries3 :=
          wipeLayoutEntries
            ((List.range 4).filter (fun i => GetPrimaryPartitionCount d ≤ i))
            log.2
        let entries4 :=
          wipeLayoutEntries
            ((List.range lb.PartitionCount).filter
              (fun i => 4 ≤ i ∧ 2 ≤ i % 4))
            entries3
        { d with
          PrimaryPartList := prim.1
          LogicalPartList := log.1
          LayoutBuffer := some { lb with PartitionEntry := entries4 }
          DiskStyle := PARTITION_STYLE.MBR
          Dirty := true }

/-! ## Drive-letter assignment (partlist.c) -/

/-- One region-list walk of `AssignDriveLetters`: every enumerated region's
drive letter is first reset to zero; partitioned regions (excluding
containers in the primary pass) that are recognized or have a non-zero
sector count receive, when the running letter is at most `'Z'`, the next
letter. Letters are `WCHAR` codes (`'C'` = 67, `'Z'` = 90). -/
def assignLettersList (ExcludeContainers : Bool) :
    Nat → List PARTENTRY → Nat × List PARTENTRY
  | Letter, [] => (Letter, [])
  | Letter, p :: rest =>
    let p1 := { p with Volume := { p.Volume with DriveLetter := 0 } }
    if p1.IsPartitioned &&
       (!ExcludeContainers || !IsContainerPartition p1.PartitionType) &&
       (IsRecognizedPartition p1.PartitionType || p1.SectorCount != 0) then
      if Letter ≤ 90 then
        let p2 := { p1 with Volume := { p1.Volume with DriveLetter := Letter } }
        let next := assignLettersList ExcludeContainers (Letter + 1) rest
        (next.1, p2 :: next.2)
      else
        let next := assignLettersList ExcludeContainers Letter rest
        (next.1, p1 :: next.2)
    else
      let next := assignLettersList ExcludeContainers Letter rest
      (next.1, p1 :: next.2)

/-- The first pass of `AssignDriveLetters` over all disks: the
`ENUM_REGION_MBR_PRIMARY_ONLY` walk of `GetAdjDiskRegion` traverses the
primary list both for MBR disks and (through its non-MBR branch) for any
other style. -/
def assignLettersPrimaryPass :
    Nat → List DISKENTRY → Nat × List DISKENTRY
  | Letter, [] => (Letter, [])
  | Letter, d :: rest =>
    let this := assignLettersList true Letter d.PrimaryPartList
    let next := assignLettersPrimaryPass this.1 rest
    (next.1, { d with PrimaryPartList := this.2 } :: next.2)

/-- The second pass of `AssignDriveLetters` over all disks: the
`ENUM_REGION_MBR_LOGICAL_ONLY` walk of `GetAdjDiskRegion` traverses the
logical list for MBR disks, but its non-MBR branch traverses the primary
list. -/
def assignLettersLogicalPass :
    Nat → List DISKENTRY → Nat × List DISKENTRY
  | Letter, [] => (Letter, [])
  | Letter, d :: rest =>
    if d.DiskStyle = PARTITION_STYLE.MBR then
      let this := assignLettersList false Letter d.LogicalPartList
      let next := assignLettersLogicalPass this.1 rest
      (next.1, { d with LogicalPartList := this.2 } :: next.2)
    else
      let this := assignLettersList false Letter d.PrimaryPartList
      let next := assignLettersLogicalPass this.1 rest
      (next.1, { d with PrimaryPartList := this.2 } :: next.2)

/-- `AssignDriveLetters` (partlist.c): a single deterministic pass starting
at `'C'` over all disks' primary regions, then over all disks' logical
regions. -/
def AssignDriveLetters (PartList : PARTLIST) : PARTLIST :=
  let first := assignLettersPrimaryPass 67 PartList.Disks
  let second := assignLettersLogicalPass first.1 first.2
  { PartList with Disks := second.2 }

/-! ## Volume mounting and dismounting (partlist.c) -/

/-- Case-insensitive wide-string comparison (`wcsicmp`) as an equality
test. -/
def wcsicmpEq (a b : String) : Bool :=
  a.data.map Char.toUpper == b.data.map Char.toUpper

/-- `RtlStringCbCopyNW`: copy at most `cbSrcLen` bytes of characters from
the source, truncated to the destination byte capacity minus the NUL
terminator (`WCHAR`s are 2 bytes). -/
def RtlStringCbCopyNW (cbDest : Nat) (src : List Char) (cbSrcLen : Nat) :
    List Char :=
  (src.take (cbSrcLen / 2)).take (cbDest / 2 - 1)

/-- `DismountVolume` (partlist.c), state part: volumes that were not mounted
by the system (no device name, unknown format, or empty filesystem) are left
untouched; otherwise the drive letter, format state, filesystem, label and
needs-check flag are reset (the source does this regardless of the
lock/dismount control outcomes). The device open is assumed to succeed (on
failure the source returns without resetting). The second component records
whether the reset took place. -/
def DismountVolume (VolumeEntry : VOLINFO) : VOLINFO × Bool :=
  if VolumeEntry.DeviceName = "" ∨
     VolumeEntry.FormatState = FORMATSTATE.UnknownFormat ∨
     VolumeEntry.FileSystem = "" then
    (VolumeEntry, false)
  else
    ({ VolumeEntry with
       DriveLetter := 0
       FormatState := FORMATSTATE.Unformatted
       FileSystem := ""
       VolumeLabel := []
       NeedsCheck := false }, true)

/-- The FAT-family MBR types accepted by `MountVolume`'s RawFS analysis. -/
def isFatFamilyType (MbrPartitionType : Nat) : Bool :=
  MbrPartitionType == PARTITION_FAT_12 ||
  MbrPartitionType == PARTITION_FAT_16 ||
  MbrPartitionType == PARTITION_HUGE ||
  MbrPartitionType == PARTITION_XINT13 ||
  MbrPartitionType == PARTITION_FAT32 ||
  MbrPartitionType == PARTITION_FAT32_XINT13

/-- The label-query tail of `MountVolume`: when the partition handle is
still open, a successful `NtQueryVolumeInformationFile` stores the
(possibly truncated) volume label via `RtlStringCbCopyNW` with the byte
size of `WCHAR VolumeLabel[20]`; on failure the label is left as reset. -/
def storeQueriedLabel (v : VOLINFO) (handleOpen : Bool)
    (queriedLabel : Option (List Char)) : VOLINFO :=
  if handleOpen then
    match queriedLabel with
    | some lbl =>
      { v with
        VolumeLabel :=
          RtlStringCbCopyNW (VOLUME_LABEL_CAPACITY * 2) lbl (2 * lbl.length) }
    | none => v
  else v

/-- `MountVolume` (partlist.c). Device and filesystem I/O are oracle
parameters: `openOk` is the `NtOpenFile` outcome, `inferredFileSystem` the
filesystem name filled in by `InferFileSystem` (empty when it fails), and
`queriedLabel` the label returned by `NtQueryVolumeInformationFile` (`none`
when the query fails). The label is stored through `RtlStringCbCopyNW` with
the byte size of the `WCHAR VolumeLabel[20]` array. The second component
records whether a dismount was issued (the RawFS unknown-format path, which
closes the handle first and therefore skips the label query). -/
def MountVolume (VolumeEntry : VOLINFO) (MbrPartitionType : Nat)
    (openOk : Bool) (inferredFileSystem : String)
    (queriedLabel : Option (List Char)) : VOLINFO × Bool :=
  let v1 :=
    { VolumeEntry with
      FormatState := FORMATSTATE.Unformatted
      FileSystem := ""
      VolumeLabel := [] }
  if VolumeEntry.DeviceName = "" then (v1, false)
  else
    let v2 := if openOk then { v1 with FileSystem := inferredFileSystem } else v1
    if v2.FileSystem ≠ "" then
      if wcsicmpEq v2.FileSystem "RAW" then
        if isFatFamilyType MbrPartitionType then
          let v3 := { v2 with FormatState := FORMATSTATE.Unformatted }
          (storeQueriedLabel v3 openOk queriedLabel, false)
        else
          let vd := (DismountVolume v2).1
          ({ vd with
             FormatState := FORMATSTATE.UnknownFormat
             FileSystem := "" }, true)
      else
        let v3 := { v2 with FormatState := FORMATSTATE.Formatted }
        (storeQueriedLabel v3 openOk queriedLabel, false)
    else
      let v3 := { v2 with FormatState := FORMATSTATE.UnknownFormat }
      (storeQueriedLabel v3 openOk queriedLabel, false)

/-! ## Partition creation (partlist.c) -/

/-- Disk-local part of `CreatePartition` (partlist.c): parameter guards,
creation checks, size conversion, entry initialization and layout update.
The final `AssignDriveLetters` call operates on the whole partition list and
is performed by the `PARTLIST`-level wrapper. Returning `none` models the
`FALSE` return of the source, which leaves all state unchanged. -/
def CreatePartitionDisk (DiskEntry : DISKENTRY) (logical : Bool) (i : Nat)
    (SizeBytes : Nat) : Option DISKENTRY :=
  match getRegion DiskEntry logical i with
  | none => none
  | some PartEntry =>
    if PartEntry.IsPartitioned then none
    else if PartitionCreationChecks DiskEntry PartEntry ≠
            ERROR_NUMBER.NOT_AN_ERROR then none
    else
      match sizeToSectorCount SizeBytes DiskEntry.BytesPerSector
              PartEntry.SectorCount with
      | none => none
      | some SectorCount =>
        (InitializePartitionEntry DiskEntry logical i SectorCount).map
          UpdateDiskLayout

/-- `CreatePartition` (partlist.c) at the `PARTLIST` level. -/
def CreatePartition (PartList : PARTLIST) (DiskIndex : Nat) (logical : Bool)
    (i : Nat) (SizeBytes : Nat) : Option PARTLIST :=
  match PartList.Disks.get? DiskIndex with
  | none => none
  | some DiskEntry =>
    (CreatePartitionDisk DiskEntry logical i SizeBytes).map (fun d =>
      AssignDriveLetters { PartList with Disks := PartList.Disks.set DiskIndex d })

/-- `AddLogicalDiskSpace` (partlist.c): insert into the logical list a single
blank region representing the empty space of the extended container,
spanning from one sector alignment past the container start to the container
end (`ULONGLONG` subtraction). The source dereferences `ExtendedPartition`
unconditionally; it is always set when this is called. -/
def AddLogicalDiskSpace (DiskEntry : DISKENTRY) : DISKENTRY :=
  match DiskEntry.ExtendedPartition.bind (getRegionRef DiskEntry) with
  | none => DiskEntry
  | some ext =>
    let StartSector := ext.StartSector + DiskEntry.SectorAlignment
    let SectorCount := usub64 ext.SectorCount DiskEntry.SectorAlignment
    { DiskEntry with
      LogicalPartList :=
        DiskEntry.LogicalPartList ++
          [CreateInsertBlankRegion StartSector SectorCount true] }

/-- Replace the region at `(logical, i)`. -/
def setRegion (DiskEntry : DISKENTRY) (logical : Bool) (i : Nat)
    (p : PARTENTRY) : DISKENTRY :=
  setRegionList DiskEntry logical ((regionList DiskEntry logical).set i p)

/-- Disk-local part of `CreateExtendedPartition` (partlist.c): after the
common checks, conversion and initialization, stamp the container type by
the 1,450,560-sector CHS/LBA boundary, record the region as the disk's
extended partition, add the logical disk space, and update the layout. -/
def CreateExtendedPartitionDisk (DiskEntry : DISKENTRY) (logical : Bool)
    (i : Nat) (SizeBytes : Nat) : Option DISKENTRY :=
  match getRegion DiskEntry logical i with
  | none => none
  | some PartEntry =>
    if PartEntry.IsPartitioned then none
    else if ExtendedPartitionCreationChecks DiskEntry PartEntry ≠
            ERROR_NUMBER.NOT_AN_ERROR then none
    else
      match sizeToSectorCount SizeBytes DiskEntry.BytesPerSector
              PartEntry.SectorCount with
      | none => none
      | some SectorCount =>
        match InitializePartitionEntry DiskEntry logical i SectorCount with
        | none => none
        | some d1 =>
          match getRegion d1 logical i with
          | none => none
          | some p =>
            let p2 :=
              { p with
                PartitionType :=
                  if p.StartSector < 1450560 then PARTITION_EXTENDED
                  else PARTITION_XINT13_EXTENDED }
            let d2 :=
              { setRegion d1 logical i p2 with
                ExtendedPartition := some (logical, i) }
            some (UpdateDiskLayout (AddLogicalDiskSpace d2))

/-- `CreateExtendedPartition` (partlist.c) at the `PARTLIST` level. -/
def CreateExtendedPartition (PartList : PARTLIST) (DiskIndex : Nat)
    (logical : Bool) (i : Nat) (SizeBytes : Nat) : Option PARTLIST :=
  match PartList.Disks.get? DiskIndex with
  | none => none
  | some DiskEntry =>
    (CreateExtendedPartitionDisk DiskEntry logical i SizeBytes).map (fun d =>
      AssignDriveLetters { PartList with Disks := PartList.Disks.set DiskIndex d })

/-! ## Partition deletion (partlist.c) -/

/-- The mounted-volume test of `DeletePartition` (both branches): the entry
is partitioned, not a container, of a recognized type, its format state is
not unknown, its filesystem name is non-empty, and its partition number is
non-zero. -/
def isMountedPartition (p : PARTENTRY) : Bool :=
  p.IsPartitioned &&
  !IsContainerPartition p.PartitionType &&
  IsRecognizedPartition p.PartitionType &&
  p.Volume.FormatState != FORMATSTATE.UnknownFormat &&
  p.Volume.FileSystem != "" &&
  p.PartitionNumber != 0

/-- The in-place conversion of `DeletePartition`'s no-merge case: clear the
partitioned flag, numbers, boot indicator and type, and zero the volume.
`PartitionIndex` is left as is (commented out in the source), and the
`New`/`AutoCreate` flags are not touched. -/
def convertToFreeRegion (p : PARTENTRY) : PARTENTRY :=
  { p with
    IsPartitioned := false
    OnDiskPartitionNumber := 0
    PartitionNumber := 0
    BootIndicator := false
    PartitionType := PARTITION_ENTRY_UNUSED
    Volume := blankVolume }

/-- The merge-with-adjacent-free-regions step of `DeletePartition`, acting on
the list containing the deleted entry `cur` at index `i`. The previous/next
entries participate when they exist and are unpartitioned
(`GetAdjUnpartitionedEntry`); the sector-count merges are `ULONGLONG`
`+=` additions and therefore wrap modulo `2^64`. Returns the updated list,
the index of the
resulting free region (the `FreeRegion` out parameter), and the indices of
the removed entries. -/
def mergeFreeRegions (l : List PARTENTRY) (i : Nat) (cur : PARTENTRY) :
    List PARTENTRY × Nat × List Nat :=
  let prevEntry :=
    if i = 0 then none
    else (l.get? (i - 1)).bind (fun q => if q.IsPartitioned then none else some q)
  let nextEntry :=
    (l.get? (i + 1)).bind (fun q => if q.IsPartitioned then none else some q)
  match prevEntry, nextEntry with
  | some prev, some next =>
    (l.take (i - 1) ++
       { prev with
         SectorCount :=
           uadd64 prev.SectorCount
             (uadd64 cur.SectorCount next.SectorCount) } ::
       l.drop (i + 2),
     i - 1, [i, i + 1])
  | some prev, none =>
    (l.take (i - 1) ++
       { prev with
         SectorCount := uadd64 prev.SectorCount cur.SectorCount } ::
       l.drop (i + 1),
     i - 1, [i])
  | none, some next =>
    (l.take i ++
       { next with
         StartSector := cur.StartSector
         SectorCount := uadd64 next.SectorCount cur.SectorCount } ::
       l.drop (i + 2),
     i, [i])
  | none, none =>
    (l.take i ++ convertToFreeRegion cur :: l.drop (i + 1), i, [])

/-- Index adjustment for a stored region reference after entries at the
given positions were removed from its list (C pointers are stable; arena
indices shift down past each removed position). -/
def adjustIndexAfterRemovals (removed : List Nat) (j : Nat) : Nat :=
  j - (removed.filter (fun r => r < j)).length

/-- Disk-local part of `DeletePartition` (partlist.c). Fails on free
regions. For the disk's extended container, every logical entry is walked:
the source evaluates the mounted-volume test on `PartEntry` (the container
being deleted, whose type always satisfies `IsContainerPartition`) and, when
it passes, dismounts the logical entry's volume; all logical entries are
then freed and the extended-partition pointer is cleared. Otherwise the
deleted region's own volume is dismounted when mounted. The adjacent free
regions are then merged (`GetAdjUnpartitionedEntry` selects the logical list
only on MBR disks for logical regions) and the layout is updated. Returns
the updated disk, the reference of the resulting free region, and the
volumes passed to `DismountVolume`. -/
def DeletePartitionDisk (DiskEntry : DISKENTRY) (logical : Bool) (i : Nat) :
    Option (DISKENTRY × (Bool × Nat) × List VOLINFO) :=
  match getRegion DiskEntry logical i with
  | none => none
  | some PartEntry =>
    if ¬PartEntry.IsPartitioned then none
    else
      let isExtended :=
        ¬logical ∧ DiskEntry.ExtendedPartition = some (false, i)
      let step1 : DISKENTRY × PARTENTRY × List VOLINFO :=
        if isExtended then
          let trace :=
            if isMountedPartition PartEntry then
              DiskEntry.LogicalPartList.map (·.Volume)
            else []
          ({ DiskEntry with
             LogicalPartList := []
             ExtendedPartition := none }, PartEntry, trace)
        else
          if isMountedPartition PartEntry then
            let v := (DismountVolume PartEntry.Volume).1
            let p := { PartEntry with Volume := v }
            (setRegion DiskEntry logical i p, p, [PartEntry.Volume])
          else (DiskEntry, PartEntry, [])
      let d1 := step1.1
      let cur := step1.2.1
      let sel : Bool :=
        decide (d1.DiskStyle = PARTITION_STYLE.MBR) && cur.LogicalPartition
      let merged := mergeFreeRegions (regionList d1 sel) i cur
      let ext :=
        d1.ExtendedPartition.map (fun r =>
          if r.1 = sel then (r.1, adjustIndexAfterRemovals merged.2.2 r.2)
          else r)
      let d2 :=
        { setRegionList d1 sel merged.1 with ExtendedPartition := ext }
      some (UpdateDiskLayout d2, (sel, merged.2.1), step1.2.2)

/-- `DeletePartition` (partlist.c) at the `PARTLIST` level: clears the
system-partition reference when it designates the deleted region (stored
references to other regions are left as stored; none of the verified claims
read them after a deletion). -/
def DeletePartition (PartList : PARTLIST) (DiskIndex : Nat) (logical : Bool)
    (i : Nat) : Option (PARTLIST × REGIONREF × List VOLINFO) :=
  match PartList.Disks.get? DiskIndex with
  | none => none
  | some DiskEntry =>
    match DeletePartitionDisk DiskEntry logical i with
    | none => none
    | some d =>
      let SystemPartition :=
        if PartList.SystemPartition = some ⟨DiskIndex, logical, i⟩ then none
        else PartList.SystemPartition
      some
        (AssignDriveLetters
          { SystemPartition := SystemPartition
            Disks := PartList.Disks.set DiskIndex d.1 },
         ⟨DiskIndex, d.2.1.1, d.2.1.2⟩, d.2.2)

/-! ## Supported system partitions (partlist.c) -/

/-- `IsSupportedActivePartition` (partlist.c): not an extended container,
and either unformatted (RawFS) or formatted with a filesystem in the
writable set (FAT, FAT32, BTRFS; NTFS is commented out in the source). The
`PARTITION_IFS` test at the end of the source function is unreachable: every
branch of the format-state analysis above it returns. -/
def IsSupportedActivePartition (PartEntry : PARTENTRY) : Bool :=
  if IsContainerPartition PartEntry.PartitionType then false
  else
    let VolumeEntry := PartEntry.Volume
    if VolumeEntry.FormatState = FORMATSTATE.Unformatted then true
    else if VolumeEntry.FormatState = FORMATSTATE.Formatted then
      wcsicmpEq VolumeEntry.FileSystem "FAT" ||
      wcsicmpEq VolumeEntry.FileSystem "FAT32" ||
      wcsicmpEq VolumeEntry.FileSystem "BTRFS"
    else false

/-- The claim's supported-region predicate, following the specification's
words: not a container, volume format state `Unformatted` or `Formatted`
with filesystem in the writable set, and partition type not
`PARTITION_IFS`. Stated for comparison with `IsSupportedActivePartition`. -/
def SupportedRegionSpec (PartEntry : PARTENTRY) : Bool :=
  !IsContainerPartition PartEntry.PartitionType &&
  (PartEntry.Volume.FormatState == FORMATSTATE.Unformatted ||
   (PartEntry.Volume.FormatState == FORMATSTATE.Formatted &&
    (wcsicmpEq PartEntry.Volume.FileSystem "FAT" ||
     wcsicmpEq PartEntry.Volume.FileSystem "FAT32" ||
     wcsicmpEq PartEntry.Volume.FileSystem "BTRFS"))) &&
  PartEntry.PartitionType != PARTITION_IFS

/-! ## Invariants and projections used by the verification -/

/-- The sortedness stated by the spec: region lists are ordered by ascending
start sector. -/
def SortedByStartSector (l : List PARTENTRY) : Prop :=
  l.Pairwise (fun a b => a.StartSector ≤ b.StartSector)

/-- The non-overlap condition stated by the spec, inclusively on sector
extents: `max(A.start, B.start) > min(A.end, B.end)`. -/
def NoOverlapPairwise (l : List PARTENTRY) : Prop :=
  l.Pairwise (fun a b =>
    min (endSector a) (endSector b) < max a.StartSector b.StartSector)

/-- Region `a` lies strictly before region `b`: `a` ends (exclusively) no
later than `b` starts. For positive-size regions this subsumes both
ascending order and inclusive non-overlap. -/
def Separated (a b : PARTENTRY) : Prop :=
  a.StartSector + a.SectorCount ≤ b.StartSector

/-- Geometric well-formedness of one region list: positive sector counts and
pairwise separation. -/
def RegionListWF (l : List PARTENTRY) : Prop :=
  (∀ p ∈ l, 0 < p.SectorCount) ∧ l.Pairwise Separated

/-- The region-model invariant of one disk, as established by the scanner on
well-formed disks: both lists geometrically well-formed, list membership
consistent with the `LogicalPartition` flag, logical regions only on MBR
disks, a layout buffer on every non-GPT disk, no logical regions without
an extended container, and every region's exclusive end within the 64-bit
sector space (the source's fields are `ULONGLONG`s and the scanner bounds
every region by the disk's sector count). -/
def DiskInv (d : DISKENTRY) : Prop :=
  RegionListWF d.PrimaryPartList ∧
  RegionListWF d.LogicalPartList ∧
  (∀ p ∈ d.PrimaryPartList, p.LogicalPartition = false) ∧
  (∀ p ∈ d.LogicalPartList, p.LogicalPartition = true) ∧
  (d.LogicalPartList ≠ [] → d.DiskStyle = PARTITION_STYLE.MBR) ∧
  (d.DiskStyle ≠ PARTITION_STYLE.GPT → d.LayoutBuffer ≠ none) ∧
  (d.ExtendedPartition = none → d.LogicalPartList = []) ∧
  (∀ p ∈ d.PrimaryPartList, p.StartSector + p.SectorCount < U64MOD) ∧
  (∀ p ∈ d.LogicalPartList, p.StartSector + p.SectorCount < U64MOD)

/-- The region-model invariant of the whole partition list. -/
def PartListInv (PartList : PARTLIST) : Prop :=
  ∀ d ∈ PartList.Disks, DiskInv d

/-- The region topology the round-trip law speaks about: start sector,
sector count and partitioned flag of each region. -/
def topoProj (p : PARTENTRY) : Nat × Nat × Bool :=
  (p.StartSector, p.SectorCount, p.IsPartitioned)

/-- The topology of a whole partition list: both region lists of every disk,
projected to `topoProj`. -/
def listTopology (PartList : PARTLIST) : List (List (Nat × Nat × Bool) × List (Nat × Nat × Bool)) :=
  PartList.Disks.map (fun d =>
    (d.PrimaryPartList.map topoProj, d.LogicalPartList.map topoProj))

/-- Pointwise effect of the layout-update passes on a region: only the
bookkeeping fields (`PartitionIndex`, `OnDiskPartitionNumber`,
`PartitionNumber`) change, unpartitioned regions are untouched, and a
partitioned new region gets partition number zero. -/
def passShadow (p q : PARTENTRY) : Prop :=
  (∃ pi od pn,
    q = { p with
          PartitionIndex := pi
          OnDiskPartitionNumber := od
          PartitionNumber := pn }) ∧
  (p.IsPartitioned = false → q = p) ∧
  (p.IsPartitioned = true → p.New = true → q.PartitionNumber = 0)

/-- Pointwise effect of a drive-letter pass on a region: only the volume's
drive letter changes. -/
def letterShadow (p q : PARTENTRY) : Prop :=
  ∃ dl, q = { p with Volume := { p.Volume with DriveLetter := dl } }

/-- Pointwise effect of `AssignDriveLetters` on a disk: only the volumes'
drive letters change, in either region list. -/
def assignDisksShadow (a b : DISKENTRY) : Prop :=
  (∃ pl ll, b = { a with PrimaryPartList := pl, LogicalPartList := ll }) ∧
  List.Forall₂ letterShadow a.PrimaryPartList b.PrimaryPartList ∧
  List.Forall₂ letterShadow a.LogicalPartList b.LogicalPartList

/-! ## Concrete states

Example disks used to evaluate the operations on concrete inputs. The fresh
disk reproduces the scanner's output for an empty 36288-sector disk with
classic CHS geometry (63 sectors per track, hence sector alignment 63,
512-byte sectors): a single free primary region starting at sector 2048
covering the aligned remainder of the disk, a four-entry zeroed layout
buffer, and no extended container. -/

/-- A zeroed four-slot layout buffer as the scanner leaves it for a fresh
disk (`PartitionCount` forced to 4, signature 1). -/
def freshDiskLayout : DRIVE_LAYOUT_INFORMATION :=
  { PartitionCount := 4
    Signature := 1
    PartitionEntry := List.replicate 4 emptyPartitionInfo }

/-- The scanner's single free primary region of the fresh disk:
start `max(2048, 63) = 2048`, count `AlignDown(36288, 63) - 2048 = 34240`. -/
def freshFreeRegion : PARTENTRY :=
  CreateInsertBlankRegion 2048 34240 false

/-- The fresh scanner-produced disk. -/
def freshDisk : DISKENTRY :=
  { Cylinders := 576
    TracksPerCylinder := 1
    SectorsPerTrack := 63
    BytesPerSector := 512
    SectorCount := 36288
    SectorAlignment := 63
    CylinderAlignment := 63
    Dirty := false
    NewDisk := true
    DiskStyle := PARTITION_STYLE.RAW
    LayoutBuffer := some freshDiskLayout
    PrimaryPartList := [freshFreeRegion]
    LogicalPartList := []
    ExtendedPartition := none }

/-- A partition list holding only the fresh disk. -/
def freshPartList : PARTLIST :=
  { SystemPartition := none
    Disks := [freshDisk] }

/-- A mounted FAT volume on a logical partition (device name set, formatted,
non-empty filesystem): exactly the volumes `DismountVolume` acts on. -/
def mountedFatVolume : VOLINFO :=
  { DeviceName := "\\Device\\Harddisk0\\Partition2"
    DriveLetter := 68
    VolumeLabel := []
    FileSystem := "FAT"
    FormatState := FORMATSTATE.Formatted
    New := false
    NeedsCheck := false }

/-- An extended container region `[63, 6363)` of type `0x05`. -/
def extContainerRegion : PARTENTRY :=
  { StartSector := 63
    SectorCount := 6300
    BootIndicator := false
    PartitionType := PARTITION_EXTENDED
    OnDiskPartitionNumber := 0
    PartitionNumber := 0
    PartitionIndex := 0
    LogicalPartition := false
    IsPartitioned := true
    New := false
    AutoCreate := false
    Volume := blankVolume }

/-- A mounted logical FAT16 partition inside the container. -/
def mountedLogicalRegion : PARTENTRY :=
  { StartSector := 126
    SectorCount := 6237
    BootIndicator := false
    PartitionType := PARTITION_HUGE
    OnDiskPartitionNumber := 2
    PartitionNumber := 2
    PartitionIndex := 4
    LogicalPartition := true
    IsPartitioned := true
    New := false
    AutoCreate := false
    Volume := mountedFatVolume }

/-- An MBR disk holding one extended container with one mounted logical
partition. -/
def extDisk : DISKENTRY :=
  { Cylinders := 576
    TracksPerCylinder := 1
    SectorsPerTrack := 63
    BytesPerSector := 512
    SectorCount := 36288
    SectorAlignment := 63
    CylinderAlignment := 63
    Dirty := false
    NewDisk := false
    DiskStyle := PARTITION_STYLE.MBR
    LayoutBuffer := some
      { PartitionCount := 8
        Signature := 305419896
        PartitionEntry := List.replicate 8 emptyPartitionInfo }
    PrimaryPartList := [extContainerRegion]
    LogicalPartList := [mountedLogicalRegion]
    ExtendedPartition := some (false, 0) }

/-- A partition list holding only the extended-container disk. -/
def extPartList : PARTLIST :=
  { SystemPartition := none
    Disks := [extDisk] }

/-- A formatted FAT partition whose MBR type byte is `PARTITION_IFS`: the
input separating `IsSupportedActivePartition` from the specification's
supported-region predicate. -/
def ifsTypedFatRegion : PARTENTRY :=
  { StartSector := 2048
    SectorCount := 34240
    BootIndicator := true
    PartitionType := PARTITION_IFS
    OnDiskPartitionNumber := 1
    PartitionNumber := 1
    PartitionIndex := 0
    LogicalPartition := false
    IsPartitioned := true
    New := false
    AutoCreate := false
    Volume :=
      { DeviceName := "\\Device\\Harddisk0\\Partition1"
        DriveLetter := 67
        VolumeLabel := []
        FileSystem := "FAT"
        FormatState := FORMATSTATE.Formatted
        New := false
        NeedsCheck := false } }

/-- A volume with a device name and otherwise blank fields, as mounted
volumes start out. -/
def namedBlankVolume : VOLINFO :=
  { blankVolume with DeviceName := "\\Device\\Harddisk0\\Partition1" }

/-- A 20-character volume label. -/
def twentyCharLabel : List Char :=
  "ABCDEFGHIJKLMNOPQRST".toList

/-- Pointwise field preservation between two regions: same geometry and
list-membership flags. All bookkeeping passes (layout update, drive-letter
assignment) relate their input and output entries this way. -/
def FieldsEqv (p q : PARTENTRY) : Prop :=
  q.StartSector = p.StartSector ∧ q.SectorCount = p.SectorCount ∧
  q.IsPartitioned = p.IsPartitioned ∧ q.LogicalPartition = p.LogicalPartition

/-- Pointwise geometry preservation: same start sector, sector count and
list-membership flag (the partitioned flag may differ). The separation
invariant and the flag consistency only depend on these fields. -/
def GeomEqv (p q : PARTENTRY) : Prop :=
  q.StartSector = p.StartSector ∧ q.SectorCount = p.SectorCount ∧
  q.LogicalPartition = p.LogicalPartition

/-- Pointwise effect, on a region, of a layout update followed by a
drive-letter pass: geometry, partitioned flag and list flag are preserved,
and a partitioned new region ends up with partition number zero. -/
def roundShadow (p q : PARTENTRY) : Prop :=
  q.StartSector = p.StartSector ∧ q.SectorCount = p.SectorCount ∧
  q.IsPartitioned = p.IsPartitioned ∧
  q.LogicalPartition = p.LogicalPartition ∧
  (p.IsPartitioned = true → p.New = true → q.PartitionNumber = 0)

/-! # Theorems -/

theorem usub64_of_le {a b : Nat} (h : b ≤ a) : usub64 a b = a - b := by
  simp [usub64, h]

theorem list_decomp_of_get? {α : Type _} {l : List α} {i : Nat} {x : α}
    (h : l.get? i = some x) : l = l.take i ++ x :: l.drop (i + 1) := by
  induction l generalizing i with
  | nil => simp at h
  | cons a t ih =>
    cases i with
    | zero =>
      simp only [List.get?] at h
      cases h
      simp
    | succ n =>
      simp only [List.get?] at h
      simpa using congrArg (a :: ·) (ih h)

theorem forall₂_mem_right {α β : Type _} {R : α → β → Prop} {l : List α}
    {l' : List β} (h : List.Forall₂ R l l') {b : β} (hb : b ∈ l') :
    ∃ a ∈ l, R a b := by
  induction h with
  | nil => simp at hb
  | cons hab _ ih =>
    rcases List.mem_cons.mp hb with hb | hb
    · exact ⟨_, List.mem_cons_self _ _, hb ▸ hab⟩
    · rcases ih hb with ⟨a, ha, har⟩
      exact ⟨a, List.mem_cons_of_mem _ ha, har⟩

theorem forall₂_fieldsEqv_refl (l : List PARTENTRY) :
    List.Forall₂ FieldsEqv l l := by
  induction l with
  | nil => exact List.Forall₂.nil
  | cons a t ih => exact List.Forall₂.cons ⟨rfl, rfl, rfl, rfl⟩ ih

theorem fieldsEqv_geomEqv {p q : PARTENTRY} (h : FieldsEqv p q) :
    GeomEqv p q :=
  ⟨h.1, h.2.1, h.2.2.2⟩

theorem forall₂_geomEqv_refl (l : List PARTENTRY) :
    List.Forall₂ GeomEqv l l := by
  induction l with
  | nil => exact List.Forall₂.nil
  | cons a t ih => exact List.Forall₂.cons ⟨rfl, rfl, rfl⟩ ih

theorem forall₂_geomEqv_append {l₁ l₂ l₁' l₂' : List PARTENTRY}
    (h₁ : List.Forall₂ GeomEqv l₁ l₁') (h₂ : List.Forall₂ GeomEqv l₂ l₂') :
    List.Forall₂ GeomEqv (l₁ ++ l₂) (l₁' ++ l₂') := by
  induction h₁ with
  | nil => exact h₂
  | cons hab _ ih => exact List.Forall₂.cons hab ih

theorem pairwise_sep_of_forall₂ {l l' : List PARTENTRY}
    (h : List.Forall₂ GeomEqv l l') (hp : l.Pairwise Separated) :
    l'.Pairwise Separated := by
  induction h with
  | nil => exact List.Pairwise.nil
  | cons hab htail ih =>
    rcases List.pairwise_cons.mp hp with ⟨hfst, hrest⟩
    refine List.pairwise_cons.mpr ⟨?_, ih hrest⟩
    intro b' hb'
    rcases forall₂_mem_right htail hb' with ⟨b, hb, hbeq⟩
    have hsep := hfst b hb
    obtain ⟨has, hac, -⟩ := hab
    obtain ⟨hbs, -, -⟩ := hbeq
    simp only [Separated] at hsep ⊢
    omega

theorem regionListWF_of_forall₂ {l l' : List PARTENTRY}
    (h : List.Forall₂ GeomEqv l l') (hwf : RegionListWF l) :
    RegionListWF l' := by
  refine ⟨?_, pairwise_sep_of_forall₂ h hwf.2⟩
  intro p hp
  rcases forall₂_mem_right h hp with ⟨q, hq, hqe⟩
  obtain ⟨-, hc, -⟩ := hqe
  rw [hc]
  exact hwf.1 q hq

theorem flags_of_forall₂ {l l' : List PARTENTRY} {b : Bool}
    (h : List.Forall₂ GeomEqv l l') (hf : ∀ p ∈ l, p.LogicalPartition = b) :
    ∀ p ∈ l', p.LogicalPartition = b := by
  intro p hp
  rcases forall₂_mem_right h hp with ⟨q, hq, hqe⟩
  rw [hqe.2.2, hf q hq]

theorem nil_iff_of_forall₂ {α β : Type _} {R : α → β → Prop} {l : List α}
    {l' : List β} (h : List.Forall₂ R l l') : l = [] ↔ l' = [] := by
  cases h <;> simp

theorem forall₂_fieldsEqv_trans {l₁ l₂ l₃ : List PARTENTRY}
    (h₁ : List.Forall₂ FieldsEqv l₁ l₂) (h₂ : List.Forall₂ FieldsEqv l₂ l₃) :
    List.Forall₂ FieldsEqv l₁ l₃ := by
  induction h₁ generalizing l₃ with
  | nil => cases h₂; exact List.Forall₂.nil
  | cons hab _ ih =>
    cases h₂ with
    | cons hbc htail =>
      refine List.Forall₂.cons ?_ (ih htail)
      obtain ⟨h1, h2, h3, h4⟩ := hab
      obtain ⟨g1, g2, g3, g4⟩ := hbc
      exact ⟨g1.trans h1, g2.trans h2, g3.trans h3, g4.trans h4⟩

theorem forall₂_fieldsEqv_append {l₁ l₂ l₁' l₂' : List PARTENTRY}
    (h₁ : List.Forall₂ FieldsEqv l₁ l₁') (h₂ : List.Forall₂ FieldsEqv l₂ l₂') :
    List.Forall₂ FieldsEqv (l₁ ++ l₂) (l₁' ++ l₂') := by
  induction h₁ with
  | nil => exact h₂
  | cons hab _ ih => exact List.Forall₂.cons hab ih

theorem letterShadow_fieldsEqv {p q : PARTENTRY} (h : letterShadow p q) :
    FieldsEqv p q := by
  rcases h with ⟨dl, rfl⟩
  exact ⟨rfl, rfl, rfl, rfl⟩

theorem passShadow_fieldsEqv {p q : PARTENTRY} (h : passShadow p q) :
    FieldsEqv p q := by
  rcases h.1 with ⟨pi, od, pn, rfl⟩
  exact ⟨rfl, rfl, rfl, rfl⟩

theorem forall₂_imp {α β : Type _} {R S : α → β → Prop} {l : List α}
    {l' : List β} (h : List.Forall₂ R l l') (him : ∀ a b, R a b → S a b) :
    List.Forall₂ S l l' := by
  induction h with
  | nil => exact List.Forall₂.nil
  | cons hab _ ih => exact List.Forall₂.cons (him _ _ hab) ih

theorem forall₂_get? {α β : Type _} {R : α → β → Prop} {l : List α}
    {l' : List β} (h : List.Forall₂ R l l') {i : Nat} {x : α}
    (hx : l.get? i = some x) : ∃ y, l'.get? i = some y ∧ R x y := by
  induction h generalizing i with
  | nil => simp at hx
  | cons hab htail ih =>
    cases i with
    | zero =>
      simp only [List.get?] at hx
      cases hx
      exact ⟨_, rfl, hab⟩
    | succ n =>
      simp only [List.get?] at hx ⊢
      exact ih hx

theorem forall₂_length {α β : Type _} {R : α → β → Prop} {l : List α}
    {l' : List β} (h : List.Forall₂ R l l') : l.length = l'.length := by
  induction h with
  | nil => rfl
  | cons _ _ ih => simpa using ih

theorem letterShadow_refl (p : PARTENTRY) : letterShadow p p :=
  ⟨p.Volume.DriveLetter, rfl⟩

theorem letterShadow_trans {p q r : PARTENTRY} (h₁ : letterShadow p q)
    (h₂ : letterShadow q r) : letterShadow p r := by
  rcases h₁ with ⟨d₁, rfl⟩
  rcases h₂ with ⟨d₂, rfl⟩
  exact ⟨d₂, rfl⟩

theorem forall₂_letterShadow_refl (l : List PARTENTRY) :
    List.Forall₂ letterShadow l l := by
  induction l with
  | nil => exact List.Forall₂.nil
  | cons a t ih => exact List.Forall₂.cons (letterShadow_refl a) ih

theorem forall₂_letterShadow_trans {l₁ l₂ l₃ : List PARTENTRY}
    (h₁ : List.Forall₂ letterShadow l₁ l₂)
    (h₂ : List.Forall₂ letterShadow l₂ l₃) :
    List.Forall₂ letterShadow l₁ l₃ := by
  induction h₁ generalizing l₃ with
  | nil => cases h₂; exact List.Forall₂.nil
  | cons hab _ ih =>
    cases h₂ with
    | cons hbc htail =>
      exact List.Forall₂.cons (letterShadow_trans hab hbc) (ih htail)

theorem assignLettersList_shadow (ExcludeContainers : Bool) :
    ∀ (Letter : Nat) (l : List PARTENTRY),
      List.Forall₂ letterShadow l (assignLettersList ExcludeContainers Letter l).2 := by
  intro Letter l
  induction l generalizing Letter with
  | nil => exact List.Forall₂.nil
  | cons p t ih =>
    simp only [assignLettersList]
    split
    · split
      · exact List.Forall₂.cons ⟨_, rfl⟩ (ih _)
      · exact List.Forall₂.cons ⟨_, rfl⟩ (ih _)
    · exact List.Forall₂.cons ⟨_, rfl⟩ (ih _)

theorem assignDisksShadow_refl (d : DISKENTRY) : assignDisksShadow d d :=
  ⟨⟨d.PrimaryPartList, d.LogicalPartList, rfl⟩,
   forall₂_letterShadow_refl _, forall₂_letterShadow_refl _⟩

theorem assignDisksShadow_trans {a b c : DISKENTRY}
    (h₁ : assignDisksShadow a b) (h₂ : assignDisksShadow b c) :
    assignDisksShadow a c := by
  obtain ⟨⟨pl₁, ll₁, rfl⟩, hp₁, hl₁⟩ := h₁
  obtain ⟨⟨pl₂, ll₂, rfl⟩, hp₂, hl₂⟩ := h₂
  exact ⟨⟨pl₂, ll₂, rfl⟩, forall₂_letterShadow_trans hp₁ hp₂,
    forall₂_letterShadow_trans hl₁ hl₂⟩

theorem forall₂_assignDisksShadow_trans {l₁ l₂ l₃ : List DISKENTRY}
    (h₁ : List.Forall₂ assignDisksShadow l₁ l₂)
    (h₂ : List.Forall₂ assignDisksShadow l₂ l₃) :
    List.Forall₂ assignDisksShadow l₁ l₃ := by
  induction h₁ generalizing l₃ with
  | nil => cases h₂; exact List.Forall₂.nil
  | cons hab _ ih =>
    cases h₂ with
    | cons hbc htail =>
      exact List.Forall₂.cons (assignDisksShadow_trans hab hbc) (ih htail)

theorem assignLettersPrimaryPass_shadow :
    ∀ (Letter : Nat) (ds : List DISKENTRY),
      List.Forall₂ assignDisksShadow ds (assignLettersPrimaryPass Letter ds).2 := by
  intro Letter ds
  induction ds generalizing Letter with
  | nil => exact List.Forall₂.nil
  | cons d t ih =>
    refine List.Forall₂.cons ?_ (ih _)
    exact ⟨⟨_, d.LogicalPartList, rfl⟩, assignLettersList_shadow true _ _,
      forall₂_letterShadow_refl _⟩

theorem assignLettersLogicalPass_shadow :
    ∀ (Letter : Nat) (ds : List DISKENTRY),
      List.Forall₂ assignDisksShadow ds (assignLettersLogicalPass Letter ds).2 := by
  intro Letter ds
  induction ds generalizing Letter with
  | nil => exact List.Forall₂.nil
  | cons d t ih =>
    simp only [assignLettersLogicalPass]
    split
    · refine List.Forall₂.cons ?_ (ih _)
      exact ⟨⟨d.PrimaryPartList, _, rfl⟩, forall₂_letterShadow_refl _,
        assignLettersList_shadow false _ _⟩
    · refine List.Forall₂.cons ?_ (ih _)
      exact ⟨⟨_, d.LogicalPartList, rfl⟩, assignLettersList_shadow false _ _,
        forall₂_letterShadow_refl _⟩

theorem assignDriveLetters_shadow (PartList : PARTLIST) :
    List.Forall₂ assignDisksShadow PartList.Disks
      (AssignDriveLetters PartList).Disks := by
  unfold AssignDriveLetters
  exact forall₂_assignDisksShadow_trans
    (assignLettersPrimaryPass_shadow 67 PartList.Disks)
    (assignLettersLogicalPass_shadow _ _)

theorem assignDriveLetters_systemPartition (PartList : PARTLIST) :
    (AssignDriveLetters PartList).SystemPartition = PartList.SystemPartition := rfl

theorem passShadow_bookkeepPrimary {p : PARTENTRY}
    (hp : p.IsPartitioned = true) (Index PartitionNumber : Nat) :
    passShadow p (bookkeepPrimary p Index PartitionNumber) := by
  refine ⟨?_, ?_, ?_⟩
  · cases hn : p.New with
    | true =>
      exact ⟨Index,
        if IsContainerPartition p.PartitionType = false then PartitionNumber
        else 0, 0, by simp [bookkeepPrimary, hn]⟩
    | false =>
      exact ⟨Index,
        if IsContainerPartition p.PartitionType = false then PartitionNumber
        else 0, p.PartitionNumber, by simp [bookkeepPrimary, hn]⟩
  · intro hfalse; rw [hp] at hfalse; cases hfalse
  · intro _ hnew; simp [bookkeepPrimary, hnew]

theorem passShadow_bookkeepLogical {p : PARTENTRY}
    (hp : p.IsPartitioned = true) (Index PartitionNumber : Nat) :
    passShadow p (bookkeepLogical p Index PartitionNumber) := by
  refine ⟨?_, ?_, ?_⟩
  · cases hn : p.New with
    | true => exact ⟨Index, PartitionNumber, 0, by simp [bookkeepLogical, hn]⟩
    | false =>
      exact ⟨Index, PartitionNumber, p.PartitionNumber,
        by simp [bookkeepLogical, hn]⟩
  · intro hfalse; rw [hp] at hfalse; cases hfalse
  · intro _ hnew; simp [bookkeepLogical, hnew]

theorem passShadow_refl_unpartitioned {p : PARTENTRY}
    (h : p.IsPartitioned = false) : passShadow p p := by
  refine ⟨⟨p.PartitionIndex, p.OnDiskPartitionNumber, p.PartitionNumber, rfl⟩,
    fun _ => rfl, fun hpart _ => ?_⟩
  rw [h] at hpart; cases hpart

theorem updatePrimaryPass_shadow (d : DISKENTRY) :
    ∀ (l : List PARTENTRY) (Index Num : Nat)
      (entries : List PARTITION_INFORMATION),
      List.Forall₂ passShadow l (updatePrimaryPass d l Index Num entries).1 := by
  intro l
  induction l with
  | nil => intro _ _ _; exact List.Forall₂.nil
  | cons p t ih =>
    intro Index Num entries
    simp only [updatePrimaryPass]
    by_cases hp : p.IsPartitioned = true
    · simp only [hp, if_true]
      exact List.Forall₂.cons (passShadow_bookkeepPrimary hp _ _) (ih _ _ _)
    · simp only [hp, if_false]
      refine List.Forall₂.cons (passShadow_refl_unpartitioned ?_) (ih _ _ _)
      simpa using hp

theorem updateLogicalPass_shadow (d : DISKENTRY) (ExtStartSector : Nat) :
    ∀ (l : List PARTENTRY) (Index Num : Nat) (LinkIndex : Option Nat)
      (entries : List PARTITION_INFORMATION),
      List.Forall₂ passShadow l
        (updateLogicalPass d ExtStartSector l Index Num LinkIndex entries).1 := by
  intro l
  induction l with
  | nil => intro _ _ _ _; exact List.Forall₂.nil
  | cons p t ih =>
    intro Index Num LinkIndex entries
    simp only [updateLogicalPass]
    by_cases hp : p.IsPartitioned = true
    · simp only [hp, if_true]
      exact List.Forall₂.cons (passShadow_bookkeepLogical hp _ _) (ih _ _ _ _)
    · simp only [hp, if_false]
      refine List.Forall₂.cons (passShadow_refl_unpartitioned ?_) (ih _ _ _ _)
      simpa using hp

theorem reAllocateLayoutBuffer_some {d d2 : DISKENTRY}
    (h : ReAllocateLayoutBuffer d = some d2) :
    (∃ lb, d2.LayoutBuffer = some lb) ∧
    d2.PrimaryPartList = d.PrimaryPartList ∧
    d2.LogicalPartList = d.LogicalPartList ∧
    d2.ExtendedPartition = d.ExtendedPartition ∧
    d2.DiskStyle = d.DiskStyle ∧
    d2.Dirty = d.Dirty ∧
    d2.BytesPerSector = d.BytesPerSector ∧
    d2.SectorAlignment = d.SectorAlignment ∧
    d2.SectorCount = d.SectorCount := by
  unfold ReAllocateLayoutBuffer at h
  by_cases hc :
      ((d.LayoutBuffer.map (·.PartitionCount)).getD 0 =
        4 + GetLogicalPartitionCount d * 4)
  · rw [if_pos hc] at h
    cases h
    refine ⟨?_, rfl, rfl, rfl, rfl, rfl, rfl, rfl, rfl⟩
    cases hl : d.LayoutBuffer with
    | none =>
      exfalso
      rw [hl] at hc
      simp only [Option.map_none', Option.getD_none] at hc
      omega
    | some lb => exact ⟨lb, rfl⟩
  · rw [if_neg hc] at h
    cases hl : d.LayoutBuffer with
    | none => rw [hl] at h; cases h
    | some lb =>
      rw [hl] at h
      cases h
      exact ⟨⟨_, rfl⟩, rfl, rfl, rfl, rfl, rfl, rfl, rfl, rfl⟩

theorem reAllocateLayoutBuffer_isSome {d : DISKENTRY}
    (h : d.LayoutBuffer ≠ none) :
    ∃ d2, ReAllocateLayoutBuffer d = some d2 := by
  unfold ReAllocateLayoutBuffer
  by_cases hc :
      ((d.LayoutBuffer.map (·.PartitionCount)).getD 0 =
        4 + GetLogicalPartitionCount d * 4)
  · rw [if_pos hc]; exact ⟨d, rfl⟩
  · rw [if_neg hc]
    cases hl : d.LayoutBuffer with
    | none => exact absurd hl h
    | some lb => exact ⟨_, rfl⟩

theorem updateDiskLayout_id_of_gpt {d : DISKENTRY}
    (h : d.DiskStyle = PARTITION_STYLE.GPT) : UpdateDiskLayout d = d := by
  unfold UpdateDiskLayout
  rw [if_pos h]

theorem updateDiskLayout_id_of_noBuffer {d : DISKENTRY}
    (h : d.LayoutBuffer = none) : UpdateDiskLayout d = d := by
  unfold UpdateDiskLayout
  by_cases hg : d.DiskStyle = PARTITION_STYLE.GPT
  · rw [if_pos hg]
  · rw [if_neg hg]
    have hre : ReAllocateLayoutBuffer d = none := by
      unfold ReAllocateLayoutBuffer
      rw [h]
      simp only [Option.map_none', Option.getD_none]
      rw [if_neg (by omega)]
    rw [hre]

theorem updateDiskLayout_success {d : DISKENTRY}
    (h1 : d.DiskStyle ≠ PARTITION_STYLE.GPT) (h2 : d.LayoutBuffer ≠ none) :
    (UpdateDiskLayout d).DiskStyle = PARTITION_STYLE.MBR ∧
    (UpdateDiskLayout d).Dirty = true ∧
    (UpdateDiskLayout d).LayoutBuffer ≠ none ∧
    (UpdateDiskLayout d).ExtendedPartition = d.ExtendedPartition ∧
    List.Forall₂ passShadow d.PrimaryPartList
      (UpdateDiskLayout d).PrimaryPartList ∧
    List.Forall₂ passShadow d.LogicalPartList
      (UpdateDiskLayout d).LogicalPartList ∧
    (UpdateDiskLayout d).BytesPerSector = d.BytesPerSector ∧
    (UpdateDiskLayout d).SectorAlignment = d.SectorAlignment ∧
    (UpdateDiskLayout d).SectorCount = d.SectorCount := by
  obtain ⟨d2, hre⟩ := reAllocateLayoutBuffer_isSome h2
  obtain ⟨⟨lb, hlb⟩, hprim, hlog, hext, hstyle, -, hbps, halign, hsc⟩ :=
    reAllocateLayoutBuffer_some hre
  unfold UpdateDiskLayout
  rw [if_neg h1, hre]
  simp only [hlb]
  refine ⟨trivial, trivial, by simp, hext, ?_, ?_, hbps, halign, hsc⟩
  · rw [← hprim]
    exact updatePrimaryPass_shadow d2 d2.PrimaryPartList 0 1 lb.PartitionEntry
  · rw [← hlog]
    exact updateLogicalPass_shadow d2 _ d2.LogicalPartList 4
      (updatePrimaryPass d2 d2.PrimaryPartList 0 1 lb.PartitionEntry).2.2.2
      none
      (updatePrimaryPass d2 d2.PrimaryPartList 0 1 lb.PartitionEntry).2.1

theorem passShadow_refl_eta (p : PARTENTRY) :
    ∃ pi od pn,
      p = { p with
            PartitionIndex := pi
            OnDiskPartitionNumber := od
            PartitionNumber := pn } :=
  ⟨p.PartitionIndex, p.OnDiskPartitionNumber, p.PartitionNumber, rfl⟩

/-- C5, counterexample: the claim's predicate requires the partition type
not to be `PARTITION_IFS`, but the source's `PARTITION_IFS` test is dead
code (every branch of the preceding format-state analysis returns), so a
formatted FAT volume whose MBR type byte is `0x07` is supported by the code
while the claim's predicate rejects it. -/
theorem C5_supported_counterexample :
    IsSupportedActivePartition ifsTypedFatRegion = true ∧
    SupportedRegionSpec ifsTypedFatRegion = false := by
  decide

/-- C5, amended: a region is supported by `IsSupportedActivePartition`
exactly when it is not an extended container and its volume is either
unformatted or formatted with one of the writable filesystems FAT, FAT32,
BTRFS (case-insensitively); the partition type byte is not consulted. -/
theorem C5_supported_iff (p : PARTENTRY) :
    IsSupportedActivePartition p = true ↔
      (IsContainerPartition p.PartitionType = false ∧
       (p.Volume.FormatState = FORMATSTATE.Unformatted ∨
        (p.Volume.FormatState = FORMATSTATE.Formatted ∧
         (wcsicmpEq p.Volume.FileSystem "FAT" = true ∨
          wcsicmpEq p.Volume.FileSystem "FAT32" = true ∨
          wcsicmpEq p.Volume.FileSystem "BTRFS" = true)))) := by
  simp only [IsSupportedActivePartition]
  split_ifs with h1 h2 h3 <;>
    simp_all [Bool.or_eq_true, or_assoc]

/-- C6: the pre-creation checks return `WARN_PARTITION` exactly on GPT
disks; `NEW_PARTITION` exactly on already partitioned regions of non-GPT
disks; `PARTITION_TABLE_FULL` exactly when (the prior checks passing) the
disk is a super-floppy or, on the primary path only, the primary list
already holds four partitioned entries; and the extended checks additionally
return `ONLY_ONE_EXTENDED` exactly when (all prior checks passing) the disk
already has an extended container. Both checks are pure functions of the
disk and region in this embedding; they return an error code and touch no
state. -/
theorem C6_creation_checks (d : DISKENTRY) (p : PARTENTRY) :
    (PartitionCreationChecks d p = ERROR_NUMBER.ERROR_WARN_PARTITION ↔
       d.DiskStyle = PARTITION_STYLE.GPT) ∧
    (PartitionCreationChecks d p = ERROR_NUMBER.ERROR_NEW_PARTITION ↔
       (d.DiskStyle ≠ PARTITION_STYLE.GPT ∧ p.IsPartitioned = true)) ∧
    (PartitionCreationChecks d p = ERROR_NUMBER.ERROR_PARTITION_TABLE_FULL ↔
       (d.DiskStyle ≠ PARTITION_STYLE.GPT ∧ p.IsPartitioned = false ∧
        (IsSuperFloppy d = true ∨
         (p.LogicalPartition = false ∧ 4 ≤ GetPrimaryPartitionCount d)))) ∧
    (ExtendedPartitionCreationChecks d p = ERROR_NUMBER.ERROR_WARN_PARTITION ↔
       d.DiskStyle = PARTITION_STYLE.GPT) ∧
    (ExtendedPartitionCreationChecks d p = ERROR_NUMBER.ERROR_NEW_PARTITION ↔
       (d.DiskStyle ≠ PARTITION_STYLE.GPT ∧ p.IsPartitioned = true)) ∧
    (ExtendedPartitionCreationChecks d p =
        ERROR_NUMBER.ERROR_PARTITION_TABLE_FULL ↔
       (d.DiskStyle ≠ PARTITION_STYLE.GPT ∧ p.IsPartitioned = false ∧
        (IsSuperFloppy d = true ∨ 4 ≤ GetPrimaryPartitionCount d))) ∧
    (ExtendedPartitionCreationChecks d p =
        ERROR_NUMBER.ERROR_ONLY_ONE_EXTENDED ↔
       (d.DiskStyle ≠ PARTITION_STYLE.GPT ∧ p.IsPartitioned = false ∧
        IsSuperFloppy d = false ∧ GetPrimaryPartitionCount d < 4 ∧
        d.ExtendedPartition ≠ none)) := by
  unfold PartitionCreationChecks ExtendedPartitionCreationChecks
  split_ifs with h1 h2 h3 h4 h5 h6 h7 h8 h9 <;>
    simp_all

/-- C7: a `size_bytes` of zero or equal to the region's byte size selects
the whole region; any other value is divided by the bytes-per-sector and
clamped to the region's sector count, failing on zero; and a positive
`size_bytes` whose sector count rounds down to zero makes both
`CreatePartition` and `CreateExtendedPartition` return `FALSE` (the `none`
of this embedding, which leaves the state unchanged). -/
theorem C7_size_conversion :
    (∀ SizeBytes BytesPerSector RegionSectorCount : Nat,
       (SizeBytes = 0 ∨ SizeBytes = RegionSectorCount * BytesPerSector) →
       sizeToSectorCount SizeBytes BytesPerSector RegionSectorCount =
         some RegionSectorCount) ∧
    (∀ SizeBytes BytesPerSector RegionSectorCount : Nat,
       SizeBytes ≠ 0 → SizeBytes ≠ RegionSectorCount * BytesPerSector →
       sizeToSectorCount SizeBytes BytesPerSector RegionSectorCount =
         (if min (SizeBytes / BytesPerSector) RegionSectorCount = 0 then none
          else some (min (SizeBytes / BytesPerSector) RegionSectorCount))) ∧
    (∀ (PartList : PARTLIST) (DiskIndex : Nat) (logical : Bool) (i : Nat)
       (SizeBytes : Nat) (DiskEntry : DISKENTRY),
       PartList.Disks.get? DiskIndex = some DiskEntry →
       0 < SizeBytes → SizeBytes / DiskEntry.BytesPerSector = 0 →
       CreatePartition PartList DiskIndex logical i SizeBytes = none ∧
       CreateExtendedPartition PartList DiskIndex logical i SizeBytes = none) := by
  refine ⟨?_, ?_, ?_⟩
  · intro SizeBytes BytesPerSector RegionSectorCount h
    simp [sizeToSectorCount, h]
  · intro SizeBytes BytesPerSector RegionSectorCount h1 h2
    simp [sizeToSectorCount, h1, h2]
  · intro PartList DiskIndex logical i SizeBytes DiskEntry hdisk hpos hdiv
    have h0 : SizeBytes ≠ 0 := by omega
    have hconv : ∀ RegionSectorCount,
        sizeToSectorCount SizeBytes DiskEntry.BytesPerSector
          RegionSectorCount = none := by
      intro RegionSectorCount
      have hne : SizeBytes ≠ RegionSectorCount * DiskEntry.BytesPerSector := by
        intro heq
        rcases Nat.eq_zero_or_pos DiskEntry.BytesPerSector with hb | hb
        · rw [hb, Nat.mul_zero] at heq; omega
        · rcases Nat.eq_zero_or_pos RegionSectorCount with hr | hr
          · rw [hr, Nat.zero_mul] at heq; omega
          · rw [heq, Nat.mul_div_cancel _ hb] at hdiv
            omega
      simp [sizeToSectorCount, hdiv, hne, h0]
    have hdiskpart : CreatePartitionDisk DiskEntry logical i SizeBytes = none := by
      unfold CreatePartitionDisk
      cases hr : getRegion DiskEntry logical i with
      | none => rfl
      | some r =>
        dsimp only
        rw [hconv r.SectorCount]
        split
        · rfl
        · split
          · rfl
          · rfl
    have hdiskext :
        CreateExtendedPartitionDisk DiskEntry logical i SizeBytes = none := by
      unfold CreateExtendedPartitionDisk
      cases hr : getRegion DiskEntry logical i with
      | none => rfl
      | some r =>
        dsimp only
        rw [hconv r.SectorCount]
        split
        · rfl
        · split
          · rfl
          · rfl
    constructor
    · unfold CreatePartition
      rw [hdisk]
      dsimp only
      rw [hdiskpart]
      rfl
    · unfold CreateExtendedPartition
      rw [hdisk]
      dsimp only
      rw [hdiskext]
      rfl

/-- C7, witness: a 100-byte request on the fresh 512-bytes-per-sector disk
rounds to zero sectors and both creations fail. -/
theorem C7_size_conversion_witness :
    CreatePartition freshPartList 0 false 0 100 = none ∧
    CreateExtendedPartition freshPartList 0 false 0 100 = none :=
  C7_size_conversion.2.2 freshPartList 0 false 0 100 freshDisk (by rfl)
    (by decide) (by decide)

theorem list_get?_set_self {α : Type _} {l : List α} {i : Nat} {x : α}
    (h : l.get? i = some x) (y : α) : (l.set i y).get? i = some y := by
  induction l generalizing i with
  | nil => simp at h
  | cons a t ih =>
    cases i with
    | zero => rfl
    | succ n =>
      simp only [List.get?] at h
      simpa [List.set] using ih h

theorem list_get?_append_left {α : Type _} {l₁ l₂ : List α} {i : Nat} {x : α}
    (h : l₁.get? i = some x) : (l₁ ++ l₂).get? i = some x := by
  induction l₁ generalizing i with
  | nil => simp at h
  | cons a t ih =>
    cases i with
    | zero => simpa using h
    | succ n =>
      simp only [List.get?] at h
      simpa using ih h

theorem addLogicalDiskSpace_get? {d : DISKENTRY} {side : Bool} {i : Nat}
    {x : PARTENTRY} (hx : getRegion d side i = some x) :
    getRegion (AddLogicalDiskSpace d) side i = some x := by
  unfold AddLogicalDiskSpace
  cases he : d.ExtendedPartition.bind (getRegionRef d) with
  | none => exact hx
  | some ext =>
    cases side with
    | false => exact hx
    | true =>
      simp only [getRegion, regionList, if_true] at hx ⊢
      exact list_get?_append_left hx

theorem addLogicalDiskSpace_fields (d : DISKENTRY) :
    (AddLogicalDiskSpace d).DiskStyle = d.DiskStyle ∧
    (AddLogicalDiskSpace d).LayoutBuffer = d.LayoutBuffer ∧
    (AddLogicalDiskSpace d).ExtendedPartition = d.ExtendedPartition ∧
    (AddLogicalDiskSpace d).PrimaryPartList = d.PrimaryPartList := by
  unfold AddLogicalDiskSpace
  cases d.ExtendedPartition.bind (getRegionRef d) with
  | none => exact ⟨rfl, rfl, rfl, rfl⟩
  | some ext => exact ⟨rfl, rfl, rfl, rfl⟩

theorem updateDiskLayout_entry_bookkeeping {d : DISKENTRY} (side : Bool)
    {i : Nat} {x : PARTENTRY}
    (hx : (regionList d side).get? i = some x) :
    ∃ y, (regionList (UpdateDiskLayout d) side).get? i = some y ∧
      ∃ pi od pn,
        y = { x with
              PartitionIndex := pi
              OnDiskPartitionNumber := od
              PartitionNumber := pn } := by
  by_cases h1 : d.DiskStyle = PARTITION_STYLE.GPT
  · rw [updateDiskLayout_id_of_gpt h1]
    exact ⟨x, hx, passShadow_refl_eta x⟩
  · by_cases h2 : d.LayoutBuffer = none
    · rw [updateDiskLayout_id_of_noBuffer h2]
      exact ⟨x, hx, passShadow_refl_eta x⟩
    · obtain ⟨-, -, -, -, hp, hl, -, -, -⟩ := updateDiskLayout_success h1 h2
      cases side with
      | false =>
        simp only [regionList, if_false, Bool.false_eq_true] at hx ⊢
        obtain ⟨y, hy, hsh⟩ := forall₂_get? hp hx
        exact ⟨y, hy, hsh.1⟩
      | true =>
        simp only [regionList, if_true] at hx ⊢
        obtain ⟨y, hy, hsh⟩ := forall₂_get? hl hx
        exact ⟨y, hy, hsh.1⟩

/-- C9, counterexample: a 20-character label is within the claim's
32-character limit, yet `MountVolume` stores it truncated, because the
`VOLINFO` label array is `WCHAR VolumeLabel[20]` (19 characters plus NUL),
not 32. -/
theorem C9_label_counterexample :
    twentyCharLabel.length ≤ 32 ∧
    (MountVolume namedBlankVolume PARTITION_FAT32 true "FAT32"
        (some twentyCharLabel)).1.VolumeLabel ≠ twentyCharLabel := by
  decide

/-- C9, amended: the `VOLINFO` label field holds up to
`VOLUME_LABEL_CAPACITY - 1 = 19` characters (the array is
`WCHAR VolumeLabel[20]`, NUL included), and `MountVolume` stores the queried
label truncated to 19 characters, i.e. unmodified exactly when it has at
most 19 characters. -/
theorem C9_label_truncation (VolumeEntry : VOLINFO) (MbrPartitionType : Nat)
    (inferredFileSystem : String) (lbl : List Char)
    (h1 : VolumeEntry.DeviceName ≠ "")
    (h2 : inferredFileSystem ≠ "")
    (h3 : wcsicmpEq inferredFileSystem "RAW" = false) :
    (MountVolume VolumeEntry MbrPartitionType true inferredFileSystem
        (some lbl)).1.VolumeLabel = lbl.take (VOLUME_LABEL_CAPACITY - 1) ∧
    (lbl.length ≤ VOLUME_LABEL_CAPACITY - 1 →
      (MountVolume VolumeEntry MbrPartitionType true inferredFileSystem
          (some lbl)).1.VolumeLabel = lbl) := by
  have hstore :
      (MountVolume VolumeEntry MbrPartitionType true inferredFileSystem
          (some lbl)).1.VolumeLabel = lbl.take 19 := by
    unfold MountVolume
    rw [if_neg h1]
    simp only [if_true]
    rw [if_pos (by simpa using h2), if_neg (by simp [h3])]
    simp [storeQueriedLabel, RtlStringCbCopyNW, VOLUME_LABEL_CAPACITY,
      Nat.mul_div_cancel_left _ (by norm_num : 0 < 2)]
  refine ⟨by simpa [VOLUME_LABEL_CAPACITY] using hstore, fun hlen => ?_⟩
  rw [hstore]
  exact List.take_of_length_le (by simpa [VOLUME_LABEL_CAPACITY] using hlen)

/-- C9, witness for the amended theorem: a 3-character label on a FAT
volume is stored unmodified. -/
theorem C9_label_truncation_witness :
    (MountVolume namedBlankVolume PARTITION_FAT_16 true "FAT"
        (some ['D', 'O', 'C'])).1.VolumeLabel = ['D', 'O', 'C'] :=
  (C9_label_truncation namedBlankVolume PARTITION_FAT_16 "FAT" ['D', 'O', 'C']
    (by decide) (by decide) (by decide)).2 (by decide)

/-- C8: a successful `CreateExtendedPartition` stamps the container's
partition type as `PARTITION_EXTENDED (0x05)` exactly when its start sector
is below 1,450,560 and as `PARTITION_XINT13_EXTENDED (0x0F)` exactly when
its start sector is at or above 1,450,560. -/
theorem C8_extended_type_boundary
    (PartList : PARTLIST) (DiskIndex : Nat) (logical : Bool) (i : Nat)
    (SizeBytes : Nat) (L' : PARTLIST)
    (hc : CreateExtendedPartition PartList DiskIndex logical i SizeBytes =
      some L') :
    ∃ DiskEntry' r',
      L'.Disks.get? DiskIndex = some DiskEntry' ∧
      getRegion DiskEntry' logical i = some r' ∧
      (r'.PartitionType = PARTITION_EXTENDED ↔ r'.StartSector < 1450560) ∧
      (r'.PartitionType = PARTITION_XINT13_EXTENDED ↔
        1450560 ≤ r'.StartSector) := by
  unfold CreateExtendedPartition at hc
  cases hdisk : PartList.Disks.get? DiskIndex with
  | none => rw [hdisk] at hc; cases hc
  | some DiskEntry =>
    rw [hdisk] at hc
    dsimp only at hc
    rw [Option.map_eq_some'] at hc
    obtain ⟨dd, hdd, rfl⟩ := hc
    unfold CreateExtendedPartitionDisk at hdd
    cases hr : getRegion DiskEntry logical i with
    | none => rw [hr] at hdd; cases hdd
    | some PartEntry =>
      rw [hr] at hdd
      dsimp only at hdd
      split at hdd
      · cases hdd
      · split at hdd
        · cases hdd
        · cases hconv : sizeToSectorCount SizeBytes DiskEntry.BytesPerSector
              PartEntry.SectorCount with
          | none => rw [hconv] at hdd; cases hdd
          | some SectorCount =>
            rw [hconv] at hdd
            dsimp only at hdd
            cases hinit : InitializePartitionEntry DiskEntry logical i
                SectorCount with
            | none => rw [hinit] at hdd; cases hdd
            | some d1 =>
              rw [hinit] at hdd
              dsimp only at hdd
              cases hp1 : getRegion d1 logical i with
              | none => rw [hp1] at hdd; cases hdd
              | some p =>
                rw [hp1] at hdd
                dsimp only at hdd
                cases hdd
                -- The stamped container entry.
                set p2 : PARTENTRY :=
                  { p with
                    PartitionType :=
                      if p.StartSector < 1450560 then PARTITION_EXTENDED
                      else PARTITION_XINT13_EXTENDED } with hp2
                have hd2 :
                    getRegion
                      { setRegion d1 logical i p2 with
                        ExtendedPartition := some (logical, i) } logical i =
                      some p2 := by
                  cases logical with
                  | false =>
                    simpa [getRegion, regionList, setRegion, setRegionList]
                      using list_get?_set_self
                        (by simpa [getRegion, regionList] using hp1) p2
                  | true =>
                    simpa [getRegion, regionList, setRegion, setRegionList]
                      using list_get?_set_self
                        (by simpa [getRegion, regionList] using hp1) p2
                have hd3 := addLogicalDiskSpace_get? hd2
                obtain ⟨y, hy, pi, od, pn, hyeq⟩ :=
                  updateDiskLayout_entry_bookkeeping logical
                    (by simpa [getRegion] using hd3)
                set DD : DISKENTRY :=
                  UpdateDiskLayout
                    (AddLogicalDiskSpace
                      { setRegion d1 logical i p2 with
                        ExtendedPartition := some (logical, i) }) with hDD
                set M : PARTLIST :=
                  { PartList with
                    Disks := PartList.Disks.set DiskIndex DD } with hM
                have hset : M.Disks.get? DiskIndex = some DD := by
                  rw [hM]
                  exact list_get?_set_self hdisk DD
                obtain ⟨d', hd', hshape⟩ :=
                  forall₂_get? (assignDriveLetters_shadow M) hset
                have hlists :
                    List.Forall₂ letterShadow (regionList DD logical)
                      (regionList d' logical) := by
                  cases logical with
                  | false => simpa [regionList] using hshape.2.1
                  | true => simpa [regionList] using hshape.2.2
                obtain ⟨r', hr', dl, hrl⟩ :=
                  forall₂_get? hlists (by simpa [getRegion, hDD] using hy)
                refine ⟨d', r', hd', by simpa [getRegion] using hr', ?_, ?_⟩
                all_goals
                  subst hrl hyeq
                  by_cases hb : p.StartSector < 1450560 <;>
                    simp [hp2, hb, PARTITION_EXTENDED,
                      PARTITION_XINT13_EXTENDED] <;> omega

theorem setRegionList_shape (d : DISKENTRY) (b : Bool) (l : List PARTENTRY) :
    (setRegionList d b l).DiskStyle = d.DiskStyle ∧
    (setRegionList d b l).LayoutBuffer = d.LayoutBuffer ∧
    (setRegionList d b l).ExtendedPartition = d.ExtendedPartition ∧
    (setRegionList d b l).BytesPerSector = d.BytesPerSector ∧
    (setRegionList d b l).SectorAlignment = d.SectorAlignment ∧
    (setRegionList d b l).SectorCount = d.SectorCount ∧
    (setRegionList d b l).Dirty = d.Dirty := by
  cases b <;> simp [setRegionList]

theorem initializePartitionEntry_fields {d d1 : DISKENTRY} {logical : Bool}
    {i SectorCount : Nat}
    (h : InitializePartitionEntry d logical i SectorCount = some d1) :
    d1.DiskStyle = d.DiskStyle ∧ d1.LayoutBuffer = d.LayoutBuffer ∧
    d1.BytesPerSector = d.BytesPerSector ∧
    d1.SectorAlignment = d.SectorAlignment ∧
    d1.SectorCount = d.SectorCount ∧ d1.Dirty = d.Dirty := by
  unfold InitializePartitionEntry at h
  cases hr : getRegion d logical i with
  | none => rw [hr] at h; cases h
  | some PartEntry =>
    rw [hr] at h
    dsimp only at h
    split at h
    · cases h
    · split at h
      · cases h
        obtain ⟨h1, h2, -, h4, h5, h6, h7⟩ := setRegionList_shape d logical _
        exact ⟨h1, h2, h4, h5, h6, h7⟩
      · cases h
        obtain ⟨h1, h2, -, h4, h5, h6, h7⟩ := setRegionList_shape d logical _
        exact ⟨h1, h2, h4, h5, h6, h7⟩

theorem setRegionList_DiskStyle (d : DISKENTRY) (b : Bool)
    (l : List PARTENTRY) : (setRegionList d b l).DiskStyle = d.DiskStyle := by
  cases b <;> rfl

theorem setRegionList_LayoutBuffer (d : DISKENTRY) (b : Bool)
    (l : List PARTENTRY) :
    (setRegionList d b l).LayoutBuffer = d.LayoutBuffer := by
  cases b <;> rfl

theorem setRegion_DiskStyle (d : DISKENTRY) (b : Bool) (i : Nat)
    (p : PARTENTRY) : (setRegion d b i p).DiskStyle = d.DiskStyle := by
  cases b <;> rfl

theorem setRegion_LayoutBuffer (d : DISKENTRY) (b : Bool) (i : Nat)
    (p : PARTENTRY) : (setRegion d b i p).LayoutBuffer = d.LayoutBuffer := by
  cases b <;> rfl

theorem deletePartitionDisk_shape {d : DISKENTRY} {logical : Bool} {i : Nat}
    {res : DISKENTRY × (Bool × Nat) × List VOLINFO}
    (h : DeletePartitionDisk d logical i = some res) :
    ∃ d2 : DISKENTRY, res.1 = UpdateDiskLayout d2 ∧
      d2.DiskStyle = d.DiskStyle ∧ d2.LayoutBuffer = d.LayoutBuffer := by
  unfold DeletePartitionDisk at h
  cases hr : getRegion d logical i with
  | none => rw [hr] at h; cases h
  | some PartEntry =>
    rw [hr] at h
    dsimp only at h
    split at h
    · cases h
    · rw [Option.some_inj] at h
      subst h
      refine ⟨_, rfl, ?_, ?_⟩
      · dsimp only
        rw [setRegionList_DiskStyle]
        split_ifs <;>
          simp [setRegion_DiskStyle]
      · dsimp only
        rw [setRegionList_LayoutBuffer]
        split_ifs <;>
          simp [setRegion_LayoutBuffer]

/-- C8, witness: creating an extended partition over the whole free region
of the fresh disk (start sector 2048, below the boundary) succeeds, and the
resulting container carries type `0x05`. -/
theorem C8_extended_type_boundary_witness :
    (((CreateExtendedPartition freshPartList 0 false 0 0).getD
        freshPartList).Disks.headD freshDisk).PrimaryPartList.map
      (fun p => p.PartitionType) = [PARTITION_EXTENDED] := by
  obtain ⟨d', r', hd', hr', hiff, -⟩ :=
    C8_extended_type_boundary freshPartList 0 false 0 0
      ((CreateExtendedPartition freshPartList 0 false 0 0).getD freshPartList)
      (by rfl)
  decide

/-- C10: after a successful `CreatePartition`, `CreateExtendedPartition` or
`DeletePartition` on a non-GPT disk (with its layout buffer present, as the
scanner guarantees for every non-GPT disk), the disk's style is MBR — even
if the scanner had classified it as RAW — and its dirty flag is set. -/
theorem C10_mbr_dirty_after_edit
    (PartList : PARTLIST) (DiskIndex : Nat) (logical : Bool) (i : Nat)
    (SizeBytes : Nat) (L' : PARTLIST) (DiskEntry : DISKENTRY)
    (hdisk : PartList.Disks.get? DiskIndex = some DiskEntry)
    (hstyle : DiskEntry.DiskStyle ≠ PARTITION_STYLE.GPT)
    (hbuf : DiskEntry.LayoutBuffer ≠ none)
    (hop : CreatePartition PartList DiskIndex logical i SizeBytes = some L' ∨
           CreateExtendedPartition PartList DiskIndex logical i SizeBytes =
             some L' ∨
           ∃ freed trace,
             DeletePartition PartList DiskIndex logical i =
               some (L', freed, trace)) :
    ∃ DiskEntry', L'.Disks.get? DiskIndex = some DiskEntry' ∧
      DiskEntry'.DiskStyle = PARTITION_STYLE.MBR ∧
      DiskEntry'.Dirty = true := by
  have hmain : ∃ (sys : Option REGIONREF) (dd : DISKENTRY),
      L' = AssignDriveLetters
        { SystemPartition := sys
          Disks := PartList.Disks.set DiskIndex dd } ∧
      dd.DiskStyle = PARTITION_STYLE.MBR ∧ dd.Dirty = true := by
    rcases hop with hc | hc | ⟨freed, trace, hc⟩
    · unfold CreatePartition at hc
      rw [hdisk] at hc
      dsimp only at hc
      rw [Option.map_eq_some'] at hc
      obtain ⟨dd, hdd, rfl⟩ := hc
      unfold CreatePartitionDisk at hdd
      cases hr : getRegion DiskEntry logical i with
      | none => rw [hr] at hdd; cases hdd
      | some r =>
        rw [hr] at hdd
        dsimp only at hdd
        split at hdd
        · cases hdd
        · split at hdd
          · cases hdd
          · cases hconv : sizeToSectorCount SizeBytes
                DiskEntry.BytesPerSector r.SectorCount with
            | none => rw [hconv] at hdd; cases hdd
            | some sc =>
              rw [hconv] at hdd
              dsimp only at hdd
              cases hinit : InitializePartitionEntry DiskEntry logical i sc with
              | none => rw [hinit] at hdd; simp at hdd
              | some d1 =>
                rw [hinit] at hdd
                rw [Option.map_eq_some'] at hdd
                obtain ⟨d1', hd1', rfl⟩ := hdd
                rw [Option.some_inj] at hd1'
                subst hd1'
                obtain ⟨hs, hb, -, -, -, -⟩ :=
                  initializePartitionEntry_fields hinit
                obtain ⟨g1, g2, -, -, -, -, -, -, -⟩ :=
                  updateDiskLayout_success (hs ▸ hstyle) (hb ▸ hbuf)
                exact ⟨PartList.SystemPartition, _, rfl, g1, g2⟩
    · unfold CreateExtendedPartition at hc
      rw [hdisk] at hc
      dsimp only at hc
      rw [Option.map_eq_some'] at hc
      obtain ⟨dd, hdd, rfl⟩ := hc
      unfold CreateExtendedPartitionDisk at hdd
      cases hr : getRegion DiskEntry logical i with
      | none => rw [hr] at hdd; cases hdd
      | some r =>
        rw [hr] at hdd
        dsimp only at hdd
        split at hdd
        · cases hdd
        · split at hdd
          · cases hdd
          · cases hconv : sizeToSectorCount SizeBytes
                DiskEntry.BytesPerSector r.SectorCount with
            | none => rw [hconv] at hdd; cases hdd
            | some sc =>
              rw [hconv] at hdd
              dsimp only at hdd
              cases hinit : InitializePartitionEntry DiskEntry logical i sc with
              | none => rw [hinit] at hdd; simp at hdd
              | some d1 =>
                rw [hinit] at hdd
                dsimp only at hdd
                cases hp1 : getRegion d1 logical i with
                | none => rw [hp1] at hdd; cases hdd
                | some p =>
                  rw [hp1] at hdd
                  dsimp only at hdd
                  rw [Option.some_inj] at hdd
                  subst hdd
                  obtain ⟨hs, hb, -, -, -, -⟩ :=
                    initializePartitionEntry_fields hinit
                  obtain ⟨ha1, ha2, -, -⟩ := addLogicalDiskSpace_fields
                    { setRegion d1 logical i
                        { p with
                          PartitionType :=
                            if p.StartSector < 1450560 then PARTITION_EXTENDED
                            else PARTITION_XINT13_EXTENDED } with
                      ExtendedPartition := some (logical, i) }
                  obtain ⟨g1, g2, -, -, -, -, -, -, -⟩ :=
                    updateDiskLayout_success
                      (by
                        rw [ha1]
                        show (setRegion d1 logical i _).DiskStyle ≠ _
                        rw [setRegion_DiskStyle, hs]
                        exact hstyle)
                      (by
                        rw [ha2]
                        show (setRegion d1 logical i _).LayoutBuffer ≠ _
                        rw [setRegion_LayoutBuffer, hb]
                        exact hbuf)
                  exact ⟨PartList.SystemPartition, _, rfl, g1, g2⟩
    · unfold DeletePartition at hc
      rw [hdisk] at hc
      dsimp only at hc
      cases hdd : DeletePartitionDisk DiskEntry logical i with
      | none => rw [hdd] at hc; cases hc
      | some res =>
        rw [hdd] at hc
        dsimp only at hc
        rw [Option.some_inj] at hc
        obtain ⟨d2, hres, hs, hb⟩ := deletePartitionDisk_shape hdd
        obtain ⟨g1, g2, -, -, -, -, -, -, -⟩ :=
          updateDiskLayout_success (hs ▸ hstyle) (hb ▸ hbuf)
        have h1 := congrArg
          (fun t : PARTLIST × REGIONREF × List VOLINFO => t.1) hc
        dsimp only at h1
        refine ⟨_, res.1, h1.symm, ?_, ?_⟩
        · rw [hres]; exact g1
        · rw [hres]; exact g2
  obtain ⟨sys, dd, rfl, hs, hdirty⟩ := hmain
  obtain ⟨d', hd', hshape⟩ :=
    forall₂_get?
      (assignDriveLetters_shadow
        { SystemPartition := sys, Disks := PartList.Disks.set DiskIndex dd })
      (show ({ SystemPartition := sys
               Disks := PartList.Disks.set DiskIndex dd } : PARTLIST).Disks.get?
            DiskIndex = some dd from list_get?_set_self hdisk dd)
  obtain ⟨⟨pl, ll, rfl⟩, -, -⟩ := hshape
  exact ⟨_, hd', hs, hdirty⟩

/-- C10, witness: a whole-region `CreatePartition` on the fresh RAW disk
leaves it MBR-styled and dirty. -/
theorem C10_mbr_dirty_after_edit_witness :
    freshDisk.DiskStyle ≠ PARTITION_STYLE.GPT ∧
    (((CreatePartition freshPartList 0 false 0 0).getD
        freshPartList).Disks.headD freshDisk).DiskStyle =
      PARTITION_STYLE.MBR ∧
    (((CreatePartition freshPartList 0 false 0 0).getD
        freshPartList).Disks.headD freshDisk).Dirty = true := by
  obtain ⟨d', hd', hs, hdirty⟩ :=
    C10_mbr_dirty_after_edit freshPartList 0 false 0 0
      ((CreatePartition freshPartList 0 false 0 0).getD freshPartList)
      freshDisk (by rfl) (by decide) (by decide) (Or.inl (by rfl))
  have hhead :
      ((CreatePartition freshPartList 0 false 0 0).getD
        freshPartList).Disks.headD freshDisk = d' := by
    cases hl : ((CreatePartition freshPartList 0 false 0 0).getD
        freshPartList).Disks with
    | nil => rw [hl] at hd'; cases hd'
    | cons a t =>
      rw [hl] at hd'
      simp only [List.get?] at hd'
      cases hd'
      rfl
  exact ⟨by decide, by rw [hhead]; exact hs, by rw [hhead]; exact hdirty⟩

theorem regionList_setRegionList (d : DISKENTRY) (b : Bool)
    (l : List PARTENTRY) : regionList (setRegionList d b l) b = l := by
  cases b <;> simp [regionList, setRegionList]

theorem regionList_setExt (d : DISKENTRY) (e : Option (Bool × Nat)) (b : Bool) :
    regionList { d with ExtendedPartition := e } b = regionList d b := by
  cases b <;> rfl

/-- Branch dissection of `InitializePartitionEntry` outside the sub-alignment
corner: the whole-region and split cases and their exact result lists. -/
theorem initializePartitionEntry_branches
    (DiskEntry : DISKENTRY) (logical : Bool) (i : Nat) (r : PARTENTRY)
    (sc : Nat) (d' : DISKENTRY)
    (hr : getRegion DiskEntry logical i = some r)
    (_hfree : r.IsPartitioned = false)
    (hsc1 : 1 ≤ sc) (hsc2 : sc ≤ r.SectorCount)
    (hal : r.StartSector ≤
      AlignDown (r.StartSector + sc) DiskEntry.SectorAlignment)
    (hinit : InitializePartitionEntry DiskEntry logical i sc = some d') :
    (AlignDown (r.StartSector + sc) DiskEntry.SectorAlignment =
        r.StartSector + r.SectorCount →
      regionList d' logical =
        (regionList DiskEntry logical).take i ++
          stampNewPartition r :: (regionList DiskEntry logical).drop (i + 1)) ∧
    (AlignDown (r.StartSector + sc) DiskEntry.SectorAlignment ≠
        r.StartSector + r.SectorCount →
      regionList d' logical =
        (regionList DiskEntry logical).take i ++
          stampNewPartition
            { r with
              SectorCount :=
                AlignDown (r.StartSector + sc) DiskEntry.SectorAlignment -
                  r.StartSector } ::
          CreateInsertBlankRegion
            (AlignDown (r.StartSector + sc) DiskEntry.SectorAlignment)
            (r.StartSector + r.SectorCount -
              AlignDown (r.StartSector + sc) DiskEntry.SectorAlignment)
            r.LogicalPartition ::
          (regionList DiskEntry logical).drop (i + 1)) := by
  unfold InitializePartitionEntry at hinit
  rw [hr] at hinit
  dsimp only at hinit
  rw [if_neg (by omega : ¬sc > r.SectorCount)] at hinit
  have heq : usub64 (AlignDown (r.StartSector + sc) DiskEntry.SectorAlignment)
      r.StartSector =
      AlignDown (r.StartSector + sc) DiskEntry.SectorAlignment -
        r.StartSector :=
    usub64_of_le hal
  constructor
  · intro hwhole
    rw [if_pos (Or.inr (by rw [heq]; omega))] at hinit
    rw [Option.some_inj] at hinit
    subst hinit
    exact regionList_setRegionList _ _ _
  · intro hne
    rw [if_neg (by
      rintro (h0 | hcnt)
      · omega
      · rw [heq] at hcnt; omega)] at hinit
    rw [Option.some_inj] at hinit
    subst hinit
    rw [regionList_setExt, regionList_setRegionList, heq]

/-- The branch dissection of `InitializePartitionEntry` with no alignment
side condition: in the sub-alignment corner the recorded sector count is the
wrapped `ULONGLONG` difference `usub64 new_end start`, exactly as computed
by the source. -/
theorem initializePartitionEntry_branches_all
    (DiskEntry : DISKENTRY) (logical : Bool) (i : Nat) (r : PARTENTRY)
    (sc : Nat) (d' : DISKENTRY)
    (hr : getRegion DiskEntry logical i = some r)
    (hinit : InitializePartitionEntry DiskEntry logical i sc = some d') :
    ((sc = 0 ∨
        usub64 (AlignDown (r.StartSector + sc) DiskEntry.SectorAlignment)
          r.StartSector = r.SectorCount) →
      regionList d' logical =
        (regionList DiskEntry logical).take i ++
          stampNewPartition r :: (regionList DiskEntry logical).drop (i + 1)) ∧
    (¬(sc = 0 ∨
        usub64 (AlignDown (r.StartSector + sc) DiskEntry.SectorAlignment)
          r.StartSector = r.SectorCount) →
      regionList d' logical =
        (regionList DiskEntry logical).take i ++
          stampNewPartition
            { r with
              SectorCount :=
                usub64 (AlignDown (r.StartSector + sc)
                    DiskEntry.SectorAlignment)
                  r.StartSector } ::
          CreateInsertBlankRegion
            (AlignDown (r.StartSector + sc) DiskEntry.SectorAlignment)
            (r.StartSector + r.SectorCount -
              AlignDown (r.StartSector + sc) DiskEntry.SectorAlignment)
            r.LogicalPartition ::
          (regionList DiskEntry logical).drop (i + 1)) := by
  unfold InitializePartitionEntry at hinit
  rw [hr] at hinit
  dsimp only at hinit
  split at hinit
  · cases hinit
  constructor
  · intro hcond
    rw [if_pos hcond, Option.some_inj] at hinit
    subst hinit
    exact regionList_setRegionList _ _ _
  · intro hcond
    rw [if_neg hcond, Option.some_inj] at hinit
    subst hinit
    rw [regionList_setExt, regionList_setRegionList]


/-- C1: initializing a free region with `1 <= sc <= SectorCount` sectors
computes `new_end = AlignDown(start + sc, SectorAlignment)`; when `new_end`
equals the region's natural end the whole region is consumed in place (no
trailing region added), and otherwise a new trailing free region spanning
`[new_end, region end)` with the same logical/primary flag is inserted right
after the region, whose sector count shrinks to `new_end - start`. The
hypothesis `start <= new_end` excludes the sub-alignment corner in which the
aligned end falls before the region start (there the `ULONGLONG` shrink
underflows; see the analysis of the invariant claim). -/
theorem C1_aligned_end_split
    (DiskEntry : DISKENTRY) (logical : Bool) (i : Nat) (r : PARTENTRY)
    (sc : Nat) (d' : DISKENTRY)
    (hr : getRegion DiskEntry logical i = some r)
    (_hfree : r.IsPartitioned = false)
    (hsc1 : 1 ≤ sc) (hsc2 : sc ≤ r.SectorCount)
    (hal : r.StartSector ≤
      AlignDown (r.StartSector + sc) DiskEntry.SectorAlignment)
    (hinit : InitializePartitionEntry DiskEntry logical i sc = some d') :
    (AlignDown (r.StartSector + sc) DiskEntry.SectorAlignment =
        r.StartSector + r.SectorCount →
      regionList d' logical =
        (regionList DiskEntry logical).take i ++
          stampNewPartition r :: (regionList DiskEntry logical).drop (i + 1)) ∧
    (AlignDown (r.StartSector + sc) DiskEntry.SectorAlignment ≠
        r.StartSector + r.SectorCount →
      regionList d' logical =
        (regionList DiskEntry logical).take i ++
          stampNewPartition
            { r with
              SectorCount :=
                AlignDown (r.StartSector + sc) DiskEntry.SectorAlignment -
                  r.StartSector } ::
          CreateInsertBlankRegion
            (AlignDown (r.StartSector + sc) DiskEntry.SectorAlignment)
            (r.StartSector + r.SectorCount -
              AlignDown (r.StartSector + sc) DiskEntry.SectorAlignment)
            r.LogicalPartition ::
          (regionList DiskEntry logical).drop (i + 1)) :=
  initializePartitionEntry_branches DiskEntry logical i r sc d'
    hr _hfree hsc1 hsc2 hal hinit

/-- C1, witness: a whole-region request on the fresh disk's free region is
consumed in place. -/
theorem C1_aligned_end_split_witness :
    regionList ((InitializePartitionEntry freshDisk false 0 34240).getD
        freshDisk) false =
      (regionList freshDisk false).take 0 ++
        stampNewPartition freshFreeRegion ::
        (regionList freshDisk false).drop 1 :=
  (C1_aligned_end_split freshDisk false 0 freshFreeRegion 34240
      ((InitializePartitionEntry freshDisk false 0 34240).getD freshDisk)
      (by rfl) (by rfl) (by decide) (by decide) (by decide) (by rfl)).1
    (by decide)

/-- C4, evaluation at the failing input: deleting the extended container of
a disk holding one mounted logical FAT partition removes all logical
regions, clears the extended-container pointer, and returns a free region
spanning the container's former extent — but dismounts nothing: the trace of
volumes passed to `DismountVolume` is empty, even though the logical volume
satisfies the mounted-volume test, because the source evaluates that test on
the container entry (whose type is always a container type) instead of on
the logical entry. -/
theorem C4_extended_delete_skips_dismount :
    isMountedPartition mountedLogicalRegion = true ∧
    (DeletePartition extPartList 0 false 0).map (fun res => res.2.2) =
      some [] ∧
    (DeletePartition extPartList 0 false 0).map (fun res => res.2.1) =
      some ⟨0, false, 0⟩ ∧
    (DeletePartition extPartList 0 false 0).map (fun res =>
        ((res.1.Disks.headD extDisk).LogicalPartList.length,
         (res.1.Disks.headD extDisk).ExtendedPartition,
         (res.1.Disks.headD extDisk).PrimaryPartList.map topoProj)) =
      some (0, none, [(63, 6300, false)]) := by
  decide

theorem updateDiskLayout_fieldsEqv (d : DISKENTRY) :
    List.Forall₂ FieldsEqv d.PrimaryPartList
      (UpdateDiskLayout d).PrimaryPartList ∧
    List.Forall₂ FieldsEqv d.LogicalPartList
      (UpdateDiskLayout d).LogicalPartList ∧
    (UpdateDiskLayout d).ExtendedPartition = d.ExtendedPartition ∧
    (UpdateDiskLayout d).BytesPerSector = d.BytesPerSector ∧
    (UpdateDiskLayout d).SectorAlignment = d.SectorAlignment := by
  by_cases h1 : d.DiskStyle = PARTITION_STYLE.GPT
  · rw [updateDiskLayout_id_of_gpt h1]
    exact ⟨forall₂_fieldsEqv_refl _, forall₂_fieldsEqv_refl _, rfl, rfl, rfl⟩
  · by_cases h2 : d.LayoutBuffer = none
    · rw [updateDiskLayout_id_of_noBuffer h2]
      exact ⟨forall₂_fieldsEqv_refl _, forall₂_fieldsEqv_refl _, rfl, rfl, rfl⟩
    · obtain ⟨-, -, -, hext, hp, hl, hbps, halign, -⟩ :=
        updateDiskLayout_success h1 h2
      exact ⟨forall₂_imp hp (fun _ _ => passShadow_fieldsEqv),
        forall₂_imp hl (fun _ _ => passShadow_fieldsEqv), hext, hbps, halign⟩

/-! ## Geometric invariant machinery (C2/C3) -/

theorem alignDown_le (v a : Nat) : AlignDown v a ≤ v := by
  unfold AlignDown
  exact Nat.div_mul_le_self v a

theorem endSector_eq {p : PARTENTRY} (h : 0 < p.SectorCount) :
    endSector p = p.StartSector + p.SectorCount - 1 := by
  unfold endSector
  rw [usub64_of_le (by omega)]

theorem list_drop_eq_cons {α : Type _} {l : List α} {i : Nat} {x : α}
    (h : l.get? i = some x) : l.drop i = x :: l.drop (i + 1) := by
  induction l generalizing i with
  | nil => simp at h
  | cons a t ih =>
    cases i with
    | zero =>
      simp only [List.get?] at h
      cases h
      rfl
    | succ n =>
      simp only [List.get?] at h
      exact ih h

theorem list_get?_append_cons {α : Type _} (l₁ : List α) (x : α)
    (l₂ : List α) : (l₁ ++ x :: l₂).get? l₁.length = some x := by
  induction l₁ with
  | nil => rfl
  | cons a t ih => simpa using ih

theorem list_get?_take_lt {α : Type _} {l : List α} {i n : Nat} (h : i < n) :
    (l.take n).get? i = l.get? i := by
  induction l generalizing i n with
  | nil => simp
  | cons a t ih =>
    cases n with
    | zero => omega
    | succ m =>
      cases i with
      | zero => rfl
      | succ j =>
        simp only [List.take, List.get?]
        exact ih (by omega)

theorem forall₂_geomEqv_set {l : List PARTENTRY} {i : Nat} {p q : PARTENTRY}
    (h : l.get? i = some p) (hpq : GeomEqv p q) :
    List.Forall₂ GeomEqv l (l.set i q) := by
  induction l generalizing i with
  | nil => simp at h
  | cons a t ih =>
    cases i with
    | zero =>
      simp only [List.get?] at h
      cases h
      exact List.Forall₂.cons hpq (forall₂_geomEqv_refl t)
    | succ n =>
      simp only [List.get?] at h
      exact List.Forall₂.cons ⟨rfl, rfl, rfl⟩ (ih h)

theorem regionList_setRegionList_other (d : DISKENTRY) (b b' : Bool)
    (l : List PARTENTRY) (h : b' ≠ b) :
    regionList (setRegionList d b l) b' = regionList d b' := by
  cases b <;> cases b' <;> first | rfl | exact absurd rfl h

/-- Auxiliary: wrapping addition is plain addition below the modulus. -/
theorem uadd64_of_lt {a b : Nat} (h : a + b < U64MOD) : uadd64 a b = a + b := by
  unfold uadd64
  exact Nat.mod_eq_of_lt h

theorem bound_of_forall₂ {l l' : List PARTENTRY}
    (h : List.Forall₂ GeomEqv l l')
    (hb : ∀ p ∈ l, p.StartSector + p.SectorCount < U64MOD) :
    ∀ p ∈ l', p.StartSector + p.SectorCount < U64MOD := by
  intro p hp
  rcases forall₂_mem_right h hp with ⟨q, hq, hqe⟩
  rw [hqe.1, hqe.2.1]
  exact hb q hq

/-- The merge step of `DeletePartition` preserves geometric well-formedness,
flag consistency and 64-bit representability of the list it acts on: under
the separation invariant and the representability bound the wrapping
`ULONGLONG` merge additions do not wrap, so merged regions span exactly the
union of the regions they absorb. -/
theorem mergeFreeRegions_WF {l : List PARTENTRY} {i : Nat} {cur : PARTENTRY}
    (hcur : l.get? i = some cur) (hwf : RegionListWF l)
    (hbound : ∀ p ∈ l, p.StartSector + p.SectorCount < U64MOD) :
    RegionListWF (mergeFreeRegions l i cur).1 ∧
    (∀ b : Bool, (∀ p ∈ l, p.LogicalPartition = b) →
      ∀ p ∈ (mergeFreeRegions l i cur).1, p.LogicalPartition = b) ∧
    (∀ p ∈ (mergeFreeRegions l i cur).1,
      p.StartSector + p.SectorCount < U64MOD) := by
  obtain ⟨hpos, hsep⟩ := hwf
  have hc : 0 < cur.SectorCount := hpos cur (List.get?_mem hcur)
  have hcb : cur.StartSector + cur.SectorCount < U64MOD :=
    hbound cur (List.get?_mem hcur)
  have hdrop : l.drop i = cur :: l.drop (i + 1) := list_drop_eq_cons hcur
  unfold mergeFreeRegions
  dsimp only
  cases hprev : (if i = 0 then none
      else (l.get? (i - 1)).bind fun q =>
        if q.IsPartitioned then none else some q) with
  | some prev =>
    have hi0 : i ≠ 0 := by
      intro h0
      rw [if_pos h0] at hprev
      cases hprev
    rw [if_neg hi0] at hprev
    cases hq : l.get? (i - 1) with
    | none => rw [hq] at hprev; cases hprev
    | some q =>
      rw [hq] at hprev
      dsimp only [Option.bind] at hprev
      by_cases hqp : q.IsPartitioned
      · rw [if_pos hqp] at hprev; cases hprev
      · rw [if_neg hqp, Option.some_inj] at hprev
        subst hprev
        have hqmem : q ∈ l := List.get?_mem hq
        have hqb := hbound q hqmem
        have him : i - 1 + 1 = i := by omega
        have hl1 : l = l.take (i - 1) ++ q :: cur :: l.drop (i + 1) := by
          have hdec := list_decomp_of_get? hq
          rw [him, hdrop] at hdec
          exact hdec
        cases hnext : (l.get? (i + 1)).bind (fun q =>
            if q.IsPartitioned then none else some q) with
        | some next =>
          cases hn : l.get? (i + 1) with
          | none => rw [hn] at hnext; cases hnext
          | some n =>
            rw [hn] at hnext
            dsimp only [Option.bind] at hnext
            by_cases hnp : n.IsPartitioned
            · rw [if_pos hnp] at hnext; cases hnext
            · rw [if_neg hnp, Option.some_inj] at hnext
              subst hnext
              have hnmem : n ∈ l := List.get?_mem hn
              have hnb := hbound n hnmem
              have hdrop2 : l.drop (i + 1) = n :: l.drop (i + 2) :=
                list_drop_eq_cons hn
              rw [hdrop2] at hl1
              have hsep2 := hsep
              rw [hl1] at hsep2
              simp only [List.pairwise_append, List.pairwise_cons,
                List.forall_mem_cons, Separated] at hsep2
              obtain ⟨-, ⟨⟨hqc, hqn, -⟩, ⟨hcn, -⟩, hnD, -⟩, -⟩ := hsep2
              have hsum : cur.SectorCount + n.SectorCount < U64MOD := by
                omega
              have hsum2 : q.SectorCount +
                  (cur.SectorCount + n.SectorCount) < U64MOD := by
                omega
              dsimp only
              rw [uadd64_of_lt hsum, uadd64_of_lt hsum2]
              refine ⟨⟨?_, ?_⟩, ?_, ?_⟩
              · intro p hp
                rcases List.mem_append.mp hp with h1 | h1
                · exact hpos p (List.take_subset _ _ h1)
                · rcases List.mem_cons.mp h1 with h2 | h2
                  · subst h2
                    show 0 < q.SectorCount + (cur.SectorCount + n.SectorCount)
                    omega
                  · exact hpos p (List.drop_subset _ _ h2)
              · rw [hl1] at hsep
                simp only [List.pairwise_append, List.pairwise_cons,
                  List.forall_mem_cons, Separated] at hsep ⊢
                obtain ⟨htk, ⟨⟨hqc2, hqn2, hqD⟩, ⟨hcn2, hcD⟩, hnD2, hD⟩,
                  hcross⟩ := hsep
                refine ⟨htk, ⟨?_, hD⟩, ?_⟩
                · intro x hx
                  have := hnD2 x hx
                  omega
                · intro a ha
                  obtain ⟨haq, hac, han, haD⟩ := hcross a ha
                  exact ⟨by omega, haD⟩
              · intro b hb p hp
                rcases List.mem_append.mp hp with h1 | h1
                · exact hb p (List.take_subset _ _ h1)
                · rcases List.mem_cons.mp h1 with h2 | h2
                  · subst h2
                    exact hb q hqmem
                  · exact hb p (List.drop_subset _ _ h2)
              · intro p hp
                rcases List.mem_append.mp hp with h1 | h1
                · exact hbound p (List.take_subset _ _ h1)
                · rcases List.mem_cons.mp h1 with h2 | h2
                  · subst h2
                    show q.StartSector +
                      (q.SectorCount + (cur.SectorCount + n.SectorCount)) <
                        U64MOD
                    omega
                  · exact hbound p (List.drop_subset _ _ h2)
        | none =>
          have hsep2 := hsep
          rw [hl1] at hsep2
          simp only [List.pairwise_append, List.pairwise_cons,
            List.forall_mem_cons, Separated] at hsep2
          obtain ⟨-, ⟨⟨hqc, -⟩, -, -⟩, -⟩ := hsep2
          have hsum : q.SectorCount + cur.SectorCount < U64MOD := by
            omega
          dsimp only
          rw [uadd64_of_lt hsum]
          refine ⟨⟨?_, ?_⟩, ?_, ?_⟩
          · intro p hp
            rcases List.mem_append.mp hp with h1 | h1
            · exact hpos p (List.take_subset _ _ h1)
            · rcases List.mem_cons.mp h1 with h2 | h2
              · subst h2
                show 0 < q.SectorCount + cur.SectorCount
                omega
              · exact hpos p (List.drop_subset _ _ h2)
          · rw [hl1] at hsep
            simp only [List.pairwise_append, List.pairwise_cons,
              List.forall_mem_cons, Separated] at hsep ⊢
            obtain ⟨htk, ⟨⟨hqc2, hqD⟩, hcD, hD⟩, hcross⟩ := hsep
            refine ⟨htk, ⟨?_, hD⟩, ?_⟩
            · intro x hx
              have := hcD x hx
              omega
            · intro a ha
              obtain ⟨haq, hac, haD⟩ := hcross a ha
              exact ⟨by omega, haD⟩
          · intro b hb p hp
            rcases List.mem_append.mp hp with h1 | h1
            · exact hb p (List.take_subset _ _ h1)
            · rcases List.mem_cons.mp h1 with h2 | h2
              · subst h2
                exact hb q hqmem
              · exact hb p (List.drop_subset _ _ h2)
          · intro p hp
            rcases List.mem_append.mp hp with h1 | h1
            · exact hbound p (List.take_subset _ _ h1)
            · rcases List.mem_cons.mp h1 with h2 | h2
              · subst h2
                show q.StartSector + (q.SectorCount + cur.SectorCount) <
                  U64MOD
                omega
              · exact hbound p (List.drop_subset _ _ h2)
  | none =>
    have hl0 : l = l.take i ++ cur :: l.drop (i + 1) := list_decomp_of_get? hcur
    cases hnext : (l.get? (i + 1)).bind (fun q =>
        if q.IsPartitioned then none else some q) with
    | some next =>
      cases hn : l.get? (i + 1) with
      | none => rw [hn] at hnext; cases hnext
      | some n =>
        rw [hn] at hnext
        dsimp only [Option.bind] at hnext
        by_cases hnp : n.IsPartitioned
        · rw [if_pos hnp] at hnext; cases hnext
        · rw [if_neg hnp, Option.some_inj] at hnext
          subst hnext
          have hnmem : n ∈ l := List.get?_mem hn
          have hnb := hbound n hnmem
          have hdrop2 : l.drop (i + 1) = n :: l.drop (i + 2) :=
            list_drop_eq_cons hn
          rw [hdrop2] at hl0
          have hsep2 := hsep
          rw [hl0] at hsep2
          simp only [List.pairwise_append, List.pairwise_cons,
            List.forall_mem_cons, Separated] at hsep2
          obtain ⟨-, ⟨⟨hcn, -⟩, -, -⟩, -⟩ := hsep2
          have hsum : n.SectorCount + cur.SectorCount < U64MOD := by
            omega
          dsimp only
          rw [uadd64_of_lt hsum]
          refine ⟨⟨?_, ?_⟩, ?_, ?_⟩
          · intro p hp
            rcases List.mem_append.mp hp with h1 | h1
            · exact hpos p (List.take_subset _ _ h1)
            · rcases List.mem_cons.mp h1 with h2 | h2
              · subst h2
                show 0 < n.SectorCount + cur.SectorCount
                omega
              · exact hpos p (List.drop_subset _ _ h2)
          · rw [hl0] at hsep
            simp only [List.pairwise_append, List.pairwise_cons,
              List.forall_mem_cons, Separated] at hsep ⊢
            obtain ⟨htk, ⟨⟨hcn2, hcD⟩, hnD, hD⟩, hcross⟩ := hsep
            refine ⟨htk, ⟨?_, hD⟩, ?_⟩
            · intro x hx
              have := hnD x hx
              omega
            · intro a ha
              obtain ⟨hac, han, haD⟩ := hcross a ha
              exact ⟨by omega, haD⟩
          · intro b hb p hp
            rcases List.mem_append.mp hp with h1 | h1
            · exact hb p (List.take_subset _ _ h1)
            · rcases List.mem_cons.mp h1 with h2 | h2
              · subst h2
                exact hb n hnmem
              · exact hb p (List.drop_subset _ _ h2)
          · intro p hp
            rcases List.mem_append.mp hp with h1 | h1
            · exact hbound p (List.take_subset _ _ h1)
            · rcases List.mem_cons.mp h1 with h2 | h2
              · subst h2
                show cur.StartSector + (n.SectorCount + cur.SectorCount) <
                  U64MOD
                omega
              · exact hbound p (List.drop_subset _ _ h2)
    | none =>
      dsimp only
      have hfa : List.Forall₂ GeomEqv (l.take i ++ cur :: l.drop (i + 1))
          (l.take i ++ convertToFreeRegion cur :: l.drop (i + 1)) :=
        forall₂_geomEqv_append (forall₂_geomEqv_refl _)
          (List.Forall₂.cons ⟨rfl, rfl, rfl⟩ (forall₂_geomEqv_refl _))
      rw [← hl0] at hfa
      exact ⟨regionListWF_of_forall₂ hfa ⟨hpos, hsep⟩,
        fun b hb => flags_of_forall₂ hfa hb,
        bound_of_forall₂ hfa hbound⟩
/-- `InsertDiskRegion`'s walk refuses to insert a positive-size region that
overlaps (inclusively) an existing non-sentinel region of a geometrically
well-formed list. -/
theorem insertRegionSorted_refuses (p : PARTENTRY)
    (hp : 0 < p.SectorCount) :
    ∀ l : List PARTENTRY, RegionListWF l →
    ∀ q ∈ l, isSentinelRegion q = false →
    max p.StartSector q.StartSector ≤ min (endSector p) (endSector q) →
    insertRegionSorted p l = none := by
  intro l
  induction l with
  | nil =>
    intro _ q hq
    cases hq
  | cons a rest ih =>
    intro hwf q hq hqs hover
    obtain ⟨hposl, hsepl⟩ := hwf
    have ha : 0 < a.SectorCount := hposl a (List.mem_cons_self a rest)
    have hwrest : RegionListWF rest :=
      ⟨fun x hx => hposl x (List.mem_cons_of_mem _ hx),
       (List.pairwise_cons.mp hsepl).2⟩
    unfold insertRegionSorted
    by_cases hsent : isSentinelRegion a
    · rw [if_pos hsent]
      have hqr : q ∈ rest := by
        rcases List.mem_cons.mp hq with h | h
        · subst h
          rw [hsent] at hqs
          cases hqs
        · exact h
      rw [ih hwrest q hqr hqs hover]
      rfl
    · rw [if_neg hsent]
      have hqpos : 0 < q.SectorCount := hposl q hq
      by_cases hend : endSector a < p.StartSector
      · rw [if_pos hend]
        have hqr : q ∈ rest := by
          rcases List.mem_cons.mp hq with h | h
          · subst h
            rw [endSector_eq hp, endSector_eq hqpos] at hover
            rw [endSector_eq ha] at hend
            omega
          · exact h
        rw [ih hwrest q hqr hqs hover]
        rfl
      · rw [if_neg hend]
        by_cases hov : max p.StartSector a.StartSector ≤
            min (endSector p) (endSector a)
        · rw [if_pos hov]
        · rw [if_neg hov]
          exfalso
          rcases List.mem_cons.mp hq with h | hqr
          · subst h
            exact hov hover
          · have hsepaq : Separated a q :=
              (List.pairwise_cons.mp hsepl).1 q hqr
            unfold Separated at hsepaq
            rw [endSector_eq hp, endSector_eq ha] at hov
            rw [endSector_eq hp, endSector_eq hqpos] at hover
            rw [endSector_eq ha] at hend
            omega

/-- `InitializePartitionEntry` leaves the other region list untouched and
preserves whether the disk has an extended container. -/
theorem initializePartitionEntry_sides {d d1 : DISKENTRY} {logical : Bool}
    {i sc : Nat}
    (hinit : InitializePartitionEntry d logical i sc = some d1) :
    regionList d1 (!logical) = regionList d (!logical) ∧
    (d1.ExtendedPartition = none ↔ d.ExtendedPartition = none) := by
  unfold InitializePartitionEntry at hinit
  cases hr : getRegion d logical i with
  | none => rw [hr] at hinit; cases hinit
  | some r =>
    rw [hr] at hinit
    dsimp only at hinit
    split at hinit
    · cases hinit
    · split at hinit
      · rw [Option.some_inj] at hinit
        subst hinit
        refine ⟨regionList_setRegionList_other d logical (!logical) _
          (by cases logical <;> simp), ?_⟩
        rw [(setRegionList_shape d logical _).2.2.1]
      · rw [Option.some_inj] at hinit
        subst hinit
        constructor
        · rw [regionList_setExt]
          exact regionList_setRegionList_other d logical (!logical) _
            (by cases logical <;> simp)
        · show d.ExtendedPartition.map _ = none ↔ d.ExtendedPartition = none
          cases d.ExtendedPartition <;> simp

/-- `InitializePartitionEntry` preserves geometric well-formedness and flag
consistency of the list it acts on, provided the aligned end stays strictly
above the region start (the side condition excluding the underflow corner). -/
theorem initializePartitionEntry_WF {d d1 : DISKENTRY} {logical : Bool}
    {i sc : Nat} {r : PARTENTRY}
    (hr : getRegion d logical i = some r)
    (hfree : r.IsPartitioned = false)
    (hwf : RegionListWF (regionList d logical))
    (hcond : r.StartSector < AlignDown (r.StartSector + sc) d.SectorAlignment)
    (hsc2 : sc ≤ r.SectorCount)
    (hbound : ∀ p ∈ regionList d logical,
      p.StartSector + p.SectorCount < U64MOD)
    (hinit : InitializePartitionEntry d logical i sc = some d1) :
    RegionListWF (regionList d1 logical) ∧
    (∀ b : Bool, (∀ p ∈ regionList d logical, p.LogicalPartition = b) →
      ∀ p ∈ regionList d1 logical, p.LogicalPartition = b) ∧
    (∀ p ∈ regionList d1 logical,
      p.StartSector + p.SectorCount < U64MOD) := by
  have hsc1 : 1 ≤ sc := by
    rcases Nat.eq_zero_or_pos sc with h0 | h
    · subst h0
      have hd := alignDown_le (r.StartSector + 0) d.SectorAlignment
      omega
    · exact h
  obtain ⟨hbr1, hbr2⟩ :=
    initializePartitionEntry_branches d logical i r sc d1 hr hfree hsc1 hsc2
      (le_of_lt hcond) hinit
  have hgets : (regionList d logical).get? i = some r := hr
  have hrmem : r ∈ regionList d logical := List.get?_mem hgets
  have hdec := list_decomp_of_get? hgets
  by_cases hwhole : AlignDown (r.StartSector + sc) d.SectorAlignment =
      r.StartSector + r.SectorCount
  · rw [hbr1 hwhole]
    have hfa : List.Forall₂ GeomEqv
        ((regionList d logical).take i ++
          r :: (regionList d logical).drop (i + 1))
        ((regionList d logical).take i ++
          stampNewPartition r :: (regionList d logical).drop (i + 1)) :=
      forall₂_geomEqv_append (forall₂_geomEqv_refl _)
        (List.Forall₂.cons ⟨rfl, rfl, rfl⟩ (forall₂_geomEqv_refl _))
    rw [← hdec] at hfa
    exact ⟨regionListWF_of_forall₂ hfa hwf,
      fun b hb => flags_of_forall₂ hfa hb, bound_of_forall₂ hfa hbound⟩
  · rw [hbr2 hwhole]
    obtain ⟨hpos, hsep⟩ := hwf
    have hle : AlignDown (r.StartSector + sc) d.SectorAlignment ≤
        r.StartSector + sc := alignDown_le _ _
    have hlt : AlignDown (r.StartSector + sc) d.SectorAlignment <
        r.StartSector + r.SectorCount := by
      have hne := hwhole
      omega
    have hrb := hbound r hrmem
    refine ⟨⟨?_, ?_⟩, ?_, ?_⟩
    · intro p hp
      rcases List.mem_append.mp hp with h1 | h1
      · exact hpos p (List.take_subset _ _ h1)
      rcases List.mem_cons.mp h1 with h2 | h2
      · subst h2
        show 0 < AlignDown (r.StartSector + sc) d.SectorAlignment -
          r.StartSector
        omega
      rcases List.mem_cons.mp h2 with h3 | h3
      · subst h3
        show 0 < r.StartSector + r.SectorCount -
          AlignDown (r.StartSector + sc) d.SectorAlignment
        omega
      · exact hpos p (List.drop_subset _ _ h3)
    · rw [hdec] at hsep
      simp only [List.pairwise_append, List.pairwise_cons,
        List.forall_mem_cons, Separated, stampNewPartition,
        CreateInsertBlankRegion] at hsep ⊢
      obtain ⟨htk, ⟨hrD, hD⟩, hcross⟩ := hsep
      refine ⟨htk, ⟨⟨by omega, ?_⟩, ?_, hD⟩, ?_⟩
      · intro x hx
        have := hrD x hx
        omega
      · intro x hx
        have := hrD x hx
        omega
      · intro a ha
        obtain ⟨har, haD⟩ := hcross a ha
        exact ⟨by omega, by omega, haD⟩
    · intro b hb p hp
      rcases List.mem_append.mp hp with h1 | h1
      · exact hb p (List.take_subset _ _ h1)
      rcases List.mem_cons.mp h1 with h2 | h2
      · subst h2
        exact hb r hrmem
      rcases List.mem_cons.mp h2 with h3 | h3
      · subst h3
        exact hb r hrmem
      · exact hb p (List.drop_subset _ _ h3)
    · intro p hp
      rcases List.mem_append.mp hp with h1 | h1
      · exact hbound p (List.take_subset _ _ h1)
      rcases List.mem_cons.mp h1 with h2 | h2
      · subst h2
        show r.StartSector + (AlignDown (r.StartSector + sc)
          d.SectorAlignment - r.StartSector) < U64MOD
        omega
      rcases List.mem_cons.mp h2 with h3 | h3
      · subst h3
        show AlignDown (r.StartSector + sc) d.SectorAlignment +
          (r.StartSector + r.SectorCount -
            AlignDown (r.StartSector + sc) d.SectorAlignment) < U64MOD
        omega
      · exact hbound p (List.drop_subset _ _ h3)

theorem sizeToSectorCount_bounds {SizeBytes BytesPerSector
    RegionSectorCount sc : Nat}
    (h : sizeToSectorCount SizeBytes BytesPerSector RegionSectorCount =
      some sc) : sc ≤ RegionSectorCount := by
  unfold sizeToSectorCount at h
  split at h
  · rw [Option.some_inj] at h
    omega
  · dsimp only at h
    split at h
    · cases h
    · rw [Option.some_inj] at h
      subst h
      exact Nat.min_le_right _ _

/-- `UpdateDiskLayout` on a non-GPT disk with a layout buffer yields an
invariant-satisfying disk from the listed partial facts (the style is
re-stamped MBR, making the logical-implies-MBR conjunct automatic). -/
theorem diskInv_updateDiskLayout_parts {d : DISKENTRY}
    (h1 : d.DiskStyle ≠ PARTITION_STYLE.GPT) (h2 : d.LayoutBuffer ≠ none)
    (hwfP : RegionListWF d.PrimaryPartList)
    (hwfL : RegionListWF d.LogicalPartList)
    (hfP : ∀ p ∈ d.PrimaryPartList, p.LogicalPartition = false)
    (hfL : ∀ p ∈ d.LogicalPartList, p.LogicalPartition = true)
    (hext : d.ExtendedPartition = none → d.LogicalPartList = [])
    (hbP : ∀ p ∈ d.PrimaryPartList, p.StartSector + p.SectorCount < U64MOD)
    (hbL : ∀ p ∈ d.LogicalPartList,
      p.StartSector + p.SectorCount < U64MOD) :
    DiskInv (UpdateDiskLayout d) := by
  obtain ⟨hstyle, -, hlb, hextEq, hp, hl, -, -, -⟩ :=
    updateDiskLayout_success h1 h2
  have hpg := forall₂_imp hp fun _ _ h =>
    fieldsEqv_geomEqv (passShadow_fieldsEqv h)
  have hlg := forall₂_imp hl fun _ _ h =>
    fieldsEqv_geomEqv (passShadow_fieldsEqv h)
  refine ⟨regionListWF_of_forall₂ hpg hwfP, regionListWF_of_forall₂ hlg hwfL,
    flags_of_forall₂ hpg hfP, flags_of_forall₂ hlg hfL,
    fun _ => hstyle, fun _ => hlb, fun hn => ?_,
    bound_of_forall₂ hpg hbP, bound_of_forall₂ hlg hbL⟩
  rw [hextEq] at hn
  exact (nil_iff_of_forall₂ hlg).mp (hext hn)

/-- `UpdateDiskLayout` preserves the disk invariant unconditionally. -/
theorem diskInv_updateDiskLayout {d : DISKENTRY} (h : DiskInv d) :
    DiskInv (UpdateDiskLayout d) := by
  by_cases h1 : d.DiskStyle = PARTITION_STYLE.GPT
  · rw [updateDiskLayout_id_of_gpt h1]
    exact h
  · obtain ⟨hwfP, hwfL, hfP, hfL, hmbr, hlay, hext, hbP, hbL⟩ := h
    exact diskInv_updateDiskLayout_parts h1 (hlay h1) hwfP hwfL hfP hfL hext
      hbP hbL

/-- A drive-letter pass preserves the disk invariant. -/
theorem diskInv_assignShadow {a b : DISKENTRY} (h : assignDisksShadow a b)
    (hinv : DiskInv a) : DiskInv b := by
  obtain ⟨⟨pl, ll, rfl⟩, hp, hl⟩ := h
  obtain ⟨hwfP, hwfL, hfP, hfL, hmbr, hlay, hext, hbP, hbL⟩ := hinv
  have hpg := forall₂_imp hp fun _ _ h =>
    fieldsEqv_geomEqv (letterShadow_fieldsEqv h)
  have hlg := forall₂_imp hl fun _ _ h =>
    fieldsEqv_geomEqv (letterShadow_fieldsEqv h)
  exact ⟨regionListWF_of_forall₂ hpg hwfP, regionListWF_of_forall₂ hlg hwfL,
    flags_of_forall₂ hpg hfP, flags_of_forall₂ hlg hfL,
    fun hn => hmbr fun h0 => hn ((nil_iff_of_forall₂ hlg).mp h0),
    hlay, fun hn => (nil_iff_of_forall₂ hlg).mp (hext hn),
    bound_of_forall₂ hpg hbP, bound_of_forall₂ hlg hbL⟩

theorem partListInv_assignDriveLetters {L : PARTLIST} (h : PartListInv L) :
    PartListInv (AssignDriveLetters L) := by
  intro x hx
  rcases forall₂_mem_right (assignDriveLetters_shadow L) hx with ⟨a, ha, hsh⟩
  exact diskInv_assignShadow hsh (h a ha)

theorem partListInv_set {L : PARTLIST} {k : Nat} {dd : DISKENTRY}
    (h : PartListInv L) (hd : DiskInv dd) :
    PartListInv { L with Disks := L.Disks.set k dd } := by
  intro x hx
  rcases List.mem_or_eq_of_mem_set hx with h' | h'
  · exact h x h'
  · subst h'
    exact hd

/-- Geometric well-formedness implies the spec's two stated list
properties: ascending start sectors and pairwise inclusive non-overlap. -/
theorem regionListWF_sorted {l : List PARTENTRY} (h : RegionListWF l) :
    SortedByStartSector l ∧ NoOverlapPairwise l := by
  obtain ⟨hpos, hsep⟩ := h
  constructor
  · exact hsep.imp_of_mem fun {a b} ha hb hab => by
      unfold Separated at hab
      omega
  · refine hsep.imp_of_mem fun {a b} ha hb hab => ?_
    unfold Separated at hab
    have h1 := hpos a ha
    have h2 := hpos b hb
    rw [endSector_eq h1, endSector_eq h2]
    omega

/-- `CreatePartitionDisk` preserves the disk invariant, under the side
condition that the aligned end of the converted request stays strictly above
the target region's start (excluding the sub-alignment underflow corner). -/
theorem createPartitionDisk_inv {d d' : DISKENTRY} {logical : Bool}
    {i SizeBytes : Nat}
    (hinv : DiskInv d)
    (hcond : ∀ r sc, getRegion d logical i = some r →
      sizeToSectorCount SizeBytes d.BytesPerSector r.SectorCount = some sc →
      r.StartSector < AlignDown (r.StartSector + sc) d.SectorAlignment)
    (h : CreatePartitionDisk d logical i SizeBytes = some d') :
    DiskInv d' := by
  obtain ⟨hwfP, hwfL, hfP, hfL, hmbr, hlay, hext, hbP, hbL⟩ := hinv
  unfold CreatePartitionDisk at h
  cases hr : getRegion d logical i with
  | none => rw [hr] at h; cases h
  | some r =>
    rw [hr] at h
    dsimp only at h
    by_cases hpart : r.IsPartitioned = true
    · rw [if_pos hpart] at h
      cases h
    rw [if_neg hpart] at h
    split at h
    · cases h
    cases hconv : sizeToSectorCount SizeBytes d.BytesPerSector
        r.SectorCount with
    | none => rw [hconv] at h; cases h
    | some sc =>
      rw [hconv] at h
      dsimp only at h
      cases hinit : InitializePartitionEntry d logical i sc with
      | none => rw [hinit] at h; cases h
      | some d1 =>
        rw [hinit, Option.map_some', Option.some_inj] at h
        subst h
        apply diskInv_updateDiskLayout
        have hfree : r.IsPartitioned = false := by
          revert hpart
          cases r.IsPartitioned <;> simp
        have hcnd := hcond r sc hr hconv
        have hsc2 := sizeToSectorCount_bounds hconv
        have hwfSide : RegionListWF (regionList d logical) := by
          cases logical
          · exact hwfP
          · exact hwfL
        have hbSide : ∀ p ∈ regionList d logical,
            p.StartSector + p.SectorCount < U64MOD := by
          cases logical
          · exact hbP
          · exact hbL
        obtain ⟨hwfS, hflS, hbS⟩ :=
          initializePartitionEntry_WF hr hfree hwfSide hcnd hsc2 hbSide hinit
        obtain ⟨hoside, hextiff⟩ := initializePartitionEntry_sides hinit
        obtain ⟨hsty, hlb, -, -, -, -⟩ := initializePartitionEntry_fields hinit
        cases logical with
        | false =>
          have h2 : d1.LogicalPartList = d.LogicalPartList := hoside
          refine ⟨hwfS, ?_, hflS false hfP, ?_, ?_, ?_, ?_, hbS, ?_⟩
          · rw [h2]
            exact hwfL
          · rw [h2]
            exact hfL
          · rw [h2, hsty]
            exact hmbr
          · rw [hsty, hlb]
            exact hlay
          · intro hn
            rw [h2]
            exact hext (hextiff.mp hn)
          · rw [h2]
            exact hbL
        | true =>
          have h2 : d1.PrimaryPartList = d.PrimaryPartList := hoside
          have hne : d.LogicalPartList ≠ [] :=
            List.ne_nil_of_mem (List.get?_mem (hr :
              d.LogicalPartList.get? i = some r))
          refine ⟨?_, hwfS, ?_, hflS true hfL, ?_, ?_, ?_, ?_, hbS⟩
          · rw [h2]
            exact hwfP
          · rw [h2]
            exact hfP
          · intro _
            rw [hsty]
            exact hmbr hne
          · rw [hsty, hlb]
            exact hlay
          · intro hn
            exact absurd (hext (hextiff.mp hn)) hne
          · rw [h2]
            exact hbP

theorem list_lt_length_of_get? {α : Type _} {l : List α} {i : Nat} {x : α}
    (h : l.get? i = some x) : i < l.length := by
  induction l generalizing i with
  | nil => simp at h
  | cons a t ih =>
    cases i with
    | zero => simp
    | succ n =>
      simp only [List.get?] at h
      have := ih h
      simp only [List.length_cons]
      omega

/-- `CreateExtendedPartitionDisk` preserves the disk invariant on a non-GPT
disk, under the side condition that the aligned end of the converted request
clears the region start by more than one sector alignment (so the container
has room for the logical disk space). -/
theorem createExtendedPartitionDisk_inv {d d' : DISKENTRY} {logical : Bool}
    {i SizeBytes : Nat}
    (hinv : DiskInv d)
    (hg : d.DiskStyle ≠ PARTITION_STYLE.GPT)
    (hcondext : ∀ r sc, getRegion d logical i = some r →
      sizeToSectorCount SizeBytes d.BytesPerSector r.SectorCount = some sc →
      r.StartSector + d.SectorAlignment <
        AlignDown (r.StartSector + sc) d.SectorAlignment)
    (h : CreateExtendedPartitionDisk d logical i SizeBytes = some d') :
    DiskInv d' := by
  obtain ⟨hwfP, hwfL, hfP, hfL, hmbr, hlay, hext, hbP, hbL⟩ := hinv
  unfold CreateExtendedPartitionDisk at h
  cases hr : getRegion d logical i with
  | none => rw [hr] at h; cases h
  | some r =>
    rw [hr] at h
    dsimp only at h
    by_cases hpart : r.IsPartitioned = true
    · rw [if_pos hpart] at h
      cases h
    rw [if_neg hpart] at h
    by_cases hchk : ExtendedPartitionCreationChecks d r ≠
        ERROR_NUMBER.NOT_AN_ERROR
    · rw [if_pos hchk] at h
      cases h
    rw [if_neg hchk] at h
    have hchkeq : ExtendedPartitionCreationChecks d r =
        ERROR_NUMBER.NOT_AN_ERROR := not_ne_iff.mp hchk
    have hextnone : d.ExtendedPartition = none := by
      unfold ExtendedPartitionCreationChecks at hchkeq
      by_cases h1 : d.DiskStyle = PARTITION_STYLE.GPT
      · rw [if_pos h1] at hchkeq
        cases hchkeq
      rw [if_neg h1] at hchkeq
      by_cases h2 : r.IsPartitioned = true
      · rw [if_pos h2] at hchkeq
        cases hchkeq
      rw [if_neg h2] at hchkeq
      by_cases h3 : IsSuperFloppy d = true
      · rw [if_pos h3] at hchkeq
        cases hchkeq
      rw [if_neg h3] at hchkeq
      by_cases h4 : 4 ≤ GetPrimaryPartitionCount d
      · rw [if_pos h4] at hchkeq
        cases hchkeq
      rw [if_neg h4] at hchkeq
      by_cases h5 : d.ExtendedPartition ≠ none
      · rw [if_pos h5] at hchkeq
        cases hchkeq
      · exact not_ne_iff.mp h5
    have hlognil : d.LogicalPartList = [] := hext hextnone
    cases logical with
    | true =>
      exfalso
      have hnil : ([] : List PARTENTRY).get? i = some r := by
        rw [← hlognil]
        exact hr
      simp at hnil
    | false =>
      cases hconv : sizeToSectorCount SizeBytes d.BytesPerSector
          r.SectorCount with
      | none => rw [hconv] at h; cases h
      | some sc =>
        rw [hconv] at h
        dsimp only at h
        cases hinit : InitializePartitionEntry d false i sc with
        | none => rw [hinit] at h; cases h
        | some d1 =>
          rw [hinit] at h
          dsimp only at h
          cases hp : getRegion d1 false i with
          | none => rw [hp] at h; cases h
          | some p =>
            rw [hp] at h
            dsimp only at h
            rw [Option.some_inj] at h
            subst h
            have hfree : r.IsPartitioned = false := by
              revert hpart
              cases r.IsPartitioned <;> simp
            have hcnd := hcondext r sc hr hconv
            have hsc2 := sizeToSectorCount_bounds hconv
            have hle := alignDown_le (r.StartSector + sc) d.SectorAlignment
            have hsc1 : 1 ≤ sc := by
              rcases Nat.eq_zero_or_pos sc with h0 | hpos
              · subst h0
                have hd0 := alignDown_le (r.StartSector + 0) d.SectorAlignment
                omega
              · exact hpos
            obtain ⟨hbr1, hbr2⟩ :=
              initializePartitionEntry_branches d false i r sc d1 hr hfree
                hsc1 hsc2 (by omega) hinit
            obtain ⟨hwfS, hflS, hbS⟩ :=
              initializePartitionEntry_WF hr hfree hwfP (by omega) hsc2 hbP
                hinit
            obtain ⟨hoside, hextiff⟩ := initializePartitionEntry_sides hinit
            obtain ⟨hsty, hlb, hbps, halign, -, -⟩ :=
              initializePartitionEntry_fields hinit
            have hpd1 : (regionList d1 false).get? i = some p := hp
            have hpcount : d.SectorAlignment < p.SectorCount := by
              have hlen : i < (regionList d false).length :=
                list_lt_length_of_get? hr
              have htklen : ((regionList d false).take i).length = i := by
                rw [List.length_take]
                omega
              have hpx : (regionList d1 false).get? i = some p := hp
              by_cases hwhole :
                  AlignDown (r.StartSector + sc) d.SectorAlignment =
                    r.StartSector + r.SectorCount
              · rw [hbr1 hwhole] at hpx
                have hgat := list_get?_append_cons
                  ((regionList d false).take i) (stampNewPartition r)
                  ((regionList d false).drop (i + 1))
                rw [htklen] at hgat
                rw [hgat, Option.some_inj] at hpx
                rw [← hpx]
                show d.SectorAlignment < r.SectorCount
                omega
              · rw [hbr2 hwhole] at hpx
                have hgat := list_get?_append_cons
                  ((regionList d false).take i)
                  (stampNewPartition
                    { r with
                      SectorCount :=
                        AlignDown (r.StartSector + sc) d.SectorAlignment -
                          r.StartSector })
                  (CreateInsertBlankRegion
                      (AlignDown (r.StartSector + sc) d.SectorAlignment)
                      (r.StartSector + r.SectorCount -
                        AlignDown (r.StartSector + sc) d.SectorAlignment)
                      r.LogicalPartition ::
                    (regionList d false).drop (i + 1))
                rw [htklen] at hgat
                rw [hgat, Option.some_inj] at hpx
                rw [← hpx]
                show d.SectorAlignment <
                  AlignDown (r.StartSector + sc) d.SectorAlignment -
                    r.StartSector
                omega
            set p2 : PARTENTRY :=
              { p with
                PartitionType :=
                  if p.StartSector < 1450560 then PARTITION_EXTENDED
                  else PARTITION_XINT13_EXTENDED } with hp2def
            set d2 : DISKENTRY :=
              { setRegion d1 false i p2 with
                ExtendedPartition := some (false, i) } with hd2def
            have hd2log : d2.LogicalPartList = [] := by
              show d1.LogicalPartList = []
              have h2 : d1.LogicalPartList = d.LogicalPartList := hoside
              rw [h2]
              exact hlognil
            have hd2align : d2.SectorAlignment = d.SectorAlignment := by
              show (setRegionList d1 false
                ((regionList d1 false).set i p2)).SectorAlignment =
                d.SectorAlignment
              rw [(setRegionList_shape d1 false
                ((regionList d1 false).set i p2)).2.2.2.2.1]
              exact halign
            have hbind : d2.ExtendedPartition.bind (getRegionRef d2) =
                some p2 := by
              show getRegion d2 false i = some p2
              unfold getRegion
              rw [hd2def]
              unfold setRegion
              rw [regionList_setExt, regionList_setRegionList]
              exact list_get?_set_self hpd1 p2
            have hXsty : (AddLogicalDiskSpace d2).DiskStyle = d.DiskStyle := by
              rw [(addLogicalDiskSpace_fields d2).1]
              show (setRegion d1 false i p2).DiskStyle = _
              rw [setRegion_DiskStyle]
              exact hsty
            have hXlay : (AddLogicalDiskSpace d2).LayoutBuffer =
                d.LayoutBuffer := by
              rw [(addLogicalDiskSpace_fields d2).2.1]
              show (setRegion d1 false i p2).LayoutBuffer = _
              rw [setRegion_LayoutBuffer]
              exact hlb
            have hXext : (AddLogicalDiskSpace d2).ExtendedPartition =
                some (false, i) := (addLogicalDiskSpace_fields d2).2.2.1
            have hXprim : (AddLogicalDiskSpace d2).PrimaryPartList =
                (regionList d1 false).set i p2 :=
              (addLogicalDiskSpace_fields d2).2.2.2
            have hXlog : (AddLogicalDiskSpace d2).LogicalPartList =
                [CreateInsertBlankRegion
                  (p2.StartSector + d2.SectorAlignment)
                  (usub64 p2.SectorCount d2.SectorAlignment) true] := by
              unfold AddLogicalDiskSpace
              rw [hbind]
              dsimp only
              rw [hd2log]
              rfl
            have hfa := forall₂_geomEqv_set hpd1
              (⟨rfl, rfl, rfl⟩ : GeomEqv p p2)
            refine diskInv_updateDiskLayout_parts ?_ ?_ ?_ ?_ ?_ ?_ ?_ ?_ ?_
            · rw [hXsty]
              exact hg
            · rw [hXlay]
              exact hlay hg
            · rw [hXprim]
              exact regionListWF_of_forall₂ hfa hwfS
            · rw [hXlog]
              refine ⟨?_, List.pairwise_singleton _ _⟩
              intro q hq
              rcases List.mem_singleton.mp hq with rfl
              show 0 < usub64 p2.SectorCount d2.SectorAlignment
              have e1 : p2.SectorCount = p.SectorCount := rfl
              rw [e1, hd2align, usub64_of_le (Nat.le_of_lt hpcount)]
              omega
            · rw [hXprim]
              exact flags_of_forall₂ hfa (hflS false hfP)
            · rw [hXlog]
              intro q hq
              rcases List.mem_singleton.mp hq with rfl
              rfl
            · intro hn
              rw [hXext] at hn
              cases hn
            · rw [hXprim]
              exact bound_of_forall₂ hfa hbS
            · rw [hXlog]
              intro q hq
              rcases List.mem_singleton.mp hq with rfl
              have hpb := hbS p (List.get?_mem hpd1)
              show p2.StartSector + d2.SectorAlignment +
                usub64 p2.SectorCount d2.SectorAlignment < U64MOD
              have e1 : p2.SectorCount = p.SectorCount := rfl
              have e2 : p2.StartSector = p.StartSector := rfl
              rw [e1, e2, hd2align, usub64_of_le (Nat.le_of_lt hpcount)]
              omega

/-- `DeletePartitionDisk` preserves the disk invariant unconditionally. -/
theorem deletePartitionDisk_inv {d : DISKENTRY} {logical : Bool} {i : Nat}
    {res : DISKENTRY × (Bool × Nat) × List VOLINFO}
    (hinv : DiskInv d)
    (h : DeletePartitionDisk d logical i = some res) :
    DiskInv res.1 := by
  obtain ⟨hwfP, hwfL, hfP, hfL, hmbr, hlay, hext, hbP, hbL⟩ := hinv
  unfold DeletePartitionDisk at h
  cases hr : getRegion d logical i with
  | none => rw [hr] at h; cases h
  | some r =>
    rw [hr] at h
    dsimp only at h
    by_cases hpart : r.IsPartitioned = true
    · rw [if_neg (not_not_intro hpart)] at h
      have hrmem : r ∈ regionList d logical := List.get?_mem hr
      by_cases hisext : ¬logical = true ∧
          d.ExtendedPartition = some (false, i)
      · rw [if_pos hisext] at h
        obtain ⟨hnl, hexteq⟩ := hisext
        have hlf : logical = false := by
          revert hnl
          cases logical <;> simp
        subst hlf
        dsimp only at h
        rw [Option.some_inj] at h
        subst h
        dsimp only
        rw [hfP r hrmem]
        simp only [Bool.and_false, Option.map_none']
        apply diskInv_updateDiskLayout
        exact ⟨(mergeFreeRegions_WF hr hwfP hbP).1,
          ⟨fun q hq => absurd hq (List.not_mem_nil q), List.Pairwise.nil⟩,
          (mergeFreeRegions_WF hr hwfP hbP).2.1 false hfP,
          fun q hq => absurd hq (List.not_mem_nil q),
          fun hn => absurd rfl hn, hlay, fun _ => rfl,
          (mergeFreeRegions_WF hr hwfP hbP).2.2,
          fun q hq => absurd hq (List.not_mem_nil q)⟩
      · rw [if_neg hisext] at h
        by_cases hm : isMountedPartition r = true
        · rw [if_pos hm] at h
          dsimp only at h
          rw [Option.some_inj] at h
          subst h
          dsimp only
          cases logical with
          | false =>
            have hflagr : r.LogicalPartition = false := hfP r hrmem
            set p : PARTENTRY :=
              { r with Volume := (DismountVolume r.Volume).1 } with hpdef
            have hfa := forall₂_geomEqv_set hr
              (⟨rfl, rfl, rfl⟩ : GeomEqv r p)
            have hcur : ((regionList d false).set i p).get? i = some p :=
              list_get?_set_self hr _
            rw [hflagr]
            simp only [Bool.and_false]
            apply diskInv_updateDiskLayout
            refine ⟨?_, ?_, ?_, ?_, ?_, ?_, ?_, ?_, ?_⟩
            · exact (mergeFreeRegions_WF hcur
                (regionListWF_of_forall₂ hfa hwfP)
                (bound_of_forall₂ hfa hbP)).1
            · exact hwfL
            · exact (mergeFreeRegions_WF hcur
                (regionListWF_of_forall₂ hfa hwfP)
                (bound_of_forall₂ hfa hbP)).2.1 false
                (flags_of_forall₂ hfa hfP)
            · exact hfL
            · exact fun hn => hmbr hn
            · exact hlay
            · intro hn
              exact hext (Option.map_eq_none'.mp hn)
            · exact (mergeFreeRegions_WF hcur
                (regionListWF_of_forall₂ hfa hwfP)
                (bound_of_forall₂ hfa hbP)).2.2
            · exact hbL
          | true =>
            have hflagr : r.LogicalPartition = true := hfL r hrmem
            have hne : d.LogicalPartList ≠ [] := List.ne_nil_of_mem hrmem
            set p : PARTENTRY :=
              { r with Volume := (DismountVolume r.Volume).1 } with hpdef
            have hfa := forall₂_geomEqv_set hr
              (⟨rfl, rfl, rfl⟩ : GeomEqv r p)
            have hcur : ((regionList d true).set i p).get? i = some p :=
              list_get?_set_self hr _
            rw [setRegion_DiskStyle, hmbr hne, hflagr,
              (show (decide (PARTITION_STYLE.MBR = PARTITION_STYLE.MBR) &&
                true) = true by decide)]
            apply diskInv_updateDiskLayout
            refine ⟨?_, ?_, ?_, ?_, ?_, ?_, ?_, ?_, ?_⟩
            · exact hwfP
            · exact (mergeFreeRegions_WF hcur
                (regionListWF_of_forall₂ hfa hwfL)
                (bound_of_forall₂ hfa hbL)).1
            · exact hfP
            · exact (mergeFreeRegions_WF hcur
                (regionListWF_of_forall₂ hfa hwfL)
                (bound_of_forall₂ hfa hbL)).2.1 true
                (flags_of_forall₂ hfa hfL)
            · exact fun _ => hmbr hne
            · exact hlay
            · intro hn
              exact absurd (hext (Option.map_eq_none'.mp hn)) hne
            · exact hbP
            · exact (mergeFreeRegions_WF hcur
                (regionListWF_of_forall₂ hfa hwfL)
                (bound_of_forall₂ hfa hbL)).2.2
        · rw [if_neg hm] at h
          dsimp only at h
          rw [Option.some_inj] at h
          subst h
          dsimp only
          cases logical with
          | false =>
            have hflagr : r.LogicalPartition = false := hfP r hrmem
            rw [hflagr]
            simp only [Bool.and_false]
            apply diskInv_updateDiskLayout
            refine ⟨?_, ?_, ?_, ?_, ?_, ?_, ?_, ?_, ?_⟩
            · exact (mergeFreeRegions_WF hr hwfP hbP).1
            · exact hwfL
            · exact (mergeFreeRegions_WF hr hwfP hbP).2.1 false hfP
            · exact hfL
            · exact fun hn => hmbr hn
            · exact hlay
            · intro hn
              exact hext (Option.map_eq_none'.mp hn)
            · exact (mergeFreeRegions_WF hr hwfP hbP).2.2
            · exact hbL
          | true =>
            have hflagr : r.LogicalPartition = true := hfL r hrmem
            have hne : d.LogicalPartList ≠ [] := List.ne_nil_of_mem hrmem
            rw [hmbr hne, hflagr,
              (show (decide (PARTITION_STYLE.MBR = PARTITION_STYLE.MBR) &&
                true) = true by decide)]
            apply diskInv_updateDiskLayout
            refine ⟨?_, ?_, ?_, ?_, ?_, ?_, ?_, ?_, ?_⟩
            · exact hwfP
            · exact (mergeFreeRegions_WF hr hwfL hbL).1
            · exact hfP
            · exact (mergeFreeRegions_WF hr hwfL hbL).2.1 true hfL
            · exact fun _ => hmbr hne
            · exact hlay
            · intro hn
              exact absurd (hext (Option.map_eq_none'.mp hn)) hne
            · exact hbP
            · exact (mergeFreeRegions_WF hr hwfL hbL).2.2
    · rw [if_pos hpart] at h
      cases h

theorem partListInv_of_disks {L : PARTLIST} {k : Nat} {dd : DISKENTRY}
    (h : PartListInv L) (hd : DiskInv dd) (M : PARTLIST)
    (hM : M.Disks = L.Disks.set k dd) : PartListInv M := by
  intro x hx
  rw [hM] at hx
  rcases List.mem_or_eq_of_mem_set hx with h' | h'
  · exact h x h'
  · subst h'
    exact hd

theorem diskInv_freshDisk : DiskInv freshDisk := by
  refine ⟨⟨?_, ?_⟩, ⟨?_, ?_⟩, ?_, ?_, ?_, ?_, ?_, ?_, ?_⟩
  · intro q hq
    rcases List.mem_singleton.mp hq with rfl
    decide
  · exact List.pairwise_singleton _ _
  · intro q hq
    exact absurd hq (List.not_mem_nil q)
  · exact List.Pairwise.nil
  · intro q hq
    rcases List.mem_singleton.mp hq with rfl
    rfl
  · intro q hq
    exact absurd hq (List.not_mem_nil q)
  · intro hn
    exact absurd rfl hn
  · intro _ hnone
    exact Option.noConfusion hnone
  · intro _
    rfl
  · intro q hq
    rcases List.mem_singleton.mp hq with rfl
    decide
  · intro q hq
    exact absurd hq (List.not_mem_nil q)

theorem partListInv_freshPartList : PartListInv freshPartList := by
  intro x hx
  rcases List.mem_singleton.mp hx with rfl
  exact diskInv_freshDisk

/-- C2 (amended): the Editor preserves the region-model invariant — in
particular, every disk's primary and logical region lists stay sorted by
ascending start sector and pairwise non-overlapping (inclusive sector
extents) — along the following laws. (1) `CreatePartition` preserves the
invariant whenever the aligned end of the converted request lies strictly
above the target region's start; (2) `CreateExtendedPartition` preserves it
on non-GPT disks whenever the aligned end clears the region start by more
than one sector alignment; (3) `DeletePartition` preserves it
unconditionally; (4) the invariant entails sortedness and inclusive
non-overlap of both lists of every disk; (5) `InsertDiskRegion` refuses any
positive-size insertion that inclusively overlaps an existing non-sentinel
region of a well-formed list. The side conditions in (1) and (2) are
necessary: in the excluded sub-alignment corner the `ULONGLONG` shrink in
`InitializePartitionEntry` wraps around and sortedness is lost (see the
counterexample). -/
theorem C2_lists_sorted_nonoverlapping :
    (∀ (L : PARTLIST) (k : Nat) (logical : Bool) (i SizeBytes : Nat)
       (L' : PARTLIST) (d : DISKENTRY) (r : PARTENTRY) (sc : Nat),
       PartListInv L →
       L.Disks.get? k = some d →
       getRegion d logical i = some r →
       sizeToSectorCount SizeBytes d.BytesPerSector r.SectorCount = some sc →
       r.StartSector < AlignDown (r.StartSector + sc) d.SectorAlignment →
       CreatePartition L k logical i SizeBytes = some L' →
       PartListInv L') ∧
    (∀ (L : PARTLIST) (k : Nat) (logical : Bool) (i SizeBytes : Nat)
       (L' : PARTLIST) (d : DISKENTRY) (r : PARTENTRY) (sc : Nat),
       PartListInv L →
       L.Disks.get? k = some d →
       d.DiskStyle ≠ PARTITION_STYLE.GPT →
       getRegion d logical i = some r →
       sizeToSectorCount SizeBytes d.BytesPerSector r.SectorCount = some sc →
       r.StartSector + d.SectorAlignment <
         AlignDown (r.StartSector + sc) d.SectorAlignment →
       CreateExtendedPartition L k logical i SizeBytes = some L' →
       PartListInv L') ∧
    (∀ (L : PARTLIST) (k : Nat) (logical : Bool) (i : Nat)
       (res : PARTLIST × REGIONREF × List VOLINFO),
       PartListInv L →
       DeletePartition L k logical i = some res →
       PartListInv res.1) ∧
    (∀ d : DISKENTRY, DiskInv d →
       (SortedByStartSector d.PrimaryPartList ∧
        NoOverlapPairwise d.PrimaryPartList) ∧
       (SortedByStartSector d.LogicalPartList ∧
        NoOverlapPairwise d.LogicalPartList)) ∧
    (∀ (DiskEntry : DISKENTRY) (PartEntry q : PARTENTRY) (b : Bool),
       RegionListWF (regionList DiskEntry b) →
       0 < PartEntry.SectorCount →
       q ∈ regionList DiskEntry b →
       isSentinelRegion q = false →
       max PartEntry.StartSector q.StartSector ≤
         min (endSector PartEntry) (endSector q) →
       InsertDiskRegion DiskEntry PartEntry b = none) := by
  refine ⟨?_, ?_, ?_, ?_, ?_⟩
  · intro L k logical i SizeBytes L' d r sc hinvL hdisk hrr hconv hcnd hcr
    unfold CreatePartition at hcr
    rw [hdisk] at hcr
    dsimp only at hcr
    cases hcd : CreatePartitionDisk d logical i SizeBytes with
    | none => rw [hcd] at hcr; cases hcr
    | some dd =>
      rw [hcd, Option.map_some', Option.some_inj] at hcr
      subst hcr
      refine partListInv_assignDriveLetters
        (partListInv_set hinvL
          (createPartitionDisk_inv (hinvL d (List.get?_mem hdisk))
            ?_ hcd))
      intro r' sc' hr' hconv'
      rw [hrr, Option.some_inj] at hr'
      subst hr'
      rw [hconv, Option.some_inj] at hconv'
      subst hconv'
      exact hcnd
  · intro L k logical i SizeBytes L' d r sc hinvL hdisk hsty hrr hconv hcnd
      hcr
    unfold CreateExtendedPartition at hcr
    rw [hdisk] at hcr
    dsimp only at hcr
    cases hcd : CreateExtendedPartitionDisk d logical i SizeBytes with
    | none => rw [hcd] at hcr; cases hcr
    | some dd =>
      rw [hcd, Option.map_some', Option.some_inj] at hcr
      subst hcr
      refine partListInv_assignDriveLetters
        (partListInv_set hinvL
          (createExtendedPartitionDisk_inv (hinvL d (List.get?_mem hdisk))
            hsty ?_ hcd))
      intro r' sc' hr' hconv'
      rw [hrr, Option.some_inj] at hr'
      subst hr'
      rw [hconv, Option.some_inj] at hconv'
      subst hconv'
      exact hcnd
  · intro L k logical i res hinvL hdel
    unfold DeletePartition at hdel
    cases hdisk : L.Disks.get? k with
    | none => rw [hdisk] at hdel; cases hdel
    | some d =>
      rw [hdisk] at hdel
      dsimp only at hdel
      cases hdd : DeletePartitionDisk d logical i with
      | none => rw [hdd] at hdel; cases hdel
      | some dres =>
        rw [hdd] at hdel
        dsimp only at hdel
        rw [Option.some_inj] at hdel
        subst hdel
        dsimp only
        exact partListInv_assignDriveLetters
          (partListInv_of_disks hinvL
            (deletePartitionDisk_inv (hinvL d (List.get?_mem hdisk)) hdd)
            _ rfl)
  · intro d hinv
    exact ⟨regionListWF_sorted hinv.1, regionListWF_sorted hinv.2.1⟩
  · intro DiskEntry PartEntry q b hwf hpos hq hqs hov
    unfold InsertDiskRegion
    rw [insertRegionSorted_refuses PartEntry hpos _ hwf q hq hqs hov]
    rfl

/-- C2, counterexample to the unqualified claim: creating a 512-byte
partition in the fresh disk's free region succeeds, yet leaves the primary
list unsorted — `AlignDown(2048 + 1, 63) = 2016` falls below the region
start 2048, the `ULONGLONG` shrink wraps to `2^64 - 32`, and the trailing
blank region is inserted with start sector 2016 after a region starting at
2048. -/
theorem C2_sorted_counterexample :
    CreatePartition freshPartList 0 false 0 512 ≠ none ∧
    ¬ SortedByStartSector
        (((CreatePartition freshPartList 0 false 0 512).getD
            freshPartList).Disks.headD freshDisk).PrimaryPartList := by
  constructor
  · decide
  · intro hs
    have hmap : ((((CreatePartition freshPartList 0 false 0 512).getD
        freshPartList).Disks.headD freshDisk).PrimaryPartList.map
          (fun p => p.StartSector)) = [2048, 2016] := by decide
    have h2 : ((((CreatePartition freshPartList 0 false 0 512).getD
        freshPartList).Disks.headD freshDisk).PrimaryPartList.map
          (fun p => p.StartSector)).Pairwise (fun a b : Nat => a ≤ b) :=
      List.pairwise_map.mpr hs
    rw [hmap] at h2
    have h3 := (List.pairwise_cons.mp h2).1 2016 (by simp)
    omega

/-- C2, witness: on the fresh disk, an aligned 3,225,600-byte creation
preserves the whole-list invariant; the fresh disk's own singleton primary
list is sorted; and inserting a region overlapping the free region is
refused. -/
theorem C2_lists_sorted_nonoverlapping_witness :
    PartListInv ((CreatePartition freshPartList 0 false 0 3225600).getD
      freshPartList) ∧
    SortedByStartSector freshDisk.PrimaryPartList ∧
    InsertDiskRegion freshDisk (CreateInsertBlankRegion 2048 100 false)
      false = none := by
  refine ⟨?_, ?_, ?_⟩
  · exact C2_lists_sorted_nonoverlapping.1 freshPartList 0 false 0 3225600
      ((CreatePartition freshPartList 0 false 0 3225600).getD freshPartList)
      freshDisk freshFreeRegion 6300 partListInv_freshPartList rfl rfl
      (by decide) (by decide) rfl
  · exact ((C2_lists_sorted_nonoverlapping.2.2.2.1 freshDisk
      diskInv_freshDisk).1).1
  · exact C2_lists_sorted_nonoverlapping.2.2.2.2 freshDisk
      (CreateInsertBlankRegion 2048 100 false) freshFreeRegion false
      diskInv_freshDisk.1 (by decide) (by decide) (by decide) (by decide)

/-! ## Round-trip machinery (C3) -/

theorem forall₂_compose {α β γ : Type _} {R : α → β → Prop}
    {S : β → γ → Prop} {T : α → γ → Prop} {l₁ : List α} {l₂ : List β}
    {l₃ : List γ} (hT : ∀ a b c, R a b → S b c → T a c)
    (h1 : List.Forall₂ R l₁ l₂) (h2 : List.Forall₂ S l₂ l₃) :
    List.Forall₂ T l₁ l₃ := by
  induction h1 generalizing l₃ with
  | nil => cases h2; exact List.Forall₂.nil
  | cons hab _ ih =>
    cases h2 with
    | cons hbc htail => exact List.Forall₂.cons (hT _ _ _ hab hbc) (ih htail)

theorem forall₂_append_cons_decomp {α β : Type _} {R : α → β → Prop}
    {A : List α} {x : α} {B : List α} {l' : List β}
    (h : List.Forall₂ R (A ++ x :: B) l') :
    ∃ A' y B', l' = A' ++ y :: B' ∧ A'.length = A.length ∧
      List.Forall₂ R A A' ∧ R x y ∧ List.Forall₂ R B B' := by
  induction A generalizing l' with
  | nil =>
    cases h with
    | cons hxy htail => exact ⟨[], _, _, rfl, rfl, List.Forall₂.nil, hxy, htail⟩
  | cons a t ih =>
    cases h with
    | cons hab htail =>
      obtain ⟨A', y, B', rfl, hlen, hA, hxy, hB⟩ := ih htail
      exact ⟨_ :: A', y, B', rfl, by simp [hlen],
        List.Forall₂.cons hab hA, hxy, hB⟩

theorem list_get?_append_cons_succ {α : Type _} (l₁ : List α) (x : α)
    (l₂ : List α) (n : Nat) :
    (l₁ ++ x :: l₂).get? (l₁.length + 1 + n) = l₂.get? n := by
  induction l₁ with
  | nil =>
    have h : ([] : List α).length + 1 + n = n + 1 := by
      simp only [List.length_nil]
      omega
    rw [h]
    rfl
  | cons a t ih =>
    have h : (a :: t).length + 1 + n = (t.length + 1 + n) + 1 := by
      simp only [List.length_cons]
      omega
    rw [h]
    show (t ++ x :: l₂).get? (t.length + 1 + n) = l₂.get? n
    exact ih

theorem list_drop_append_cons {α : Type _} (l₁ : List α) (x : α)
    (l₂ : List α) : (l₁ ++ x :: l₂).drop (l₁.length + 1) = l₂ := by
  induction l₁ with
  | nil => rfl
  | cons a t ih =>
    have h : (a :: t).length + 1 = (t.length + 1) + 1 := by
      simp only [List.length_cons]
    rw [h]
    show (t ++ x :: l₂).drop (t.length + 1) = l₂
    exact ih

theorem list_drop_append_cons2 {α : Type _} (l₁ : List α) (x y : α)
    (l₂ : List α) : (l₁ ++ x :: y :: l₂).drop (l₁.length + 2) = l₂ := by
  induction l₁ with
  | nil => rfl
  | cons a t ih =>
    have h : (a :: t).length + 2 = (t.length + 2) + 1 := by
      simp only [List.length_cons]
    rw [h]
    show (t ++ x :: y :: l₂).drop (t.length + 2) = l₂
    exact ih

theorem list_take_append_cons {α : Type _} (l₁ : List α) (x : α)
    (l₂ : List α) : (l₁ ++ x :: l₂).take l₁.length = l₁ := by
  induction l₁ with
  | nil => rfl
  | cons a t ih =>
    show a :: (t ++ x :: l₂).take t.length = a :: t
    rw [ih]

theorem list_get?_set_ne {α : Type _} {i j : Nat} (h : i ≠ j) (l : List α)
    (a : α) : (l.set i a).get? j = l.get? j := by
  induction l generalizing i j with
  | nil => rfl
  | cons b t ih =>
    cases i with
    | zero =>
      cases j with
      | zero => exact absurd rfl h
      | succ m => rfl
    | succ n =>
      cases j with
      | zero => rfl
      | succ m =>
        simp only [List.set, List.get?]
        exact ih (by omega)

theorem list_get?_drop {α : Type _} (l : List α) (n m : Nat) :
    (l.drop n).get? m = l.get? (n + m) := by
  induction n generalizing l with
  | zero =>
    rw [Nat.zero_add]
    rfl
  | succ k ih =>
    cases l with
    | nil => simp
    | cons a t =>
      have h : k + 1 + m = (k + m) + 1 := by omega
      rw [h]
      show (t.drop k).get? m = t.get? (k + m)
      exact ih t

theorem forall₂_of_get? {α β : Type _} {R : α → β → Prop} {l : List α}
    {l' : List β} (hlen : l.length = l'.length)
    (h : ∀ j x y, l.get? j = some x → l'.get? j = some y → R x y) :
    List.Forall₂ R l l' := by
  induction l generalizing l' with
  | nil =>
    cases l' with
    | nil => exact List.Forall₂.nil
    | cons b t => simp at hlen
  | cons a t ih =>
    cases l' with
    | nil => simp at hlen
    | cons b t' =>
      refine List.Forall₂.cons (h 0 a b rfl rfl) (ih (by simpa using hlen) ?_)
      intro j x y hx hy
      exact h (j + 1) x y hx hy

theorem map_topo_of_forall₂ {l l' : List PARTENTRY}
    (h : List.Forall₂ (fun a b => topoProj b = topoProj a) l l') :
    l'.map topoProj = l.map topoProj := by
  induction h with
  | nil => rfl
  | cons hab _ ih => simp [ih, hab]

theorem topoProj_eq_of_parts {p q : PARTENTRY}
    (h1 : q.StartSector = p.StartSector) (h2 : q.SectorCount = p.SectorCount)
    (h3 : q.IsPartitioned = p.IsPartitioned) : topoProj q = topoProj p := by
  unfold topoProj
  rw [h1, h2, h3]

theorem roundShadow_topo {p q : PARTENTRY} (h : roundShadow p q) :
    topoProj q = topoProj p :=
  topoProj_eq_of_parts h.1 h.2.1 h.2.2.1

theorem roundShadow_of_pass_letter {p q s : PARTENTRY}
    (h1 : passShadow p q) (h2 : letterShadow q s) : roundShadow p s := by
  obtain ⟨⟨pi, od, pn, rfl⟩, -, hnum⟩ := h1
  obtain ⟨dl, rfl⟩ := h2
  exact ⟨rfl, rfl, rfl, rfl, fun ha hb => hnum ha hb⟩

theorem map_diskTopo_of_forall₂ {ds ds' : List DISKENTRY}
    (h : List.Forall₂ (fun a b : DISKENTRY =>
        b.PrimaryPartList.map topoProj = a.PrimaryPartList.map topoProj ∧
        b.LogicalPartList.map topoProj = a.LogicalPartList.map topoProj)
      ds ds') :
    ds'.map (fun d =>
        (d.PrimaryPartList.map topoProj, d.LogicalPartList.map topoProj)) =
      ds.map (fun d =>
        (d.PrimaryPartList.map topoProj, d.LogicalPartList.map topoProj)) := by
  induction h with
  | nil => rfl
  | cons hab _ ih => simp [ih, hab.1, hab.2]

theorem forall₂_roundShadow_compose {l₁ l₂ l₃ : List PARTENTRY}
    (h1 : List.Forall₂ passShadow l₁ l₂)
    (h2 : List.Forall₂ letterShadow l₂ l₃) :
    List.Forall₂ roundShadow l₁ l₃ := by
  induction h1 generalizing l₃ with
  | nil => cases h2; exact List.Forall₂.nil
  | cons hab _ ih =>
    cases h2 with
    | cons hbc htail =>
      exact List.Forall₂.cons (roundShadow_of_pass_letter hab hbc) (ih htail)

theorem listTopology_congr {L L' : PARTLIST}
    (h : List.Forall₂ (fun a b : DISKENTRY =>
        b.PrimaryPartList.map topoProj = a.PrimaryPartList.map topoProj ∧
        b.LogicalPartList.map topoProj = a.LogicalPartList.map topoProj)
      L.Disks L'.Disks) :
    listTopology L' = listTopology L := by
  unfold listTopology
  exact map_diskTopo_of_forall₂ h

theorem updateDiskLayout_topo (d : DISKENTRY) :
    (UpdateDiskLayout d).PrimaryPartList.map topoProj =
      d.PrimaryPartList.map topoProj ∧
    (UpdateDiskLayout d).LogicalPartList.map topoProj =
      d.LogicalPartList.map topoProj := by
  obtain ⟨hp, hl, -, -, -⟩ := updateDiskLayout_fieldsEqv d
  exact ⟨map_topo_of_forall₂ (forall₂_imp hp fun a b h =>
      topoProj_eq_of_parts h.1 h.2.1 h.2.2.1),
    map_topo_of_forall₂ (forall₂_imp hl fun a b h =>
      topoProj_eq_of_parts h.1 h.2.1 h.2.2.1)⟩

theorem initializePartitionEntry_ext_ne {d d1 : DISKENTRY} {logical : Bool}
    {i sc : Nat}
    (hinit : InitializePartitionEntry d logical i sc = some d1)
    (hne : d.ExtendedPartition ≠ some (false, i)) :
    d1.ExtendedPartition ≠ some (false, i) := by
  unfold InitializePartitionEntry at hinit
  cases hr : getRegion d logical i with
  | none => rw [hr] at hinit; cases hinit
  | some r =>
    rw [hr] at hinit
    dsimp only at hinit
    split at hinit
    · cases hinit
    · split at hinit
      · rw [Option.some_inj] at hinit
        subst hinit
        rw [(setRegionList_shape d logical _).2.2.1]
        exact hne
      · rw [Option.some_inj] at hinit
        subst hinit
        show d.ExtendedPartition.map _ ≠ some (false, i)
        cases hde : d.ExtendedPartition with
        | none => simp
        | some v =>
          simp only [Option.map_some']
          intro hcontra
          rw [Option.some_inj] at hcontra
          by_cases hcnd : v.1 = logical ∧ i + 1 ≤ v.2
          · rw [if_pos hcnd] at hcontra
            have h1 : v.2 + 1 = i := congrArg Prod.snd hcontra
            omega
          · rw [if_neg hcnd] at hcontra
            rw [hcontra] at hde
            exact hne hde

theorem prevEntry_none {LX : List PARTENTRY} {i : Nat}
    (h : i = 0 ∨ ∀ q, LX.get? (i - 1) = some q → q.IsPartitioned = true) :
    (if i = 0 then none else
      (LX.get? (i - 1)).bind fun q =>
        if q.IsPartitioned then none else some q) = none := by
  by_cases h0 : i = 0
  · rw [if_pos h0]
  · rw [if_neg h0]
    rcases h with h1 | hq
    · exact absurd h1 h0
    · cases hg : LX.get? (i - 1) with
      | none => rfl
      | some q =>
        dsimp only [Option.bind]
        rw [if_pos (hq q hg)]

theorem nextEntry_none {LX : List PARTENTRY} {i : Nat}
    (h : ∀ q, LX.get? (i + 1) = some q → q.IsPartitioned = true) :
    ((LX.get? (i + 1)).bind fun q =>
      if q.IsPartitioned then none else some q) = none := by
  cases hg : LX.get? (i + 1) with
  | none => rfl
  | some q =>
    dsimp only [Option.bind]
    rw [if_pos (h q hg)]

theorem prev_transport {l : List PARTENTRY} {A' T : List PARTENTRY}
    {c : PARTENTRY} {i : Nat}
    (hlen : i < l.length) (hlenA : A'.length = i)
    (hFA : List.Forall₂ roundShadow (l.take i) A')
    (hcp : c.IsPartitioned = true)
    (hprev : i = 0 ∨ ∀ q, l.get? (i - 1) = some q →
      q.IsPartitioned = true) :
    ∀ q', (A' ++ c :: T).get? (i - 1) = some q' →
      q'.IsPartitioned = true := by
  intro q' hq'
  by_cases hi0 : i = 0
  · subst hi0
    have hA : A' = [] := List.length_eq_zero.mp hlenA
    subst hA
    rw [List.nil_append] at hq'
    have hq2 : some c = some q' := hq'
    rw [Option.some_inj] at hq2
    subst hq2
    exact hcp
  · rcases hprev with h0 | hqp
    · exact absurd h0 hi0
    · cases hg : l.get? (i - 1) with
      | none =>
        rw [List.get?_eq_none] at hg
        omega
      | some q =>
        have ht : (l.take i).get? (i - 1) = some q := by
          rw [list_get?_take_lt (by omega : i - 1 < i)]
          exact hg
        obtain ⟨q₂, hq₂, hsh⟩ := forall₂_get? hFA ht
        have hax : (A' ++ c :: T).get? (i - 1) = some q₂ :=
          list_get?_append_left hq₂
        rw [hax, Option.some_inj] at hq'
        subst hq'
        rw [hsh.2.2.1]
        exact hqp q hg

theorem next_transport {l : List PARTENTRY} {A' B' : List PARTENTRY}
    {c : PARTENTRY} {i : Nat}
    (hlenA : A'.length = i)
    (hFB : List.Forall₂ roundShadow (l.drop (i + 1)) B')
    (hnext : ∀ q, l.get? (i + 1) = some q → q.IsPartitioned = true) :
    ∀ q', (A' ++ c :: B').get? (i + 1) = some q' →
      q'.IsPartitioned = true := by
  intro q' hq'
  have hidx : i + 1 = A'.length + 1 + 0 := by omega
  rw [hidx, list_get?_append_cons_succ] at hq'
  cases hg : l.get? (i + 1) with
  | none =>
    have hd : (l.drop (i + 1)).get? 0 = none := by
      rw [list_get?_drop, Nat.add_zero]
      exact hg
    rw [List.get?_eq_none] at hd
    have hlenB := forall₂_length hFB
    have hb0 : B'.get? 0 = none := List.get?_eq_none.mpr (by omega)
    rw [hb0] at hq'
    cases hq'
  | some q =>
    have hd : (l.drop (i + 1)).get? 0 = some q := by
      rw [list_get?_drop, Nat.add_zero]
      exact hg
    obtain ⟨q₂, hq₂, hsh⟩ := forall₂_get? hFB hd
    rw [hq₂, Option.some_inj] at hq'
    subst hq'
    rw [hsh.2.2.1]
    exact hnext q hg

theorem merge_none_none {A' B' : List PARTENTRY} {c : PARTENTRY} {i : Nat}
    (hlenA : A'.length = i)
    (hprevnone : (if i = 0 then none else
      ((A' ++ c :: B').get? (i - 1)).bind fun q =>
        if q.IsPartitioned then none else some q) = none)
    (hnextnone : (((A' ++ c :: B').get? (i + 1)).bind fun q =>
      if q.IsPartitioned then none else some q) = none) :
    (mergeFreeRegions (A' ++ c :: B') i c).1 =
      A' ++ convertToFreeRegion c :: B' := by
  unfold mergeFreeRegions
  dsimp only
  rw [hprevnone, hnextnone]
  dsimp only
  rw [← hlenA, list_take_append_cons, list_drop_append_cons]

theorem merge_none_some {A' B'' : List PARTENTRY} {c b : PARTENTRY}
    {i : Nat} (hlenA : A'.length = i) (hb : b.IsPartitioned = false)
    (hprevnone : (if i = 0 then none else
      ((A' ++ c :: b :: B'').get? (i - 1)).bind fun q =>
        if q.IsPartitioned then none else some q) = none) :
    (mergeFreeRegions (A' ++ c :: b :: B'') i c).1 =
      A' ++
        { b with
          StartSector := c.StartSector
          SectorCount := uadd64 b.SectorCount c.SectorCount } :: B'' := by
  have hnextsome : (((A' ++ c :: b :: B'').get? (i + 1)).bind fun q =>
      if q.IsPartitioned then none else some q) = some b := by
    have hidx : i + 1 = A'.length + 1 + 0 := by omega
    rw [hidx, list_get?_append_cons_succ]
    dsimp only [List.get?, Option.bind]
    rw [if_neg (by simp [hb])]
  unfold mergeFreeRegions
  dsimp only
  rw [hprevnone, hnextsome]
  dsimp only
  rw [← hlenA, list_take_append_cons, list_drop_append_cons2]

/-- The not-mounted, non-extended case of `DeletePartitionDisk`, in closed
form. -/
theorem deletePartitionDisk_not_mounted {dX : DISKENTRY} {side : Bool}
    {i : Nat} {c : PARTENTRY}
    (hc : getRegion dX side i = some c)
    (hcp : c.IsPartitioned = true)
    (hnm : isMountedPartition c = false)
    (hnotext : ¬(¬side = true ∧ dX.ExtendedPartition = some (false, i)))
    (hsel : (decide (dX.DiskStyle = PARTITION_STYLE.MBR) &&
      c.LogicalPartition) = side) :
    DeletePartitionDisk dX side i = some
      (UpdateDiskLayout
        { setRegionList dX side
            (mergeFreeRegions (regionList dX side) i c).1 with
          ExtendedPartition := dX.ExtendedPartition.map (fun rr =>
            if rr.1 = side then
              (rr.1, adjustIndexAfterRemovals
                (mergeFreeRegions (regionList dX side) i c).2.2 rr.2)
            else rr) },
       (side, (mergeFreeRegions (regionList dX side) i c).2.1), []) := by
  unfold DeletePartitionDisk
  rw [hc]
  dsimp only
  rw [if_neg (not_not_intro hcp), if_neg hnotext, if_neg (by simp [hnm])]
  dsimp only
  rw [hsel]

/-- Disk-level round trip: creating a partition in a free region whose
neighbours are partitioned (or absent) and immediately deleting it restores
the disk's region topology, for any drive-letter shadow of the intermediate
disk. No alignment side condition is needed: in the sub-alignment corner the
wrapped `ULONGLONG` shrink of the creation is cancelled by the wrapped
`ULONGLONG` merge sum of the deletion. -/
theorem disk_roundtrip {d : DISKENTRY} {side : Bool} {i SizeBytes : Nat}
    {dC dX : DISKENTRY} {r : PARTENTRY} {sc : Nat}
    {dres : DISKENTRY × (Bool × Nat) × List VOLINFO}
    (hinv : DiskInv d)
    (hstyle : d.DiskStyle ≠ PARTITION_STYLE.GPT)
    (hr : getRegion d side i = some r)
    (hconv : sizeToSectorCount SizeBytes d.BytesPerSector r.SectorCount =
      some sc)
    (hextne : d.ExtendedPartition ≠ some (false, i))
    (hprev : i = 0 ∨ ∀ q, (regionList d side).get? (i - 1) = some q →
      q.IsPartitioned = true)
    (hnext : ∀ q, (regionList d side).get? (i + 1) = some q →
      q.IsPartitioned = true)
    (hcd : CreatePartitionDisk d side i SizeBytes = some dC)
    (hshX : assignDisksShadow dC dX)
    (hdd : DeletePartitionDisk dX side i = some dres) :
    dres.1.PrimaryPartList.map topoProj = d.PrimaryPartList.map topoProj ∧
    dres.1.LogicalPartList.map topoProj = d.LogicalPartList.map topoProj := by
  obtain ⟨hwfP, hwfL, hfP, hfL, hmbr, hlay, hext, hbP, hbL⟩ := hinv
  unfold CreatePartitionDisk at hcd
  rw [hr] at hcd
  dsimp only at hcd
  by_cases hpart : r.IsPartitioned = true
  · rw [if_pos hpart] at hcd
    cases hcd
  rw [if_neg hpart] at hcd
  split at hcd
  · cases hcd
  rw [hconv] at hcd
  dsimp only at hcd
  cases hinit : InitializePartitionEntry d side i sc with
  | none => rw [hinit] at hcd; cases hcd
  | some d1 =>
    rw [hinit, Option.map_some', Option.some_inj] at hcd
    subst hcd
    have hfree : r.IsPartitioned = false := by
      revert hpart
      cases r.IsPartitioned <;> simp
    have hgets : (regionList d side).get? i = some r := hr
    have hrmem : r ∈ regionList d side := List.get?_mem hgets
    have hlen : i < (regionList d side).length := list_lt_length_of_get? hgets
    have hdec := list_decomp_of_get? hgets
    have hsc2 := sizeToSectorCount_bounds hconv
    have hle := alignDown_le (r.StartSector + sc) d.SectorAlignment
    have hrb : r.StartSector + r.SectorCount < U64MOD := by
      cases side
      · exact hbP r hrmem
      · exact hbL r hrmem
    obtain ⟨hbr1, hbr2⟩ :=
      initializePartitionEntry_branches_all d side i r sc d1 hr hinit
    obtain ⟨hoside, -⟩ := initializePartitionEntry_sides hinit
    obtain ⟨hsty1, hlb1, -, -, -, -⟩ := initializePartitionEntry_fields hinit
    have hextd1 : d1.ExtendedPartition ≠ some (false, i) :=
      initializePartitionEntry_ext_ne hinit hextne
    have h1g : d1.DiskStyle ≠ PARTITION_STYLE.GPT := by
      rw [hsty1]
      exact hstyle
    have h2g : d1.LayoutBuffer ≠ none := by
      rw [hlb1]
      exact hlay hstyle
    obtain ⟨hCsty, -, -, hCext, hCp, hCl, -, -, -⟩ :=
      updateDiskLayout_success h1g h2g
    obtain ⟨⟨pl, ll, hbX⟩, hXp, hXl⟩ := hshX
    have hRp : List.Forall₂ roundShadow d1.PrimaryPartList
        dX.PrimaryPartList := forall₂_roundShadow_compose hCp hXp
    have hRl : List.Forall₂ roundShadow d1.LogicalPartList
        dX.LogicalPartList := forall₂_roundShadow_compose hCl hXl
    have hRside : List.Forall₂ roundShadow (regionList d1 side)
        (regionList dX side) := by
      cases side
      · exact hRp
      · exact hRl
    have hRother : List.Forall₂ roundShadow (regionList d1 (!side))
        (regionList dX (!side)) := by
      cases side
      · exact hRl
      · exact hRp
    have hXsty : dX.DiskStyle = PARTITION_STYLE.MBR := by
      rw [hbX]
      exact hCsty
    have hXext : dX.ExtendedPartition = d1.ExtendedPartition := by
      rw [hbX]
      exact hCext
    have hXextne2 : dX.ExtendedPartition ≠ some (false, i) := by
      rw [hXext]
      exact hextd1
    have hnotext : ¬(¬side = true ∧
        dX.ExtendedPartition = some (false, i)) :=
      fun hco => hXextne2 hco.2
    have hflagside : r.LogicalPartition = side := by
      cases side
      · exact hfP r hrmem
      · exact hfL r hrmem
    have htklen : ((regionList d side).take i).length = i := by
      rw [List.length_take]
      omega
    have hothermap : (regionList dX (!side)).map topoProj =
        (regionList d (!side)).map topoProj := by
      have h1 := map_topo_of_forall₂ (forall₂_imp hRother
        fun a b h => roundShadow_topo h)
      rw [h1, hoside]
    by_cases hwhole : sc = 0 ∨
        usub64 (AlignDown (r.StartSector + sc) d.SectorAlignment)
          r.StartSector = r.SectorCount
    · have hRV : List.Forall₂ roundShadow
          ((regionList d side).take i ++ stampNewPartition r ::
            (regionList d side).drop (i + 1)) (regionList dX side) := by
        rw [← hbr1 hwhole]
        exact hRside
      obtain ⟨A', c, B', hLX, hlenA0, hFA, hRc, hFB⟩ :=
        forall₂_append_cons_decomp hRV
      have hlenA : A'.length = i := by rw [hlenA0, htklen]
      have hcs : c.StartSector = r.StartSector := hRc.1
      have hcc : c.SectorCount = r.SectorCount := hRc.2.1
      have hcp : c.IsPartitioned = true := hRc.2.2.1
      have hcf : c.LogicalPartition = r.LogicalPartition := hRc.2.2.2.1
      have hcnum : c.PartitionNumber = 0 := hRc.2.2.2.2 rfl rfl
      have hc : getRegion dX side i = some c := by
        show (regionList dX side).get? i = some c
        rw [hLX, ← hlenA]
        exact list_get?_append_cons A' c B'
      have hnm : isMountedPartition c = false := by
        simp [isMountedPartition, hcnum]
      have hseleq : (decide (dX.DiskStyle = PARTITION_STYLE.MBR) &&
          c.LogicalPartition) = side := by
        rw [hXsty, hcf, hflagside]
        cases side <;> decide
      rw [deletePartitionDisk_not_mounted hc hcp hnm hnotext hseleq,
        Option.some_inj] at hdd
      subst hdd
      have hpX : ∀ q', (A' ++ c :: B').get? (i - 1) = some q' →
          q'.IsPartitioned = true :=
        prev_transport hlen hlenA hFA hcp hprev
      have hnX : ∀ q', (A' ++ c :: B').get? (i + 1) = some q' →
          q'.IsPartitioned = true :=
        next_transport hlenA hFB hnext
      have hmg : (mergeFreeRegions (regionList dX side) i c).1 =
          A' ++ convertToFreeRegion c :: B' := by
        rw [hLX]
        exact merge_none_none hlenA (prevEntry_none (Or.inr hpX))
          (nextEntry_none hnX)
      have hmidtopo : topoProj (convertToFreeRegion c) = topoProj r := by
        show (c.StartSector, c.SectorCount, false) =
          (r.StartSector, r.SectorCount, r.IsPartitioned)
        rw [hcs, hcc, hfree]
      have hmapA : A'.map topoProj =
          ((regionList d side).take i).map topoProj :=
        map_topo_of_forall₂ (forall₂_imp hFA fun a b h => roundShadow_topo h)
      have hmapB : B'.map topoProj =
          ((regionList d side).drop (i + 1)).map topoProj :=
        map_topo_of_forall₂ (forall₂_imp hFB fun a b h => roundShadow_topo h)
      have hsidemap : ((mergeFreeRegions (regionList dX side) i c).1).map
          topoProj = (regionList d side).map topoProj := by
        rw [hmg]
        simp only [List.map_append, List.map_cons]
        rw [hmapA, hmapB, hmidtopo]
        conv_rhs => rw [hdec]
        simp only [List.map_append, List.map_cons]
      cases side with
      | false =>
        exact ⟨((updateDiskLayout_topo _).1).trans hsidemap,
          ((updateDiskLayout_topo _).2).trans hothermap⟩
      | true =>
        exact ⟨((updateDiskLayout_topo _).1).trans hothermap,
          ((updateDiskLayout_topo _).2).trans hsidemap⟩
    · have hRV : List.Forall₂ roundShadow
          ((regionList d side).take i ++
            stampNewPartition
              { r with
                SectorCount :=
                  usub64 (AlignDown (r.StartSector + sc) d.SectorAlignment)
                    r.StartSector } ::
              CreateInsertBlankRegion
                (AlignDown (r.StartSector + sc) d.SectorAlignment)
                (r.StartSector + r.SectorCount -
                  AlignDown (r.StartSector + sc) d.SectorAlignment)
                r.LogicalPartition ::
              (regionList d side).drop (i + 1)) (regionList dX side) := by
        rw [← hbr2 hwhole]
        exact hRside
      obtain ⟨A', c, B2, hLX, hlenA0, hFA, hRc, hFB2⟩ :=
        forall₂_append_cons_decomp hRV
      cases hFB2 with
      | @cons _ b2 _ B3 hRb hFB =>
        have hlenA : A'.length = i := by rw [hlenA0, htklen]
        have hcs : c.StartSector = r.StartSector := hRc.1
        have hcc : c.SectorCount =
            usub64 (AlignDown (r.StartSector + sc) d.SectorAlignment)
              r.StartSector := hRc.2.1
        have hcp : c.IsPartitioned = true := hRc.2.2.1
        have hcf : c.LogicalPartition = r.LogicalPartition := hRc.2.2.2.1
        have hcnum : c.PartitionNumber = 0 := hRc.2.2.2.2 rfl rfl
        have hbs : b2.StartSector =
            AlignDown (r.StartSector + sc) d.SectorAlignment := hRb.1
        have hbc : b2.SectorCount = r.StartSector + r.SectorCount -
            AlignDown (r.StartSector + sc) d.SectorAlignment := hRb.2.1
        have hbp : b2.IsPartitioned = false := hRb.2.2.1
        have hc : getRegion dX side i = some c := by
          show (regionList dX side).get? i = some c
          rw [hLX, ← hlenA]
          exact list_get?_append_cons A' c (b2 :: B3)
        have hnm : isMountedPartition c = false := by
          simp [isMountedPartition, hcnum]
        have hseleq : (decide (dX.DiskStyle = PARTITION_STYLE.MBR) &&
            c.LogicalPartition) = side := by
          rw [hXsty, hcf, hflagside]
          cases side <;> decide
        rw [deletePartitionDisk_not_mounted hc hcp hnm hnotext hseleq,
          Option.some_inj] at hdd
        subst hdd
        have hpX : ∀ q', (A' ++ c :: b2 :: B3).get? (i - 1) = some q' →
            q'.IsPartitioned = true :=
          prev_transport hlen hlenA hFA hcp hprev
        have hmg : (mergeFreeRegions (regionList dX side) i c).1 =
            A' ++
              { b2 with
                StartSector := c.StartSector
                SectorCount := uadd64 b2.SectorCount c.SectorCount } :: B3 := by
          rw [hLX]
          exact merge_none_some hlenA hbp (prevEntry_none (Or.inr hpX))
        have harith : uadd64 b2.SectorCount c.SectorCount =
            r.SectorCount := by
          rw [hbc, hcc]
          unfold uadd64 usub64
          by_cases hcase : r.StartSector ≤
              AlignDown (r.StartSector + sc) d.SectorAlignment
          · rw [if_pos hcase]
            have he : r.StartSector + r.SectorCount -
                AlignDown (r.StartSector + sc) d.SectorAlignment +
                (AlignDown (r.StartSector + sc) d.SectorAlignment -
                  r.StartSector) = r.SectorCount := by omega
            rw [he]
            exact Nat.mod_eq_of_lt (by omega)
          · rw [if_neg hcase]
            have he : r.StartSector + r.SectorCount -
                AlignDown (r.StartSector + sc) d.SectorAlignment +
                (AlignDown (r.StartSector + sc) d.SectorAlignment + U64MOD -
                  r.StartSector) = r.SectorCount + U64MOD := by omega
            rw [he, Nat.add_mod_right]
            exact Nat.mod_eq_of_lt (by omega)
        have hmidtopo : topoProj
            { b2 with
              StartSector := c.StartSector
              SectorCount := uadd64 b2.SectorCount c.SectorCount } =
            topoProj r := by
          show (c.StartSector, uadd64 b2.SectorCount c.SectorCount,
            b2.IsPartitioned) =
            (r.StartSector, r.SectorCount, r.IsPartitioned)
          rw [hcs, harith, hbp, hfree]
        have hmapA : A'.map topoProj =
            ((regionList d side).take i).map topoProj :=
          map_topo_of_forall₂ (forall₂_imp hFA fun a b h => roundShadow_topo h)
        have hmapB : B3.map topoProj =
            ((regionList d side).drop (i + 1)).map topoProj :=
          map_topo_of_forall₂ (forall₂_imp hFB fun a b h => roundShadow_topo h)
        have hsidemap : ((mergeFreeRegions (regionList dX side) i c).1).map
            topoProj = (regionList d side).map topoProj := by
          rw [hmg]
          simp only [List.map_append, List.map_cons]
          rw [hmapA, hmapB, hmidtopo]
          conv_rhs => rw [hdec]
          simp only [List.map_append, List.map_cons]
        cases side with
        | false =>
          exact ⟨((updateDiskLayout_topo _).1).trans hsidemap,
            ((updateDiskLayout_topo _).2).trans hothermap⟩
        | true =>
          exact ⟨((updateDiskLayout_topo _).1).trans hothermap,
            ((updateDiskLayout_topo _).2).trans hsidemap⟩

theorem assignShadow_topo {a b : DISKENTRY} (h : assignDisksShadow a b) :
    b.PrimaryPartList.map topoProj = a.PrimaryPartList.map topoProj ∧
    b.LogicalPartList.map topoProj = a.LogicalPartList.map topoProj :=
  ⟨map_topo_of_forall₂ (forall₂_imp h.2.1 fun x y hh => by
      rcases hh with ⟨dl, rfl⟩
      rfl),
   map_topo_of_forall₂ (forall₂_imp h.2.2 fun x y hh => by
      rcases hh with ⟨dl, rfl⟩
      rfl)⟩

/-- C3: `create_partition` on a free region followed immediately by
`delete_partition` of the created partition restores the whole partition
list's region topology (start sector, sector count and partitioned flag of
every region of every disk), provided (a) the region's neighbours in its
list are partitioned or absent (so the deletion merges exactly the space
the creation split off), (b) the disk is not GPT-partitioned, and (c) the
disk's extended container, if any, is not the target region. No alignment
condition is needed: even in the sub-alignment corner, where the creation's
`ULONGLONG` shrink wraps modulo `2^64`, the deletion's `ULONGLONG` merge
addition wraps back and the original sector count reappears. -/
theorem C3_create_delete_roundtrip
    (L : PARTLIST) (k : Nat) (side : Bool) (i SizeBytes : Nat)
    (d : DISKENTRY) (r : PARTENTRY) (sc : Nat) (L1 : PARTLIST)
    (res : PARTLIST × REGIONREF × List VOLINFO)
    (hinvL : PartListInv L)
    (hdisk : L.Disks.get? k = some d)
    (hstyle : d.DiskStyle ≠ PARTITION_STYLE.GPT)
    (hr : getRegion d side i = some r)
    (hconv : sizeToSectorCount SizeBytes d.BytesPerSector r.SectorCount =
      some sc)
    (hext : d.ExtendedPartition ≠ some (false, i))
    (hprev : i = 0 ∨ ∀ q, (regionList d side).get? (i - 1) = some q →
      q.IsPartitioned = true)
    (hnext : ∀ q, (regionList d side).get? (i + 1) = some q →
      q.IsPartitioned = true)
    (hcreate : CreatePartition L k side i SizeBytes = some L1)
    (hdelete : DeletePartition L1 k side i = some res) :
    listTopology res.1 = listTopology L := by
  unfold CreatePartition at hcreate
  rw [hdisk] at hcreate
  dsimp only at hcreate
  cases hcd : CreatePartitionDisk d side i SizeBytes with
  | none => rw [hcd] at hcreate; cases hcreate
  | some dC =>
    rw [hcd, Option.map_some', Option.some_inj] at hcreate
    have hshM : List.Forall₂ assignDisksShadow (L.Disks.set k dC)
        L1.Disks := by
      have h := assignDriveLetters_shadow { L with Disks := L.Disks.set k dC }
      rw [hcreate] at h
      exact h
    have hMk : (L.Disks.set k dC).get? k = some dC :=
      list_get?_set_self hdisk dC
    obtain ⟨dX, hgetX, hshX⟩ := forall₂_get? hshM hMk
    unfold DeletePartition at hdelete
    rw [hgetX] at hdelete
    dsimp only at hdelete
    cases hdd : DeletePartitionDisk dX side i with
    | none => rw [hdd] at hdelete; cases hdelete
    | some dres =>
      rw [hdd] at hdelete
      dsimp only at hdelete
      rw [Option.some_inj] at hdelete
      have htopo := disk_roundtrip (hinvL d (List.get?_mem hdisk)) hstyle hr
        hconv hext hprev hnext hcd hshX hdd
      have hres1 : res.1 = AssignDriveLetters
          { SystemPartition := if L1.SystemPartition = some ⟨k, side, i⟩
              then none else L1.SystemPartition
            Disks := L1.Disks.set k dres.1 } := by
        rw [← hdelete]
      have hshM2 := assignDriveLetters_shadow
        { SystemPartition := if L1.SystemPartition = some ⟨k, side, i⟩
            then none else L1.SystemPartition
          Disks := L1.Disks.set k dres.1 }
      rw [hres1]
      refine listTopology_congr (forall₂_of_get? ?_ ?_)
      · have e1 : (L1.Disks.set k dres.1).length =
            (AssignDriveLetters
              { SystemPartition := if L1.SystemPartition = some ⟨k, side, i⟩
                  then none else L1.SystemPartition
                Disks := L1.Disks.set k dres.1 }).Disks.length :=
          forall₂_length hshM2
        have e2 : (L1.Disks.set k dres.1).length = L1.Disks.length :=
          List.length_set _ _ _
        have e3 : (L.Disks.set k dC).length = L1.Disks.length :=
          forall₂_length hshM
        have e4 : (L.Disks.set k dC).length = L.Disks.length :=
          List.length_set _ _ _
        omega
      · intro j x y hx hy
        by_cases hj : j = k
        · subst hj
          rw [hdisk, Option.some_inj] at hx
          subst hx
          have hk2 : (L1.Disks.set j dres.1).get? j = some dres.1 :=
            list_get?_set_self hgetX dres.1
          obtain ⟨y2, hy2, hshY⟩ := forall₂_get? hshM2 hk2
          rw [hy2, Option.some_inj] at hy
          subst hy
          exact ⟨(assignShadow_topo hshY).1.trans htopo.1,
            (assignShadow_topo hshY).2.trans htopo.2⟩
        · have hkj : k ≠ j := fun he => hj he.symm
          have hMj : (L.Disks.set k dC).get? j = some x := by
            rw [list_get?_set_ne hkj L.Disks dC]
            exact hx
          obtain ⟨b1, hb1, hsh1⟩ := forall₂_get? hshM hMj
          have hM2j : (L1.Disks.set k dres.1).get? j = some b1 := by
            rw [list_get?_set_ne hkj L1.Disks dres.1]
            exact hb1
          obtain ⟨b2, hb2, hsh2⟩ := forall₂_get? hshM2 hM2j
          rw [hb2, Option.some_inj] at hy
          subst hy
          exact ⟨(assignShadow_topo hsh2).1.trans (assignShadow_topo hsh1).1,
            (assignShadow_topo hsh2).2.trans (assignShadow_topo hsh1).2⟩

/-- C3, witness at the sub-alignment corner: a 512-byte creation on the
fresh disk converts to one sector, whose aligned end 2016 falls below the
region start 2048, so the created entry's count is the wrapped
`2^64 - 32`; deleting it merges `34272 + (2^64 - 32) ≡ 34240 (mod 2^64)`
and the fresh topology is restored. -/
theorem C3_create_delete_roundtrip_witness :
    listTopology (((DeletePartition
        ((CreatePartition freshPartList 0 false 0 512).getD freshPartList)
        0 false 0).getD (freshPartList, ⟨0, false, 0⟩, [])).1) =
      listTopology freshPartList :=
  C3_create_delete_roundtrip freshPartList 0 false 0 512 freshDisk
    freshFreeRegion 1
    ((CreatePartition freshPartList 0 false 0 512).getD freshPartList)
    ((DeletePartition
        ((CreatePartition freshPartList 0 false 0 512).getD freshPartList)
        0 false 0).getD (freshPartList, ⟨0, false, 0⟩, []))
    partListInv_freshPartList rfl (by decide) rfl (by decide)
    (by decide) (Or.inl rfl) (fun q hq => nomatch hq) rfl rfl

end PartListSpec
